import Mathlib

/-!
# tlsguard: rule evaluation, identity resolution and the decision pipeline

A shallow embedding of the Go package `tlsguard` (config.go, header.go,
iprange.go, main.go, external_data.go, iface_helper.go).

* Go maps are association lists; a lookup takes the first entry of a key.
* `time.Time` is an integer instant, `Before` is `<`, `After` is `>`.
* Calls into the Go standard library (net, regexp, time, text/template) and
  into the operating system are fields of `Std` and `World`; the package code
  itself is translated function by function and keeps its Go names.
* A function under which a slice can be indexed out of range returns `Run`:
  its results, or the run-time error with which it stops.
-/

namespace Tlsguard

/-! ## net/http headers -/

namespace textproto

/-- Token bytes of a header field name (Go `validHeaderFieldByte`): letters,
digits and the punctuation of RFC 7230 tokens; 39 is the apostrophe and 96 the
grave accent. -/
def validHeaderFieldByte (c : Char) : Bool :=
  c.isAlphanum || "!#$%&*+-.^_|~".data.contains c || c.toNat == 39 || c.toNat == 96

/-- The rewriting loop of Go `canonicalMIMEHeaderKey`: upper case at the start
and after each dash, lower case elsewhere. -/
def canonLoop : Bool → List Char → List Char
  | _, [] => []
  | upper, c :: cs =>
    let c1 := if upper && c.isLower then c.toUpper
              else if !upper && c.isUpper then c.toLower else c
    c1 :: canonLoop (c1 == '-') cs

/-- Go `textproto.CanonicalMIMEHeaderKey`: a key with a byte outside the token
set is returned unchanged, any other key is canonicalised. -/
def CanonicalMIMEHeaderKey (s : String) : String :=
  if s.data.all validHeaderFieldByte then String.mk (canonLoop true s.data) else s

end textproto

namespace http

/-- Go `http.Header`, a `map[string][]string` under canonical keys. -/
abbrev Header := List (String × List String)

/-- Go `Header.Get`: the first value under the canonical key, `""` if none. -/
def Header.Get (h : http.Header) (key : String) : String :=
  match h.lookup (textproto.CanonicalMIMEHeaderKey key) with
  | some (v :: _) => v
  | _ => ""

/-- Go `Header.Del`: drops the entry of the canonical key. -/
def Header.Del (h : http.Header) (key : String) : Header :=
  h.filter (fun e => e.1 != textproto.CanonicalMIMEHeaderKey key)

/-- Go `Header.Set`: the canonical key now holds exactly `[value]`. -/
def Header.Set (h : http.Header) (key value : String) : Header :=
  (textproto.CanonicalMIMEHeaderKey key, [value]) :: Header.Del h key

end http

open http

/-! ## Standard-library boundary -/

/-- Go `net.IP`, a byte slice. -/
abbrev IP := List Nat

/-- Go `net.IPNet`. -/
structure IPNet where
  IP : List Nat
  Mask : List Nat
deriving DecidableEq, Repr

/-- Go `net.Addr` as `(*net.Interface).Addrs` returns it: a `*net.IPNet`, a
`*net.IPAddr`, or another implementation. -/
inductive Addr where
  | ipNet (v : IPNet)
  | ipAddr (IP : List Nat)
  | other
deriving DecidableEq, Repr

/-- Go `*regexp.Regexp`, identified by the expression it was compiled from. -/
structure Regexp where
  expr : String
deriving DecidableEq, Repr

/-- Go `*template.Template` as built by `template.New(name).Parse(text)`. -/
structure Template where
  name : String
  text : String
deriving DecidableEq, Repr

/-- Go `pkix.Name`, the subject of a certificate. -/
structure Name where
  CommonName : String
deriving DecidableEq, Repr

/-- Go `x509.Certificate`, the fields the package reads. -/
structure Certificate where
  SerialNumber : Int
  Subject : Name
  DNSNames : List String
  EmailAddresses : List String
deriving DecidableEq, Repr

/-- Go `tls.ConnectionState`. -/
structure ConnectionState where
  PeerCertificates : List Certificate
deriving DecidableEq, Repr

/-- Go `http.Request`, the fields the package reads and writes. -/
structure Request where
  TLS : Option ConnectionState
  Header : http.Header
deriving DecidableEq, Repr

/-- The pure standard-library functions the package calls. -/
structure Std where
  /-- `net.ParseIP`; `none` is the nil result. -/
  ParseIP : String → Option IP
  /-- `net.ParseCIDR`, its `*IPNet` result or its error. -/
  ParseCIDR : String → Except String IPNet
  /-- `(*IPNet).Contains`. -/
  Contains : IPNet → IP → Bool
  /-- `(*IPNet).String`. -/
  cidrString : IPNet → String
  /-- `IP.To4`; `none` is the nil result. -/
  To4 : IP → Option IP
  /-- `IP.To16`; `none` is the nil result. -/
  To16 : IP → Option IP
  /-- `IPMask.Size`: the leading ones and the bits of the mask. -/
  Size : List Nat → Nat × Nat
  /-- `IP.String`, what the verb `%s` prints of a `net.IP`. -/
  ipString : IP → String
  /-- `regexp.Compile`. -/
  Compile : String → Except String Regexp
  /-- `(*Regexp).MatchString`. -/
  MatchString : Regexp → String → Bool
  /-- `time.ParseDuration`, in nanoseconds. -/
  ParseDuration : String → Except String Int
  /-- `template.New(name).Delims("[[", "]]").Parse(text)`. -/
  ParseTemplate : String → String → Except String Template
  /-- `(*Template).Execute` on the map holding `Cert` (when given) and `Req`. -/
  Execute : Template → Option Certificate → Request → Except String String

/-! ## Rules (config.go, header.go, iprange.go) -/

/-- The implementations of the Go interface `Rule`: `*RuleAllOf`, `*RuleAnyOf`,
`*RuleNoneOf`, `*RuleIPRange` and `*RuleHeader`, each with its fields. -/
inductive Rule where
  | allOf (Rules : List Rule)
  | anyOf (Rules : List Rule)
  | noneOf (Rules : List Rule)
  | ipRange (Ranges : List String) (AddInterface : Bool) (allowedCidrs : List IPNet)
  | header (Headers : List (String × String)) (allowedHeaders : List (String × Regexp))

/-- The loop of `isIPInRange` over `r.allowedCidrs`. -/
def RuleIPRange.isIPInRange.loop (S : Std) (realIP : IP) : List IPNet → Bool × String
  | [] => (false, "")
  | cidr :: rest =>
    if S.Contains cidr realIP then (true, S.cidrString cidr)
    else RuleIPRange.isIPInRange.loop S realIP rest

/-- Go `(*RuleIPRange).isIPInRange`. -/
def RuleIPRange.isIPInRange (S : Std) (allowedCidrs : List IPNet) (ip : String) :
    Bool × String :=
  match S.ParseIP ip with
  | none => (false, "")
  | some realIP => RuleIPRange.isIPInRange.loop S realIP allowedCidrs

/-- Go `(*RuleIPRange).Match`; it reads and writes `req.Header` only. -/
def RuleIPRange.Match (S : Std) (allowedCidrs : List IPNet) (h : http.Header) : Bool × http.Header :=
  let realIP := h.Get "X-Real-Ip"
  let realIP := if realIP = "" then h.Get "X-Forwarded-For" else realIP
  match RuleIPRange.isIPInRange S allowedCidrs realIP with
  | (true, cidr) => (true, h.Set "X-TLSGuard-Cidr" cidr)
  | (false, _) => (false, h)

/-- The loop of `(*RuleHeader).Match` over `r.allowedHeaders`; `value = ""` is
`len(value) == 0`. -/
def RuleHeader.Match.loop (S : Std) (h : http.Header) : List (String × Regexp) → Bool
  | [] => true
  | (key, regex) :: rest =>
    let value := h.Get key
    if value = "" then false
    else if !S.MatchString regex value then false
    else RuleHeader.Match.loop S h rest

/-- Go `(*RuleHeader).Match`. -/
def RuleHeader.Match (S : Std) (allowedHeaders : List (String × Regexp)) (h : http.Header) :
    Bool × http.Header :=
  if RuleHeader.Match.loop S h allowedHeaders then (true, h.Set "X-TLSGuard-Header" "true")
  else (false, h)

mutual
/-- Go `Rule.Match`, dispatched on the implementation; the header map of the
request is threaded through. -/
def Rule.Match (S : Std) : Rule → http.Header → Bool × http.Header
  | .allOf rules, h => RuleAllOf.Match S rules h
  | .anyOf rules, h => RuleAnyOf.Match S rules h
  | .noneOf rules, h => RuleNoneOf.Match S rules h
  | .ipRange _ _ allowedCidrs, h => RuleIPRange.Match S allowedCidrs h
  | .header _ allowedHeaders, h => RuleHeader.Match S allowedHeaders h
/-- Go `(*RuleAllOf).Match`, the loop over `r.Rules`. -/
def RuleAllOf.Match (S : Std) : List Rule → http.Header → Bool × http.Header
  | [], h => (true, h)
  | rule :: rest, h =>
    match Rule.Match S rule h with
    | (false, h1) => (false, h1)
    | (true, h1) => RuleAllOf.Match S rest h1
/-- Go `(*RuleAnyOf).Match`, the loop over `r.Rules`. -/
def RuleAnyOf.Match (S : Std) : List Rule → http.Header → Bool × http.Header
  | [], h => (false, h)
  | rule :: rest, h =>
    match Rule.Match S rule h with
    | (true, h1) => (true, h1)
    | (false, h1) => RuleAnyOf.Match S rest h1
/-- Go `(*RuleNoneOf).Match`, the loop over `r.Rules`. -/
def RuleNoneOf.Match (S : Std) : List Rule → http.Header → Bool × http.Header
  | [], h => (true, h)
  | rule :: rest, h =>
    match Rule.Match S rule h with
    | (true, h1) => (false, h1)
    | (false, h1) => RuleNoneOf.Match S rest h1
end

/-- Go `RuleConfig`, a rule snapshot. -/
structure RuleConfig where
  CreationTime : Int
  NextUpdate : Option Int
  Rules : List Rule

/-- The loop of `(*RuleConfig).Match` over `c.Rules`. -/
def RuleConfig.Match.loop (S : Std) : List Rule → http.Header → Bool × http.Header
  | [], h => (false, h)
  | rule :: rest, h =>
    match Rule.Match S rule h with
    | (true, h1) => (true, h1)
    | (false, h1) => RuleConfig.Match.loop S rest h1

/-- Go `(*RuleConfig).Match`. -/
def RuleConfig.Match (S : Std) (c : RuleConfig) (h : http.Header) : Bool × http.Header :=
  RuleConfig.Match.loop S c.Rules h

/-! ## strings -/

namespace strings

/-- Go `unicode.IsSpace`. -/
def isSpace (c : Char) : Bool :=
  let n := c.toNat
  (9 ≤ n && n ≤ 13) || n == 32 || n == 133 || n == 160 || n == 5760 ||
  (8192 ≤ n && n ≤ 8202) || n == 8232 || n == 8233 || n == 8239 || n == 8287 || n == 12288

/-- Go `strings.TrimSpace`. -/
def TrimSpace (s : String) : String :=
  String.mk ((s.data.dropWhile isSpace).reverse.dropWhile isSpace).reverse

/-- Go `strings.Contains(s, ",")`. -/
def ContainsComma (s : String) : Bool := s.data.contains ','

/-- The segments of `strings.Split(s, ",")`, on the characters of `s`. -/
def SplitComma.loop : List Char → List (List Char)
  | [] => [[]]
  | c :: cs =>
    if c = ',' then [] :: SplitComma.loop cs
    else match SplitComma.loop cs with
      | [] => [[c]]
      | seg :: segs => (c :: seg) :: segs

/-- Go `strings.Split(s, ",")`. -/
def SplitComma (s : String) : List String := (SplitComma.loop s.data).map String.mk

end strings

/-! ## Configuration (config.go) -/

/-- A decoded JSON value, Go `interface{}` as produced by `json.Unmarshal`;
a number is kept as an integer. -/
inductive Json where
  | null
  | bool (b : Bool)
  | num (n : Int)
  | str (s : String)
  | arr (xs : List Json)
  | obj (kvs : List (String × Json))

/-- Go `m[key]` on a `map[string]interface{}`: nil for a missing key. -/
def Json.index (m : List (String × Json)) (key : String) : Json :=
  match m.lookup key with
  | some v => v
  | none => Json.null

/-- Go `ExternalData`. -/
structure ExternalData where
  URL : String
  Headers : List (String × String)
  DataKey : String
  SkipTLSVerify : Bool

/-- Go `RawRule`; `Type_` is its field `Type`. -/
inductive RawRule where
  | mk (Type_ : String) (Headers : List (String × String)) (Ranges : List String)
      (AddInterface : Bool) (Rules : List RawRule)

/-- Go `Config`; `Users` is `none` for a nil map. -/
structure Config where
  Users : Option (List (String × String))
  UsernameHeader : String
  Rules : List RawRule
  ExternalData : ExternalData
  RefreshInterval : String
  RequestHeaders : List (String × String)

def AllOf : String := "allOf"
def AnyOf : String := "anyOf"
def NoneOf : String := "noneOf"
def IPRange : String := "ipRange"
def Header : String := "header"

/-- Go `net.Interface` with what its method `Addrs` returns. -/
structure Interface where
  Name : String
  /-- `iface.Addrs()`. -/
  Addrs : Except String (List Addr)

/-- What the operating system and the network answer during one call: the
readings of `time.Now()` at each place that reads the clock, the results of
the package functions that do input and output only, and what the host says of
its routes and interfaces. -/
structure World where
  /-- `time.Now()` in `ServeHTTP`, where a denied request checks the expiry. -/
  tCheck : Int
  /-- `time.Now()` in `updateConfig`. -/
  tUpdate : Int
  /-- `time.Now()` in `NewRuleConfig`. -/
  tCreate : Int
  /-- `time.Now()` in `updateConfigIfRequired`. -/
  tBackground : Int
  /-- `GetExternalData`: the HTTP GET and the JSON decoding of its body. -/
  GetExternalData : ExternalData → Except String (List (String × Json))
  /-- `templateValue`: text/template with `env` and `file`. -/
  templateValue : String → List (String × Json) → Except String String
  /-- `os.ReadFile("/proc/net/route")` in `getDefaultGatewayInterface`. -/
  routeFile : Except String String
  /-- `net.Interfaces()`. -/
  Interfaces : Except String (List Interface)

/-- What a call did besides returning, in order. -/
inductive Event where
  /-- `GetExternalData` was called. -/
  | fetch
  /-- `mapRules` was called on the configured rules. -/
  | build
  /-- `tg.matchers.Match(req)` was called. -/
  | evaluate
  /-- `tg.updateConfig()` was called by the request itself. -/
  | update
  /-- `go func() { tg.updateConfig() }()` was started. -/
  | spawn
deriving DecidableEq, Repr

/-- The inner loop of the `IPRange` case of `mapRules`, over the segments of
one rendered value. -/
def mapRules.segments : List String → List String → List String
  | [], acc => acc
  | rangeStr :: rest, acc =>
    let rangeStr := strings.TrimSpace rangeStr
    if rangeStr ≠ "" then mapRules.segments rest (acc ++ [rangeStr])
    else mapRules.segments rest acc

/-- The loop of the `IPRange` case of `mapRules` over `rawRule.Ranges`; `acc`
is `rrule.Ranges`. -/
def mapRules.ranges (W : World) (tmplData : List (String × Json)) :
    List String → List String → Except String (List String)
  | [], acc => .ok acc
  | rangeStr :: rest, acc =>
    match W.templateValue rangeStr tmplData with
    | .error err => .error ("error templating value: " ++ err)
    | .ok val =>
      if strings.ContainsComma val then
        mapRules.ranges W tmplData rest (mapRules.segments (strings.SplitComma val) acc)
      else
        let rangeStr := strings.TrimSpace val
        if rangeStr ≠ "" then mapRules.ranges W tmplData rest (acc ++ [rangeStr])
        else mapRules.ranges W tmplData rest acc

/-- The loop of the `Header` case of `mapRules` over `rawRule.Headers`. -/
def mapRules.headers (W : World) (tmplData : List (String × Json)) :
    List (String × String) → Except String (List (String × String))
  | [] => .ok []
  | (key, value) :: rest =>
    match W.templateValue value tmplData with
    | .error err => .error ("error templating value: " ++ err)
    | .ok val =>
      match mapRules.headers W tmplData rest with
      | .error err => .error err
      | .ok hs => .ok ((key, val) :: hs)

mutual
/-- The body of the loop of `mapRules`: one raw rule to one rule. -/
def mapRules.rule (W : World) (tmplData : List (String × Json)) : RawRule → Except String Rule
  | .mk type_ headers ranges addInterface rules =>
    if type_ = AllOf then
      match mapRules W tmplData rules with
      | .error err => .error ("error mapping rules: " ++ err)
      | .ok allOfRules => .ok (.allOf allOfRules)
    else if type_ = AnyOf then
      match mapRules W tmplData rules with
      | .error err => .error ("error mapping rules: " ++ err)
      | .ok anyOfRules => .ok (.anyOf anyOfRules)
    else if type_ = NoneOf then
      match mapRules W tmplData rules with
      | .error err => .error ("error mapping rules: " ++ err)
      | .ok noneOfRules => .ok (.noneOf noneOfRules)
    else if type_ = IPRange then
      match mapRules.ranges W tmplData ranges [] with
      | .error err => .error err
      | .ok rs => .ok (.ipRange rs addInterface [])
    else if type_ = Header then
      match mapRules.headers W tmplData headers with
      | .error err => .error err
      | .ok hs => .ok (.header hs [])
    else .error ("unknown rule type: " ++ type_)
/-- Go `mapRules`. -/
def mapRules (W : World) (tmplData : List (String × Json)) :
    List RawRule → Except String (List Rule)
  | [] => .ok []
  | rawRule :: rest =>
    match mapRules.rule W tmplData rawRule with
    | .error err => .error err
    | .ok rule =>
      match mapRules W tmplData rest with
      | .error err => .error err
      | .ok rules => .ok (rule :: rules)
end

/-- The start of `NewRuleConfig` (lines 65-73): the template data `tmplData`,
with the event of the fetch. -/
def NewRuleConfig.tmplData (W : World) (config : Config) :
    List Event × Except String (List (String × Json)) :=
  if config.ExternalData.URL ≠ "" then
    match W.GetExternalData config.ExternalData with
    | .error err => ([Event.fetch], .error err)
    | .ok data => ([Event.fetch], .ok [("data", Json.index data config.ExternalData.DataKey)])
  else ([], .ok [])

/-- Go `NewRuleConfig`, with the events of the call. -/
def NewRuleConfig (S : Std) (W : World) (config : Config) :
    List Event × Except String RuleConfig :=
  match NewRuleConfig.tmplData W config with
  | (evs, .error err) => (evs, .error err)
  | (evs, .ok tmplData) =>
    match mapRules W tmplData config.Rules with
    | .error err => (evs ++ [Event.build], .error err)
    | .ok rules =>
      if config.RefreshInterval ≠ "" then
        match S.ParseDuration config.RefreshInterval with
        | .error err => (evs ++ [Event.build], .error ("error parsing refresh interval: " ++ err))
        | .ok duration =>
          (evs ++ [Event.build], .ok ⟨W.tCreate, some (W.tCreate + duration), rules⟩)
      else (evs ++ [Event.build], .ok ⟨W.tCreate, none, rules⟩)

/-! ## The local interfaces (iface_helper.go) -/

/-- Go `strings.Split(s, sep)` for a separator of one character, on the
characters of `s`. -/
def strings.Split (sep : Char) : List Char → List (List Char)
  | [] => [[]]
  | c :: cs =>
    if c = sep then [] :: strings.Split sep cs
    else match strings.Split sep cs with
      | [] => [[c]]
      | field :: fields => (c :: field) :: fields

/-- The tab character, the separator of the fields of a line. -/
def tab : Char := Char.ofNat 9

/-- The newline character, the separator of the lines. -/
def newline : Char := Char.ofNat 10

/-- How a call that indexes slices ends: it returns its results, or it stops
with the run-time error `index out of range [index] with length length`. -/
inductive Run (α : Type) where
  | returned (results : α)
  | indexOutOfRange (index length : Nat)
deriving DecidableEq, Repr

/-- The loop of `getDefaultGatewayInterface` over `lines`; the results are the
interface name and the error, nil being `none`. The condition is
`len(fields) > 0 && fields[1] == "00000000" && fields[7] == "00000000"`,
evaluated from left to right. -/
def getDefaultGatewayInterface.loop : List (List Char) → Run (String × Option String)
  | [] => .returned ("", some "default gateway interface not found")
  | line :: rest =>
    let fields := strings.Split tab line
    if fields.length > 0 then
      match fields.get? 1 with
      | none => .indexOutOfRange 1 fields.length
      | some field1 =>
        if String.mk field1 = "00000000" then
          match fields.get? 7 with
          | none => .indexOutOfRange 7 fields.length
          | some field7 =>
            if String.mk field7 = "00000000" then
              match fields.get? 0 with
              | none => .indexOutOfRange 0 fields.length
              | some ifaceName => .returned (String.mk ifaceName, none)
            else getDefaultGatewayInterface.loop rest
        else getDefaultGatewayInterface.loop rest
    else getDefaultGatewayInterface.loop rest

/-- Go `getDefaultGatewayInterface`, given what `os.ReadFile("/proc/net/route")`
returned. -/
def getDefaultGatewayInterface (read : Except String String) : Run (String × Option String) :=
  match read with
  | .error err => .returned ("", some err)
  | .ok data => getDefaultGatewayInterface.loop (strings.Split newline data.data)

/-- The address that the type switch `switch v := addr.(type)` of
`getIPv4AddressRanges` and `getIPv6AddressRanges` leaves in `ip`: `v.IP` of a
`*net.IPNet` or `*net.IPAddr`, nil otherwise. -/
def getAddressRanges.ip : Addr → IP
  | .ipNet v => v.IP
  | .ipAddr ip => ip
  | .other => []

/-- The loop of `getIPv4AddressRanges` over `addrs`. -/
def getIPv4AddressRanges.addrs (S : Std) : List Addr → List String
  | [] => []
  | addr :: rest =>
    let ip := getAddressRanges.ip addr
    if (S.To4 ip).isSome then
      match addr with
      | .ipNet mask =>
        if (S.To4 mask.IP).isSome then
          (S.ipString ip ++ "/" ++ toString (S.Size mask.Mask).1) ::
            getIPv4AddressRanges.addrs S rest
        else getIPv4AddressRanges.addrs S rest
      | _ => getIPv4AddressRanges.addrs S rest
    else getIPv4AddressRanges.addrs S rest

/-- The loop of `getIPv4AddressRanges` over `interfaces`, given the ranges
found so far. -/
def getIPv4AddressRanges.loop (S : Std) (ifaceName : String) :
    List Interface → List String → Except String (List String)
  | [], ipv4Ranges => .ok ipv4Ranges
  | iface :: rest, ipv4Ranges =>
    if iface.Name = ifaceName then
      match iface.Addrs with
      | .error err => .error err
      | .ok addrs =>
        getIPv4AddressRanges.loop S ifaceName rest
          (ipv4Ranges ++ getIPv4AddressRanges.addrs S addrs)
    else getIPv4AddressRanges.loop S ifaceName rest ipv4Ranges

/-- Go `getIPv4AddressRanges`. -/
def getIPv4AddressRanges (S : Std) (W : World) (ifaceName : String) :
    Except String (List String) :=
  match W.Interfaces with
  | .error err => .error err
  | .ok interfaces => getIPv4AddressRanges.loop S ifaceName interfaces []

/-- The loop of `getIPv6AddressRanges` over `addrs`. -/
def getIPv6AddressRanges.addrs (S : Std) : List Addr → List String
  | [] => []
  | addr :: rest =>
    let ip := getAddressRanges.ip addr
    if (S.To4 ip).isNone then
      match addr with
      | .ipNet mask =>
        if (S.To16 ip).isSome then
          (S.ipString ip ++ "/" ++ toString (S.Size mask.Mask).1) ::
            getIPv6AddressRanges.addrs S rest
        else getIPv6AddressRanges.addrs S rest
      | _ => getIPv6AddressRanges.addrs S rest
    else getIPv6AddressRanges.addrs S rest

/-- The loop of `getIPv6AddressRanges` over `interfaces`, given the ranges
found so far. -/
def getIPv6AddressRanges.loop (S : Std) (ifaceName : String) :
    List Interface → List String → Except String (List String)
  | [], ipv6Ranges => .ok ipv6Ranges
  | iface :: rest, ipv6Ranges =>
    if iface.Name = ifaceName then
      match iface.Addrs with
      | .error err => .error err
      | .ok addrs =>
        getIPv6AddressRanges.loop S ifaceName rest
          (ipv6Ranges ++ getIPv6AddressRanges.addrs S addrs)
    else getIPv6AddressRanges.loop S ifaceName rest ipv6Ranges

/-- Go `getIPv6AddressRanges`. -/
def getIPv6AddressRanges (S : Std) (W : World) (ifaceName : String) :
    Except String (List String) :=
  match W.Interfaces with
  | .error err => .error err
  | .ok interfaces => getIPv6AddressRanges.loop S ifaceName interfaces []

/-- The two loops of `scanInterfaces` over address ranges, each parsed by
`net.ParseCIDR`. -/
def scanInterfaces.parse (S : Std) : List String → Except String (List IPNet)
  | [] => .ok []
  | ipRange :: rest =>
    match S.ParseCIDR ipRange with
    | .error _ => .error ("invalid cidr: " ++ ipRange)
    | .ok ipNet =>
      match scanInterfaces.parse S rest with
      | .error err => .error err
      | .ok netCidrs => .ok (ipNet :: netCidrs)

/-- Go `scanInterfaces`. -/
def scanInterfaces (S : Std) (W : World) : Run (Except String (List IPNet)) :=
  match getDefaultGatewayInterface W.routeFile with
  | .indexOutOfRange index length => .indexOutOfRange index length
  | .returned (_, some err) =>
    .returned (.error ("failed to get default gateway interface: " ++ err))
  | .returned (ifaceName, none) =>
    match getIPv4AddressRanges S W ifaceName with
    | .error err => .returned (.error ("failed to get ipv4 address ranges: " ++ err))
    | .ok ipv4Ranges =>
      match scanInterfaces.parse S ipv4Ranges with
      | .error err => .returned (.error err)
      | .ok ipv4Cidrs =>
        match getIPv6AddressRanges S W ifaceName with
        | .error err => .returned (.error ("failed to get ipv6 address ranges: " ++ err))
        | .ok ipv6Ranges =>
          match scanInterfaces.parse S ipv6Ranges with
          | .error err => .returned (.error err)
          | .ok ipv6Cidrs => .returned (.ok (ipv4Cidrs ++ ipv6Cidrs))

/-! ## Initialising the rules (iprange.go, header.go, config.go) -/

/-- The loop of `(*RuleIPRange).Init` over `r.Ranges`. -/
def RuleIPRange.Init.loop (S : Std) : List String → Except String (List IPNet)
  | [] => .ok []
  | cidr :: rest =>
    match S.ParseCIDR cidr with
    | .error err => .error ("invalid cidr: " ++ cidr ++ " " ++ err)
    | .ok ipNet =>
      match RuleIPRange.Init.loop S rest with
      | .error err => .error err
      | .ok netCidrs => .ok (ipNet :: netCidrs)

/-- Go `(*RuleIPRange).Init`: the value of `r.allowedCidrs`, or the error, or
the run-time error raised under `scanInterfaces`. -/
def RuleIPRange.Init (S : Std) (W : World) (Ranges : List String) (AddInterface : Bool) :
    Run (Except String (List IPNet)) :=
  match RuleIPRange.Init.loop S Ranges with
  | .error err => .returned (.error err)
  | .ok netCidrs =>
    let withInterfaces : Run (Except String (List IPNet)) :=
      if AddInterface then
        match scanInterfaces S W with
        | .indexOutOfRange index length => .indexOutOfRange index length
        | .returned (.error neterr) => .returned (.error neterr)
        | .returned (.ok interfaceCidrs) => .returned (.ok (netCidrs ++ interfaceCidrs))
      else .returned (.ok netCidrs)
    match withInterfaces with
    | .indexOutOfRange index length => .indexOutOfRange index length
    | .returned (.error err) => .returned (.error err)
    | .returned (.ok allowedCidrs) =>
      if allowedCidrs.length = 0 then .returned (.error "no ranges provided")
      else .returned (.ok allowedCidrs)

/-- Go `(*RuleHeader).Init`: the value of `r.allowedHeaders`, or the error. -/
def RuleHeader.Init (S : Std) : List (String × String) → Except String (List (String × Regexp))
  | [] => .ok []
  | (key, pattern) :: rest =>
    match S.Compile pattern with
    | .error err => .error err
    | .ok compiled =>
      match RuleHeader.Init S rest with
      | .error err => .error err
      | .ok allowedHeaders => .ok ((key, compiled) :: allowedHeaders)

mutual
/-- Go `Rule.Init`, dispatched on the implementation: the rule with its
internal fields set, or the error, or the run-time error raised under it. -/
def Rule.Init (S : Std) (W : World) : Rule → Run (Except String Rule)
  | .allOf rules =>
    match Rules.Init S W rules with
    | .indexOutOfRange index length => .indexOutOfRange index length
    | .returned (.error err) => .returned (.error err)
    | .returned (.ok rs) => .returned (.ok (.allOf rs))
  | .anyOf rules =>
    match Rules.Init S W rules with
    | .indexOutOfRange index length => .indexOutOfRange index length
    | .returned (.error err) => .returned (.error err)
    | .returned (.ok rs) => .returned (.ok (.anyOf rs))
  | .noneOf rules =>
    match Rules.Init S W rules with
    | .indexOutOfRange index length => .indexOutOfRange index length
    | .returned (.error err) => .returned (.error err)
    | .returned (.ok rs) => .returned (.ok (.noneOf rs))
  | .ipRange ranges addInterface _ =>
    match RuleIPRange.Init S W ranges addInterface with
    | .indexOutOfRange index length => .indexOutOfRange index length
    | .returned (.error err) => .returned (.error err)
    | .returned (.ok allowedCidrs) => .returned (.ok (.ipRange ranges addInterface allowedCidrs))
  | .header headers _ =>
    match RuleHeader.Init S headers with
    | .error err => .returned (.error err)
    | .ok allowedHeaders => .returned (.ok (.header headers allowedHeaders))
/-- The loop `for _, rule := range r.Rules { err := rule.Init() ... }` shared
by the `Init` of `RuleAllOf`, `RuleAnyOf`, `RuleNoneOf` and `RuleConfig`. -/
def Rules.Init (S : Std) (W : World) : List Rule → Run (Except String (List Rule))
  | [] => .returned (.ok [])
  | rule :: rest =>
    match Rule.Init S W rule with
    | .indexOutOfRange index length => .indexOutOfRange index length
    | .returned (.error err) => .returned (.error err)
    | .returned (.ok r) =>
      match Rules.Init S W rest with
      | .indexOutOfRange index length => .indexOutOfRange index length
      | .returned (.error err) => .returned (.error err)
      | .returned (.ok rs) => .returned (.ok (r :: rs))
end

/-- Go `(*RuleConfig).Init`. -/
def RuleConfig.Init (S : Std) (W : World) (c : RuleConfig) : Run (Except String RuleConfig) :=
  match Rules.Init S W c.Rules with
  | .indexOutOfRange index length => .indexOutOfRange index length
  | .returned (.error err) => .returned (.error err)
  | .returned (.ok rs) => .returned (.ok { c with Rules := rs })

/-! ## The plugin (main.go) -/

/-- Go `TLSGuard`: the fields a request can observe. The next handler is the
`Response.next` of a call. -/
structure TLSGuard where
  config : Config
  matchers : Option RuleConfig
  requestHeaders : List (String × Template)

/-- The loop of `New` over `config.RequestHeaders`. -/
def New.templates (S : Std) : List (String × String) → Except String (List (String × Template))
  | [] => .ok []
  | (headerName, headerTemplate) :: rest =>
    match S.ParseTemplate headerName headerTemplate with
    | .error err => .error err
    | .ok tmpl =>
      match New.templates S rest with
      | .error err => .error err
      | .ok templates => .ok ((headerName, tmpl) :: templates)

/-- Go `New`: the plugin, or the error, or the run-time error raised under the
`Init` of the rules. -/
def New (S : Std) (W : World) (config : Config) : Run (Except String TLSGuard) :=
  let built : Run (Except String (Option RuleConfig)) :=
    if config.Rules.length > 0 then
      match (NewRuleConfig S W config).2 with
      | .error err => .returned (.error err)
      | .ok matchers =>
        match RuleConfig.Init S W matchers with
        | .indexOutOfRange index length => .indexOutOfRange index length
        | .returned (.error err) => .returned (.error err)
        | .returned (.ok m) => .returned (.ok (some m))
    else .returned (.ok none)
  match built with
  | .indexOutOfRange index length => .indexOutOfRange index length
  | .returned (.error err) => .returned (.error err)
  | .returned (.ok matchers) =>
    match New.templates S config.RequestHeaders with
    | .error err => .returned (.error err)
    | .ok templates => .returned (.ok ⟨config, matchers, templates⟩)

/-- Go `(*TLSGuard).findUserByID`. -/
def TLSGuard.findUserByID (tg : TLSGuard) (userID : String) : String × Bool :=
  if userID = "" then ("", false)
  else
    match (tg.config.Users.getD []).lookup userID with
    | none => ("", false)
    | some username => if username = "" then (userID, true) else (username, true)

/-- The two loops of `findUserByCert`, over `cert.DNSNames` and over
`cert.EmailAddresses`. -/
def TLSGuard.findUserByCert.loop (tg : TLSGuard) : List String → String × Bool
  | [] => ("", false)
  | name :: rest =>
    match tg.findUserByID name with
    | (username, true) => (username, true)
    | (_, false) => TLSGuard.findUserByCert.loop tg rest

/-- Go `(*TLSGuard).findUserByCert`. -/
def TLSGuard.findUserByCert (tg : TLSGuard) (cert : Certificate) : String × Bool :=
  match tg.config.Users with
  | none => ("", false)
  | some users =>
    if users.length = 0 then ("", false)
    else
      match tg.findUserByID cert.Subject.CommonName with
      | (username, true) => (username, true)
      | (_, false) =>
        match TLSGuard.findUserByCert.loop tg cert.DNSNames with
        | (username, true) => (username, true)
        | (_, false) =>
          match TLSGuard.findUserByCert.loop tg cert.EmailAddresses with
          | (username, true) => (username, true)
          | (_, false) => ("", false)

/-- Go `req.Header.Set(key, value)` on a request. -/
def Request.setHeader (req : Request) (key value : String) : Request :=
  { req with Header := req.Header.Set key value }

/-- The loop over `tg.requestHeaders` of `addCertHeaders` (with the
certificate) and of `addRequestHeaders` (without): a template that fails is
skipped. -/
def TLSGuard.renderHeaders (S : Std) (cert : Option Certificate) :
    List (String × Template) → Request → Request
  | [], req => req
  | (headerName, tmpl) :: rest, req =>
    match S.Execute tmpl cert req with
    | .error _ => TLSGuard.renderHeaders S cert rest req
    | .ok tplOutput => TLSGuard.renderHeaders S cert rest (req.setHeader headerName tplOutput)

/-- Go `(*TLSGuard).addCertHeaders`. -/
def TLSGuard.addCertHeaders (S : Std) (tg : TLSGuard) (req : Request) (cert : Certificate) :
    Request :=
  let req := req.setHeader "X-TLSGuard-Cert-SN" (toString cert.SerialNumber)
  let req := req.setHeader "X-TLSGuard-Cert-CN" cert.Subject.CommonName
  TLSGuard.renderHeaders S (some cert) tg.requestHeaders req

/-- Go `(*TLSGuard).addRequestHeaders`. -/
def TLSGuard.addRequestHeaders (S : Std) (tg : TLSGuard) (req : Request) : Request :=
  TLSGuard.renderHeaders S none tg.requestHeaders req

/-- Go `(*TLSGuard).updateConfigIfRequired`: the goroutine it starts, if any. -/
def TLSGuard.updateConfigIfRequired (W : World) (tg : TLSGuard) : List Event :=
  match tg.matchers with
  | none => []
  | some matchers =>
    match matchers.NextUpdate with
    | none => []
    | some nextUpdate => if nextUpdate < W.tBackground then [Event.spawn] else []

/-- What `updateConfig` leaves and returns. -/
structure UpdateResult where
  tg : TLSGuard
  err : Option String
  events : List Event
  /-- The run-time error `index out of range [index] with length length` with
  which the call stopped instead of returning, if it did (the deferred
  `Unlock` runs, `tg.matchers` is as it was). -/
  stopped : Option (Nat × Nat)

/-- Go `(*TLSGuard).updateConfig`, run to completion under its mutex. -/
def TLSGuard.updateConfig (S : Std) (W : World) (tg : TLSGuard) : UpdateResult :=
  match tg.matchers with
  | none => ⟨tg, none, [], none⟩
  | some matchers =>
    match matchers.NextUpdate with
    | none => ⟨tg, none, [], none⟩
    | some nextUpdate =>
      if nextUpdate > W.tUpdate then ⟨tg, none, [], none⟩
      else
        match NewRuleConfig S W tg.config with
        | (evs, .error err) => ⟨tg, some err, evs, none⟩
        | (evs, .ok newMatchers) =>
          match RuleConfig.Init S W newMatchers with
          | .indexOutOfRange index length => ⟨tg, none, evs, some (index, length)⟩
          | .returned (.error err) => ⟨tg, some err, evs, none⟩
          | .returned (.ok initialised) =>
            ⟨{ tg with matchers := some initialised }, none, evs, none⟩

/-- How a call of `ServeHTTP` ends. -/
inductive Response where
  /-- `tg.next.ServeHTTP(rw, req)` with the request as it then is. -/
  | next (req : Request)
  /-- `http.Error(rw, message, code)`. -/
  | httpError (message : String) (code : Nat)
  /-- A nil `tg.matchers` dereferenced after `updateConfig`; `updateConfig`
  never stores nil, so no call ends here. -/
  | nilMatchers
  /-- The run-time error `index out of range [index] with length length`
  raised under `updateConfig`: the call neither answers nor forwards. -/
  | stopped (index length : Nat)
deriving DecidableEq, Repr

/-- What a call of `ServeHTTP` leaves and does. -/
structure ServeResult where
  tg : TLSGuard
  response : Response
  events : List Event

def StatusForbidden : Nat := 403

/-- The client certificate `ServeHTTP` looks at: `req.TLS.PeerCertificates[0]`
when `req.TLS != nil && len(req.TLS.PeerCertificates) > 0`. -/
def Request.peerCertificate (req : Request) : Option Certificate :=
  match req.TLS with
  | none => none
  | some state =>
    match state.PeerCertificates with
    | [] => none
    | cert :: _ => some cert

/-- The end of `ServeHTTP` (lines 123-130): custom headers, the background
refresh check, the next handler. -/
def TLSGuard.ServeHTTP.forward (S : Std) (W : World) (tg : TLSGuard) (req : Request)
    (events : List Event) : ServeResult :=
  let req := tg.addRequestHeaders S req
  ⟨tg, .next req, events ++ tg.updateConfigIfRequired W⟩

/-- The rule part of `ServeHTTP` (lines 99-121), on the request as annotated
with the certificate headers. -/
def TLSGuard.ServeHTTP.rules (S : Std) (W : World) (tg : TLSGuard) (req : Request) :
    ServeResult :=
  match tg.matchers with
  | some matchers =>
    match matchers.Match S req.Header with
    | (true, h1) => TLSGuard.ServeHTTP.forward S W tg { req with Header := h1 } [Event.evaluate]
    | (false, h1) =>
      let stale : Bool :=
        match matchers.NextUpdate with
        | none => false
        | some nextUpdate => nextUpdate < W.tCheck
      if stale then
        let u := tg.updateConfig S W
        let events := [Event.evaluate, Event.update] ++ u.events ++ [Event.evaluate]
        match u.stopped with
        | some (index, length) =>
          ⟨u.tg, .stopped index length, [Event.evaluate, Event.update] ++ u.events⟩
        | none =>
          match u.tg.matchers with
          | none => ⟨u.tg, .nilMatchers, [Event.evaluate, Event.update] ++ u.events⟩
          | some current =>
            match current.Match S h1 with
            | (true, h2) => TLSGuard.ServeHTTP.forward S W u.tg { req with Header := h2 } events
            | (false, _) => ⟨u.tg, .httpError "Forbidden" StatusForbidden, events⟩
      else ⟨tg, .httpError "Forbidden" StatusForbidden, [Event.evaluate]⟩
  | none =>
    match req.peerCertificate with
    | none =>
      ⟨tg, .httpError "TLS client certificate is required for authentication" StatusForbidden, []⟩
    | some _ => TLSGuard.ServeHTTP.forward S W tg req []

/-- Go `(*TLSGuard).ServeHTTP`. -/
def TLSGuard.ServeHTTP (S : Std) (W : World) (tg : TLSGuard) (req : Request) : ServeResult :=
  match req.peerCertificate with
  | some cert =>
    match tg.findUserByCert cert with
    | (username, true) =>
      let req := if tg.config.UsernameHeader ≠ "" then
          req.setHeader tg.config.UsernameHeader username else req
      let req := tg.addCertHeaders S req cert
      ⟨tg, .next req, []⟩
    | (_, false) =>
      let req := req.setHeader "X-TLSGuard-Cert-SN" (toString cert.SerialNumber)
      let req := req.setHeader "X-TLSGuard-Cert-CN" cert.Subject.CommonName
      let req := tg.addCertHeaders S req cert
      TLSGuard.ServeHTTP.rules S W tg req
  | none =>
    let req := req.setHeader "X-TLSGuard-Cert-SN" "NoCert"
    TLSGuard.ServeHTTP.rules S W tg req

/-! ## A reference standard library for concrete requests

`Reference.std` computes what the Go library computes on dotted-quad IPv4
addresses, on `a.b.c.d/n` ranges, on patterns made of literal text with an
optional leading `^`, on durations `<n>h`, `<n>m`, `<n>s` and on templates
without actions; everything else is an error there. It instantiates `Std` at
the concrete requests of the scenarios. -/

namespace Reference

/-- The fields of `s` between the occurrences of `sep`. -/
def fields (sep : Char) : List Char → List (List Char)
  | [] => [[]]
  | c :: cs =>
    if c = sep then [] :: fields sep cs
    else match fields sep cs with
      | [] => [[c]]
      | f :: fs => (c :: f) :: fs

/-- The value of a string of decimal digits. -/
def decimal (cs : List Char) : Nat := cs.foldl (fun n c => 10 * n + (c.toNat - 48)) 0

/-- A decimal number of at most `width` digits, without a leading zero, at
most `bound`. -/
def number (width bound : Nat) (cs : List Char) : Option Nat :=
  if cs.isEmpty || decide (width < cs.length) || !cs.all Char.isDigit then none
  else if decide (1 < cs.length) && cs.head? == some '0' then none
  else if bound < decimal cs then none
  else some (decimal cs)

/-- A dotted-quad address, as four bytes. -/
def parseIPv4 (cs : List Char) : Option IP :=
  if cs.all (fun c => c.isDigit || c == '.') then
    match fields '.' cs with
    | [a, b, c, d] =>
      match number 3 255 a, number 3 255 b, number 3 255 c, number 3 255 d with
      | some a, some b, some c, some d => some [a, b, c, d]
      | _, _, _, _ => none
    | _ => none
  else none

/-- The mask of `ones` leading one bits, as four bytes. -/
def cidrMask (ones : Nat) : List Nat :=
  (List.range 4).map (fun i => 255 - (2 ^ (8 - min 8 (ones - 8 * i)) - 1))

/-- The number of one bits of a mask of leading ones. -/
def maskOnes (mask : List Nat) : Nat :=
  (mask.map (fun b => ([128, 192, 224, 240, 248, 252, 254, 255].filter (fun m => m ≤ b)).length)).sum

def parseCIDRv4 (s : String) : Except String IPNet :=
  match fields '/' s.data with
  | [addr, len] =>
    match parseIPv4 addr, number 2 32 len with
    | some ip, some ones =>
      .ok ⟨List.zipWith (fun a m => a &&& m) ip (cidrMask ones), cidrMask ones⟩
    | _, _ => .error ("invalid CIDR address: " ++ s)
  | _ => .error ("invalid CIDR address: " ++ s)

def contains (n : IPNet) (ip : IP) : Bool :=
  n.IP.length == ip.length && n.Mask.length == ip.length &&
  List.zipWith (fun a m => a &&& m) n.IP n.Mask == List.zipWith (fun a m => a &&& m) ip n.Mask

def cidrString (n : IPNet) : String :=
  ".".intercalate (n.IP.map toString) ++ "/" ++ toString (maskOnes n.Mask)

/-- The twelve bytes ahead of an IPv4 address in its 16-byte form. -/
def v4InV6Prefix : List Nat := [0, 0, 0, 0, 0, 0, 0, 0, 0, 0, 255, 255]

def to4 (ip : IP) : Option IP :=
  if ip.length = 4 then some ip
  else if ip.length = 16 ∧ ip.take 12 = v4InV6Prefix then some (ip.drop 12)
  else none

def to16 (ip : IP) : Option IP :=
  if ip.length = 4 then some (v4InV6Prefix ++ ip)
  else if ip.length = 16 then some ip
  else none

/-- The bits of a mask, most significant first. -/
def maskBits (mask : List Nat) : List Bool :=
  (mask.map (fun b => (List.range 8).map (fun i => decide (b / 2 ^ (7 - i) % 2 = 1)))).flatten

/-- The leading ones and the bits of a mask of ones followed by zeros; zero
and zero for another mask. -/
def size (mask : List Nat) : Nat × Nat :=
  let ones := ((maskBits mask).takeWhile id).length
  if ((maskBits mask).drop ones).all (fun b => !b) then (ones, (maskBits mask).length)
  else (0, 0)

/-- An IPv4 address in dotted decimal; the reference does not print IPv6
addresses. -/
def ipString (ip : IP) : String :=
  if ip.isEmpty then "<nil>"
  else match to4 ip with
    | some p4 => ".".intercalate (p4.map toString)
    | none => "?"

/-- The characters with a meaning of their own in a regular expression. -/
def isMeta (c : Char) : Bool :=
  [92, 46, 43, 42, 63, 40, 41, 124, 91, 93, 123, 125, 94, 36].contains c.toNat

def compile (pattern : String) : Except String Regexp :=
  match pattern.data with
  | '^' :: rest => if rest.any isMeta then .error "unsupported" else .ok ⟨pattern⟩
  | cs => if cs.any isMeta then .error "unsupported" else .ok ⟨pattern⟩

/-- Whether `pat` occurs in `cs`. -/
def occursIn (pat : List Char) : List Char → Bool
  | [] => pat.isEmpty
  | c :: cs => pat.isPrefixOf (c :: cs) || occursIn pat cs

def matchString (re : Regexp) (value : String) : Bool :=
  match re.expr.data with
  | '^' :: rest => rest.isPrefixOf value.data
  | cs => occursIn cs value.data

def parseDuration (s : String) : Except String Int :=
  match s.data.reverse with
  | 'h' :: ds =>
    if ds.isEmpty || !ds.all Char.isDigit then .error "invalid duration"
    else .ok (3600000000000 * (decimal ds.reverse : Int))
  | 'm' :: ds =>
    if ds.isEmpty || !ds.all Char.isDigit then .error "invalid duration"
    else .ok (60000000000 * (decimal ds.reverse : Int))
  | 's' :: ds =>
    if ds.isEmpty || !ds.all Char.isDigit then .error "invalid duration"
    else .ok (1000000000 * (decimal ds.reverse : Int))
  | _ => .error "invalid duration"

/-- Whether the text opens an action with `[[`. -/
def hasAction : List Char → Bool
  | '[' :: '[' :: _ => true
  | _ :: cs => hasAction cs
  | [] => false

def parseTemplate (name text : String) : Except String Template :=
  if hasAction text.data then .error "unsupported" else .ok ⟨name, text⟩

def std : Std where
  ParseIP := fun s => parseIPv4 s.data
  ParseCIDR := parseCIDRv4
  Contains := contains
  cidrString := cidrString
  To4 := to4
  To16 := to16
  Size := size
  ipString := ipString
  Compile := compile
  MatchString := matchString
  ParseDuration := parseDuration
  ParseTemplate := parseTemplate
  Execute := fun tmpl _ _ => .ok tmpl.text

/-- A world at instant `now` in which the external source answers `fetched`,
templates without actions render to themselves, `/proc/net/route` cannot be
read and the host has no interface. -/
def world (now : Int) (fetched : Except String (List (String × Json))) : World where
  tCheck := now
  tUpdate := now
  tCreate := now
  tBackground := now
  GetExternalData := fun _ => fetched
  templateValue := fun text _ =>
    if hasAction text.data then .error "unsupported" else .ok text
  routeFile := .error "open /proc/net/route: no such file or directory"
  Interfaces := .ok []

/-- The world at instant `now` in which the external source cannot be
reached. -/
def offline (now : Int) : World := world now (.error "connection refused")

/-- The world of `world` in which the template `[[.data]]` renders to the
string that the template data holds under `data`. -/
def dataWorld (now : Int) (fetched : Except String (List (String × Json))) : World :=
  { world now fetched with
    templateValue := fun text tmplData =>
      if text = "[[.data]]" then
        match Json.index tmplData "data" with
        | .str value => .ok value
        | _ => .error "unsupported"
      else if hasAction text.data then .error "unsupported" else .ok text }

end Reference

/-! ## Scenarios

Concrete configurations, the plugin states `New` builds from them under the
reference library, and requests. -/

namespace Scenario

def noExternalData : ExternalData := ⟨"", [], "", false⟩

/-- The network 10.0.0.0/8. -/
def net10 : IPNet := ⟨[10, 0, 0, 0], [255, 0, 0, 0]⟩

/-- A single `ipRange` rule over 10.0.0.0/8, no users, no expiry. -/
def configA : Config :=
  ⟨none, "", [.mk "ipRange" [] ["10.0.0.0/8"] false []], noExternalData, "", []⟩

def guardA : TLSGuard :=
  ⟨configA, some ⟨0, none, [.ipRange ["10.0.0.0/8"] false [net10]]⟩, []⟩

/-- `allOf` of a `header` rule on X-Api-Key and an `ipRange` rule. -/
def configB : Config :=
  ⟨none, "",
    [.mk "allOf" [] [] false
      [.mk "header" [("X-Api-Key", "^secret-")] [] false [],
       .mk "ipRange" [] ["10.0.0.0/8"] false []]],
    noExternalData, "", []⟩

def guardB : TLSGuard :=
  ⟨configB,
    some ⟨0, none,
      [.allOf [.header [("X-Api-Key", "^secret-")] [("X-Api-Key", ⟨"^secret-"⟩)],
               .ipRange ["10.0.0.0/8"] false [net10]]]⟩,
    []⟩

/-- One user keyed by an email address, the username header X-User, and the
rule of `configA`. -/
def configC : Config :=
  ⟨some [("alice@example.com", "alice")], "X-User",
    [.mk "ipRange" [] ["10.0.0.0/8"] false []], noExternalData, "", []⟩

def guardC : TLSGuard :=
  ⟨configC, some ⟨0, none, [.ipRange ["10.0.0.0/8"] false [net10]]⟩, []⟩

/-- No rules and no users. -/
def configN : Config := ⟨none, "", [], noExternalData, "", []⟩

def guardN : TLSGuard := ⟨configN, none, []⟩

def certAlice : Certificate := ⟨4096, ⟨"client-7"⟩, ["client-7.internal"], ["alice@example.com"]⟩

def certUnknown : Certificate := ⟨17, ⟨"stranger"⟩, [], []⟩

/-- A request without a certificate from `address`, with an API key. -/
def plainRequest (address : String) : Request :=
  ⟨none, [("X-Real-Ip", [address]), ("X-Api-Key", ["secret-42"])]⟩

/-- A request with the certificate `cert` from `address`. -/
def certRequest (cert : Certificate) (address : String) : Request :=
  ⟨some ⟨[cert]⟩, [("X-Real-Ip", [address])]⟩

/-- A `header` rule that reads the marker X-TLSGuard-Header, then the rule of
`configB`; external data and a refresh interval of one hour. -/
def configX : Config :=
  ⟨none, "",
    [.mk "header" [("X-TLSGuard-Header", "true")] [] false [],
     .mk "allOf" [] [] false
      [.mk "header" [("X-Api-Key", "^secret-")] [] false [],
       .mk "ipRange" [] ["10.0.0.0/8"] false []]],
    ⟨"https://rules.example/data.json", [], "", false⟩, "1h", []⟩

def hour : Int := 3600000000000

def guardX : TLSGuard :=
  ⟨configX,
    some ⟨0, some hour,
      [.header [("X-TLSGuard-Header", "true")] [("X-TLSGuard-Header", ⟨"true"⟩)],
       .allOf [.header [("X-Api-Key", "^secret-")] [("X-Api-Key", ⟨"^secret-"⟩)],
               .ipRange ["10.0.0.0/8"] false [net10]]]⟩,
    []⟩

/-- The rule of `configB` with external data and a refresh interval of one
hour. -/
def configD : Config :=
  ⟨none, "",
    [.mk "allOf" [] [] false
      [.mk "header" [("X-Api-Key", "^secret-")] [] false [],
       .mk "ipRange" [] ["10.0.0.0/8"] false []]],
    ⟨"https://rules.example/data.json", [], "", false⟩, "1h", []⟩

def guardD : TLSGuard :=
  ⟨configD,
    some ⟨0, some hour,
      [.allOf [.header [("X-Api-Key", "^secret-")] [("X-Api-Key", ⟨"^secret-"⟩)],
               .ipRange ["10.0.0.0/8"] false [net10]]]⟩,
    []⟩

/-- One `ipRange` rule whose range is the external data under `ranges`,
refreshed every hour. -/
def configE : Config :=
  ⟨none, "", [.mk "ipRange" [] ["[[.data]]"] false []],
    ⟨"https://rules.example/data.json", [], "ranges", false⟩, "1h", []⟩

/-- The plugin built from `configE` at instant 0 while the external data is
10.0.0.0/8. -/
def guardE : TLSGuard :=
  ⟨configE, some ⟨0, some hour, [.ipRange ["10.0.0.0/8"] false [net10]]⟩, []⟩

/-- The network 192.168.0.0/16. -/
def net192 : IPNet := ⟨[192, 168, 0, 0], [255, 255, 0, 0]⟩

/-- The world at instant `now` in which the external data is
192.168.0.0/16. -/
def changedWorld (now : Int) : World :=
  Reference.dataWorld now (.ok [("ranges", .str "192.168.0.0/16")])

/-- The configuration of scenario C with external data and a refresh interval
of one hour. -/
def configF : Config :=
  ⟨some [("alice@example.com", "alice")], "X-User",
    [.mk "ipRange" [] ["10.0.0.0/8"] false []],
    ⟨"https://rules.example/data.json", [], "", false⟩, "1h", []⟩

def guardF : TLSGuard :=
  ⟨configF, some ⟨0, some hour, [.ipRange ["10.0.0.0/8"] false [net10]]⟩, []⟩

/-- The world at instant 0 in which the environment variable X holds
`10.0.0.0/8,192.168.0.0/16`, so that the template `[[env "X"]]` renders to
it. -/
def envWorld : World :=
  { Reference.offline 0 with
    templateValue := fun text _ =>
      if text = "[[env \"X\"]]" then .ok "10.0.0.0/8,192.168.0.0/16"
      else if Reference.hasAction text.data then .error "unsupported" else .ok text }

/-- A routing table with its header line and one route that is not the
default route, as the kernel writes it, each line ended by a newline. -/
def routesWithoutDefault : String :=
  "Iface\tDestination\tGateway\tFlags\tRefCnt\tUse\tMetric\tMask\tMTU\tWindow\tIRTT\n" ++
  "eth0\t0000A8C0\t00000000\t0001\t0\t0\t100\t00FFFFFF\t0\t0\t0\n"

/-- The routing table of `routesWithoutDefault` with the default route through
eth0 ahead of the other route. -/
def routesWithDefault : String :=
  "Iface\tDestination\tGateway\tFlags\tRefCnt\tUse\tMetric\tMask\tMTU\tWindow\tIRTT\n" ++
  "eth0\t00000000\t0101A8C0\t0003\t0\t0\t100\t00000000\t0\t0\t0\n" ++
  "eth0\t0000A8C0\t00000000\t0001\t0\t0\t100\t00FFFFFF\t0\t0\t0\n"

/-- The world of `Reference.offline now` on a host whose `/proc/net/route`
reads `routes` and whose interfaces are lo with 127.0.0.1/8 and eth0 with
192.168.1.10/24. -/
def routedWorld (now : Int) (routes : String) : World :=
  { Reference.offline now with
    routeFile := .ok routes
    Interfaces := .ok
      [⟨"lo", .ok [.ipNet ⟨[127, 0, 0, 1], [255, 0, 0, 0]⟩]⟩,
       ⟨"eth0", .ok [.ipNet ⟨[192, 168, 1, 10], [255, 255, 255, 0]⟩]⟩] }

/-- The network 192.168.1.0/24 of eth0. -/
def netEth0 : IPNet := ⟨[192, 168, 1, 0], [255, 255, 255, 0]⟩

/-- One `ipRange` rule over 10.0.0.0/8 that adds the ranges of the local
interface, refreshed every hour; no external data. -/
def configG : Config :=
  ⟨none, "", [.mk "ipRange" [] ["10.0.0.0/8"] true []], noExternalData, "1h", []⟩

/-- The plugin built from `configG` at instant 0 while the routing table is
`routesWithDefault`. -/
def guardG : TLSGuard :=
  ⟨configG, some ⟨0, some hour, [.ipRange ["10.0.0.0/8"] true [net10, netEth0]]⟩, []⟩

/-- The `header` rule on X-Api-Key, initialised. -/
def keyRule : Rule := .header [("X-Api-Key", "^secret-")] [("X-Api-Key", ⟨"^secret-"⟩)]

/-- The `ipRange` rule over 10.0.0.0/8, initialised. -/
def rangeRule : Rule := .ipRange ["10.0.0.0/8"] false [net10]

end Scenario

/-! ## Vocabulary of the statements -/

/-- The candidate client address of a request: `X-Real-Ip` if that is
non-empty, otherwise the whole of `X-Forwarded-For`. -/
def clientAddress (h : http.Header) : String :=
  if h.Get "X-Real-Ip" = "" then h.Get "X-Forwarded-For" else h.Get "X-Real-Ip"

/-- The request as `ServeHTTP` hands it to the rules when the identity is not
resolved: with the certificate headers of a presented certificate, or with the
`NoCert` marker. -/
def TLSGuard.annotated (S : Std) (tg : TLSGuard) (req : Request) : Request :=
  match req.peerCertificate with
  | some cert =>
    tg.addCertHeaders S
      ((req.setHeader "X-TLSGuard-Cert-SN" (toString cert.SerialNumber)).setHeader
        "X-TLSGuard-Cert-CN" cert.Subject.CommonName) cert
  | none => req.setHeader "X-TLSGuard-Cert-SN" "NoCert"

/-- Whether a header name is, in canonical form, one of the two marker headers the
rules set: X-TLSGuard-Cidr and X-TLSGuard-Header. -/
def isMarker (key : String) : Bool :=
  textproto.CanonicalMIMEHeaderKey key == textproto.CanonicalMIMEHeaderKey "X-TLSGuard-Cidr" ||
  textproto.CanonicalMIMEHeaderKey key == textproto.CanonicalMIMEHeaderKey "X-TLSGuard-Header"

mutual
/-- Whether some `header` rule of the tree is keyed on an annotation header. -/
def Rule.readsMarker : Rule → Bool
  | .allOf rules => Rules.readsMarker rules
  | .anyOf rules => Rules.readsMarker rules
  | .noneOf rules => Rules.readsMarker rules
  | .ipRange _ _ _ => false
  | .header _ allowedHeaders => allowedHeaders.any (fun kr => isMarker kr.1)
/-- Whether some rule of the list reads an annotation header. -/
def Rules.readsMarker : List Rule → Bool
  | [] => false
  | rule :: rest => Rule.readsMarker rule || Rules.readsMarker rest
end

/-- Two header maps give the same value to every name that is not an
annotation header. -/
def sameRequestHeaders (h h2 : http.Header) : Prop :=
  ∀ key, isMarker key = false → h.Get key = h2.Get key

/-- The identifiers of a certificate in lookup order: the Common Name, the DNS
names, the email addresses. -/
def identifiers (cert : Certificate) : List String :=
  cert.Subject.CommonName :: (cert.DNSNames ++ cert.EmailAddresses)

/-- The header map after every rule of `cs` has been evaluated in order,
starting from `h`. -/
def headersAfter (S : Std) : List Rule → http.Header → http.Header
  | [], h => h
  | c :: cs, h => headersAfter S cs (Rule.Match S c h).2

/-- The entries of a rendered value with commas: its comma-separated segments,
each trimmed of surrounding whitespace, without the empty ones, in order. -/
def commaEntries (val : String) : List String :=
  ((strings.SplitComma val).map strings.TrimSpace).filter (fun segment => segment ≠ "")

/-- Whether a rule type is one of `allOf`, `anyOf`, `noneOf`. -/
def isComposite (type_ : String) : Bool :=
  type_ == AllOf || type_ == AnyOf || type_ == NoneOf

mutual
/-- Whether the descriptor, or a descriptor nested at any depth under
composite descriptors, has a type that is none of the five kinds. -/
def RawRule.unknownType : RawRule → Bool
  | .mk type_ _ _ _ rules =>
    if isComposite type_ then RawRules.unknownType rules
    else !(type_ == IPRange || type_ == Header)
/-- Whether some descriptor of the list has, or nests, an unknown type. -/
def RawRules.unknownType : List RawRule → Bool
  | [] => false
  | rawRule :: rest => RawRule.unknownType rawRule || RawRules.unknownType rest
end

mutual
/-- Whether a template of the descriptor fails to render: a range of an
`ipRange` descriptor, a header value of a `header` descriptor, or a template of
a descriptor nested at any depth under composite descriptors. -/
def RawRule.renderFails (W : World) (tmplData : List (String × Json)) : RawRule → Bool
  | .mk type_ headers ranges _ rules =>
    if isComposite type_ then RawRules.renderFails W tmplData rules
    else if type_ == IPRange then
      ranges.any (fun rangeStr => !(W.templateValue rangeStr tmplData).isOk)
    else if type_ == Header then
      headers.any (fun kv => !(W.templateValue kv.2 tmplData).isOk)
    else false
/-- Whether a template of some descriptor of the list fails to render. -/
def RawRules.renderFails (W : World) (tmplData : List (String × Json)) : List RawRule → Bool
  | [] => false
  | rawRule :: rest =>
    RawRule.renderFails W tmplData rawRule || RawRules.renderFails W tmplData rest
end

mutual
/-- Whether the rule has the kind of the descriptor and, for a composite,
children that match the descriptor's children one by one. -/
def RawRule.sameKind : RawRule → Rule → Bool
  | .mk type_ _ _ _ raws, .allOf rules => type_ == AllOf && RawRules.sameKinds raws rules
  | .mk type_ _ _ _ raws, .anyOf rules => type_ == AnyOf && RawRules.sameKinds raws rules
  | .mk type_ _ _ _ raws, .noneOf rules => type_ == NoneOf && RawRules.sameKinds raws rules
  | .mk type_ _ _ _ _, .ipRange _ _ _ => type_ == IPRange
  | .mk type_ _ _ _ _, .header _ _ => type_ == Header
/-- Whether the rules match the descriptors one by one, in order. -/
def RawRules.sameKinds : List RawRule → List Rule → Bool
  | [], [] => true
  | raw :: raws, rule :: rules => RawRule.sameKind raw rule && RawRules.sameKinds raws rules
  | [], _ :: _ => false
  | _ :: _, [] => false
end

mutual
/-- The side-effect-free evaluation of a rule tree on a header map:
conjunction for `allOf`, disjunction for `anyOf`, negated disjunction for
`noneOf`, and at the leaves the address of the request in some range, or every
configured header present and accepted by its pattern. -/
def Rule.holds (S : Std) : Rule → http.Header → Bool
  | .allOf rules, h => Rules.allHold S rules h
  | .anyOf rules, h => Rules.anyHolds S rules h
  | .noneOf rules, h => !Rules.anyHolds S rules h
  | .ipRange _ _ allowedCidrs, h =>
    match S.ParseIP (clientAddress h) with
    | none => false
    | some ip => allowedCidrs.any (fun cidr => S.Contains cidr ip)
  | .header _ allowedHeaders, h =>
    allowedHeaders.all (fun kr => h.Get kr.1 != "" && S.MatchString kr.2 (h.Get kr.1))
/-- The conjunction of the evaluations of the rules on the same headers. -/
def Rules.allHold (S : Std) : List Rule → http.Header → Bool
  | [], _ => true
  | rule :: rest, h => Rule.holds S rule h && Rules.allHold S rest h
/-- The disjunction of the evaluations of the rules on the same headers. -/
def Rules.anyHolds (S : Std) : List Rule → http.Header → Bool
  | [], _ => false
  | rule :: rest, h => Rule.holds S rule h || Rules.anyHolds S rest h
end

/-- Calls of `updateConfig` one after another, in the order in which the
mutex lets the callers in, each in its own world; the state left by one call is
the state the next call finds. -/
def TLSGuard.updateConfigSerial (S : Std) : List World → TLSGuard → TLSGuard × List Event
  | [], tg => (tg, [])
  | W :: rest, tg =>
    ((TLSGuard.updateConfigSerial S rest (tg.updateConfig S W).tg).1,
      (tg.updateConfig S W).events ++
        (TLSGuard.updateConfigSerial S rest (tg.updateConfig S W).tg).2)

/-- Whether the event is work of a rebuild: a fetch of the external data or a
build of the rules. -/
def Event.isRebuild : Event → Bool
  | .fetch => true
  | .build => true
  | _ => false

/-! ## Composite rules -/

theorem Rule_Match_allOf (S : Std) (cs : List Rule) (h : http.Header) :
    Rule.Match S (.allOf cs) h = RuleAllOf.Match S cs h := by
  simp [Rule.Match]

theorem Rule_Match_anyOf (S : Std) (cs : List Rule) (h : http.Header) :
    Rule.Match S (.anyOf cs) h = RuleAnyOf.Match S cs h := by
  simp [Rule.Match]

theorem Rule_Match_noneOf (S : Std) (cs : List Rule) (h : http.Header) :
    Rule.Match S (.noneOf cs) h = RuleNoneOf.Match S cs h := by
  simp [Rule.Match]

theorem RuleAllOf_Match_cons (S : Std) (c : Rule) (cs : List Rule) (h : http.Header) :
    RuleAllOf.Match S (c :: cs) h =
      if (Rule.Match S c h).1 = true then RuleAllOf.Match S cs (Rule.Match S c h).2
      else (false, (Rule.Match S c h).2) := by
  rw [RuleAllOf.Match]
  rcases hm : Rule.Match S c h with ⟨b, h1⟩
  cases b <;> simp

theorem RuleAnyOf_Match_cons (S : Std) (c : Rule) (cs : List Rule) (h : http.Header) :
    RuleAnyOf.Match S (c :: cs) h =
      if (Rule.Match S c h).1 = true then (true, (Rule.Match S c h).2)
      else RuleAnyOf.Match S cs (Rule.Match S c h).2 := by
  rw [RuleAnyOf.Match]
  rcases hm : Rule.Match S c h with ⟨b, h1⟩
  cases b <;> simp

theorem RuleNoneOf_Match_cons (S : Std) (c : Rule) (cs : List Rule) (h : http.Header) :
    RuleNoneOf.Match S (c :: cs) h =
      if (Rule.Match S c h).1 = true then (false, (Rule.Match S c h).2)
      else RuleNoneOf.Match S cs (Rule.Match S c h).2 := by
  rw [RuleNoneOf.Match]
  rcases hm : Rule.Match S c h with ⟨b, h1⟩
  cases b <;> simp

theorem RuleConfig_Match_loop_cons (S : Std) (c : Rule) (cs : List Rule) (h : http.Header) :
    RuleConfig.Match.loop S (c :: cs) h =
      if (Rule.Match S c h).1 = true then (true, (Rule.Match S c h).2)
      else RuleConfig.Match.loop S cs (Rule.Match S c h).2 := by
  rw [RuleConfig.Match.loop]
  rcases hm : Rule.Match S c h with ⟨b, h1⟩
  cases b <;> simp

/-- AllOf is true exactly when each child matches on the headers left by the
children before it. -/
theorem RuleAllOf_Match_true_iff (S : Std) (cs : List Rule) (h : http.Header) :
    (RuleAllOf.Match S cs h).1 = true ↔
      ∀ i c, cs[i]? = some c → (Rule.Match S c (headersAfter S (cs.take i) h)).1 = true := by
  induction cs generalizing h with
  | nil => simp [RuleAllOf.Match]
  | cons d ds ih =>
    rw [RuleAllOf_Match_cons]
    constructor
    · intro hm i c hc
      by_cases hd : (Rule.Match S d h).1 = true
      · rw [if_pos hd] at hm
        cases i with
        | zero =>
          simp only [List.getElem?_cons_zero, Option.some.injEq] at hc
          subst hc
          simpa [headersAfter] using hd
        | succ j =>
          simp only [List.getElem?_cons_succ] at hc
          simpa [headersAfter] using (ih _).1 hm j c hc
      · rw [if_neg hd] at hm
        simp at hm
    · intro hall
      have hd : (Rule.Match S d h).1 = true := by
        simpa [headersAfter] using hall 0 d (by simp)
      rw [if_pos hd]
      refine (ih _).2 ?_
      intro j c hc
      simpa [headersAfter] using hall (j + 1) c (by simpa using hc)

theorem RuleAllOf_Match_true_headers (S : Std) (cs : List Rule) (h : http.Header)
    (hm : (RuleAllOf.Match S cs h).1 = true) :
    (RuleAllOf.Match S cs h).2 = headersAfter S cs h := by
  induction cs generalizing h with
  | nil => simp [RuleAllOf.Match, headersAfter]
  | cons d ds ih =>
    rw [RuleAllOf_Match_cons] at hm ⊢
    by_cases hd : (Rule.Match S d h).1 = true
    · rw [if_pos hd] at hm ⊢
      simpa [headersAfter] using ih _ hm
    · rw [if_neg hd] at hm
      simp at hm

theorem RuleAllOf_Match_stops (S : Std) (pre : List Rule) (c : Rule) (post : List Rule)
    (h : http.Header) (hpre : (RuleAllOf.Match S pre h).1 = true)
    (hc : (Rule.Match S c (headersAfter S pre h)).1 = false) :
    RuleAllOf.Match S (pre ++ c :: post) h = (false, (Rule.Match S c (headersAfter S pre h)).2) := by
  induction pre generalizing h with
  | nil =>
    simp only [headersAfter] at hc
    simp [RuleAllOf_Match_cons, headersAfter, hc]
  | cons d ds ih =>
    rw [RuleAllOf_Match_cons] at hpre
    by_cases hd : (Rule.Match S d h).1 = true
    · rw [if_pos hd] at hpre
      simp only [List.cons_append, RuleAllOf_Match_cons, if_pos hd]
      simpa [headersAfter] using ih _ hpre (by simpa [headersAfter] using hc)
    · rw [if_neg hd] at hpre
      simp at hpre

/-- AnyOf is true exactly when some child matches on the headers left by the
children before it. -/
theorem RuleAnyOf_Match_true_iff (S : Std) (cs : List Rule) (h : http.Header) :
    (RuleAnyOf.Match S cs h).1 = true ↔
      ∃ i c, cs[i]? = some c ∧ (Rule.Match S c (headersAfter S (cs.take i) h)).1 = true := by
  induction cs generalizing h with
  | nil => simp [RuleAnyOf.Match]
  | cons d ds ih =>
    rw [RuleAnyOf_Match_cons]
    by_cases hd : (Rule.Match S d h).1 = true
    · rw [if_pos hd]
      simp only [true_iff]
      exact ⟨0, d, by simp, by simpa [headersAfter] using hd⟩
    · rw [if_neg hd, ih]
      constructor
      · rintro ⟨i, c, hc, hm⟩
        exact ⟨i + 1, c, by simpa using hc, by simpa [headersAfter] using hm⟩
      · rintro ⟨i, c, hc, hm⟩
        cases i with
        | zero =>
          simp only [List.getElem?_cons_zero, Option.some.injEq] at hc
          subst hc
          exact absurd (by simpa [headersAfter] using hm) hd
        | succ j =>
          exact ⟨j, c, by simpa using hc, by simpa [headersAfter] using hm⟩

theorem RuleAnyOf_Match_false_headers (S : Std) (cs : List Rule) (h : http.Header)
    (hm : (RuleAnyOf.Match S cs h).1 = false) :
    (RuleAnyOf.Match S cs h).2 = headersAfter S cs h := by
  induction cs generalizing h with
  | nil => simp [RuleAnyOf.Match, headersAfter]
  | cons d ds ih =>
    rw [RuleAnyOf_Match_cons] at hm ⊢
    by_cases hd : (Rule.Match S d h).1 = true
    · rw [if_pos hd] at hm
      simp at hm
    · rw [if_neg hd] at hm ⊢
      simpa [headersAfter] using ih _ hm

theorem RuleAnyOf_Match_stops (S : Std) (pre : List Rule) (c : Rule) (post : List Rule)
    (h : http.Header) (hpre : (RuleAnyOf.Match S pre h).1 = false)
    (hc : (Rule.Match S c (headersAfter S pre h)).1 = true) :
    RuleAnyOf.Match S (pre ++ c :: post) h = (true, (Rule.Match S c (headersAfter S pre h)).2) := by
  induction pre generalizing h with
  | nil =>
    simp only [headersAfter] at hc
    simp [RuleAnyOf_Match_cons, headersAfter, hc]
  | cons d ds ih =>
    rw [RuleAnyOf_Match_cons] at hpre
    by_cases hd : (Rule.Match S d h).1 = true
    · rw [if_pos hd] at hpre
      simp at hpre
    · rw [if_neg hd] at hpre
      simp only [List.cons_append, RuleAnyOf_Match_cons, if_neg hd]
      simpa [headersAfter] using ih _ hpre (by simpa [headersAfter] using hc)

theorem RuleConfig_Match_loop_eq_anyOf (S : Std) (cs : List Rule) (h : http.Header) :
    RuleConfig.Match.loop S cs h = RuleAnyOf.Match S cs h := by
  induction cs generalizing h with
  | nil => simp [RuleConfig.Match.loop, RuleAnyOf.Match]
  | cons d ds ih =>
    rw [RuleConfig_Match_loop_cons, RuleAnyOf_Match_cons, ih]

theorem RuleNoneOf_Match_eq_not_anyOf (S : Std) (cs : List Rule) (h : http.Header) :
    RuleNoneOf.Match S cs h = (!(RuleAnyOf.Match S cs h).1, (RuleAnyOf.Match S cs h).2) := by
  induction cs generalizing h with
  | nil => simp [RuleNoneOf.Match, RuleAnyOf.Match]
  | cons d ds ih =>
    rw [RuleNoneOf_Match_cons, RuleAnyOf_Match_cons]
    by_cases hd : (Rule.Match S d h).1 = true
    · simp [hd]
    · simp [hd, ih]

/-- C1: `RuleAllOf.Match` is true exactly when every child, taken in configured
order, matches on the headers left by the children before it, and then leaves
the headers left by the last child; when the children before `c` all match and
`c` does not, the result is false with the headers as `c` left them, whatever
children follow `c`; over no children it is true and leaves the headers as
they were. -/
theorem C1_allOf_ordered_short_circuit (S : Std) (cs : List Rule) (h : http.Header) :
    ((Rule.Match S (.allOf cs) h).1 = true ↔
        ∀ i c, cs[i]? = some c → (Rule.Match S c (headersAfter S (cs.take i) h)).1 = true) ∧
    ((Rule.Match S (.allOf cs) h).1 = true →
        (Rule.Match S (.allOf cs) h).2 = headersAfter S cs h) ∧
    (∀ pre c post, cs = pre ++ c :: post →
        (Rule.Match S (.allOf pre) h).1 = true →
        (Rule.Match S c (headersAfter S pre h)).1 = false →
        Rule.Match S (.allOf cs) h = (false, (Rule.Match S c (headersAfter S pre h)).2)) ∧
    Rule.Match S (.allOf []) h = (true, h) := by
  simp only [Rule_Match_allOf]
  refine ⟨RuleAllOf_Match_true_iff S cs h, RuleAllOf_Match_true_headers S cs h, ?_, ?_⟩
  · intro pre c post hcs hpre hc
    subst hcs
    exact RuleAllOf_Match_stops S pre c post h hpre hc
  · simp [RuleAllOf.Match]

/-- C2: `RuleAnyOf.Match` is true exactly when some child, taken in configured
order, matches on the headers left by the children before it; when the children
before `c` all fail and `c` matches, the result is true with the headers as `c`
left them, whatever children follow `c`; over no children it is false; and
`RuleConfig.Match` on a snapshot with roots `rs` returns the result and the
headers of `RuleAnyOf` over `rs`. -/
theorem C2_anyOf_ordered_short_circuit (S : Std) (cs : List Rule) (h : http.Header) :
    ((Rule.Match S (.anyOf cs) h).1 = true ↔
        ∃ i c, cs[i]? = some c ∧ (Rule.Match S c (headersAfter S (cs.take i) h)).1 = true) ∧
    ((Rule.Match S (.anyOf cs) h).1 = false →
        (Rule.Match S (.anyOf cs) h).2 = headersAfter S cs h) ∧
    (∀ pre c post, cs = pre ++ c :: post →
        (Rule.Match S (.anyOf pre) h).1 = false →
        (Rule.Match S c (headersAfter S pre h)).1 = true →
        Rule.Match S (.anyOf cs) h = (true, (Rule.Match S c (headersAfter S pre h)).2)) ∧
    Rule.Match S (.anyOf []) h = (false, h) ∧
    (∀ created next, RuleConfig.Match S ⟨created, next, cs⟩ h = Rule.Match S (.anyOf cs) h) := by
  simp only [Rule_Match_anyOf]
  refine ⟨RuleAnyOf_Match_true_iff S cs h, RuleAnyOf_Match_false_headers S cs h, ?_, ?_, ?_⟩
  · intro pre c post hcs hpre hc
    subst hcs
    exact RuleAnyOf_Match_stops S pre c post h hpre hc
  · simp [RuleAnyOf.Match]
  · intro created next
    exact RuleConfig_Match_loop_eq_anyOf S cs h

/-- C3: `RuleNoneOf.Match` over `cs` returns the negation of `RuleAnyOf.Match`
over `cs` on the same request and leaves the same headers; over no children it
is true. -/
theorem C3_noneOf_is_not_anyOf (S : Std) (cs : List Rule) (h : http.Header) :
    Rule.Match S (.noneOf cs) h =
        (!(Rule.Match S (.anyOf cs) h).1, (Rule.Match S (.anyOf cs) h).2) ∧
    Rule.Match S (.noneOf []) h = (true, h) := by
  simp only [Rule_Match_noneOf, Rule_Match_anyOf]
  exact ⟨RuleNoneOf_Match_eq_not_anyOf S cs h, by simp [RuleNoneOf.Match]⟩

/-! ## Leaf rules -/

theorem Rule_Match_ipRange (S : Std) (ranges : List String) (addInterface : Bool)
    (cs : List IPNet) (h : http.Header) :
    Rule.Match S (.ipRange ranges addInterface cs) h = RuleIPRange.Match S cs h := by
  simp [Rule.Match]

theorem Rule_Match_header (S : Std) (headers : List (String × String))
    (P : List (String × Regexp)) (h : http.Header) :
    Rule.Match S (.header headers P) h = RuleHeader.Match S P h := by
  simp [Rule.Match]

theorem RuleIPRange_isIPInRange_loop_true_iff (S : Std) (ip : IP) (cs : List IPNet) :
    (RuleIPRange.isIPInRange.loop S ip cs).1 = true ↔ ∃ c ∈ cs, S.Contains c ip = true := by
  induction cs with
  | nil => simp [RuleIPRange.isIPInRange.loop]
  | cons d ds ih =>
    rw [RuleIPRange.isIPInRange.loop]
    by_cases hd : S.Contains d ip = true
    · simp [hd]
    · simp [hd, ih]

theorem RuleIPRange_isIPInRange_loop_first (S : Std) (ip : IP) (pre : List IPNet) (c : IPNet)
    (post : List IPNet) (hpre : ∀ d ∈ pre, S.Contains d ip = false)
    (hc : S.Contains c ip = true) :
    RuleIPRange.isIPInRange.loop S ip (pre ++ c :: post) = (true, S.cidrString c) := by
  induction pre with
  | nil => simp [RuleIPRange.isIPInRange.loop, hc]
  | cons d ds ih =>
    have hd : S.Contains d ip = false := hpre d (by simp)
    simp only [List.cons_append, RuleIPRange.isIPInRange.loop, hd]
    simpa using ih (fun x hx => hpre x (by simp [hx]))

theorem RuleIPRange_Match_eq (S : Std) (cs : List IPNet) (h : http.Header) :
    RuleIPRange.Match S cs h =
      if (RuleIPRange.isIPInRange S cs (clientAddress h)).1 = true then
        (true, h.Set "X-TLSGuard-Cidr" (RuleIPRange.isIPInRange S cs (clientAddress h)).2)
      else (false, h) := by
  unfold RuleIPRange.Match clientAddress
  rcases hr : RuleIPRange.isIPInRange S cs
      (if h.Get "X-Real-Ip" = "" then h.Get "X-Forwarded-For" else h.Get "X-Real-Ip")
    with ⟨b, cidr⟩
  cases b <;> simp [hr]

theorem RuleHeader_Match_loop_true_iff (S : Std) (h : http.Header) (P : List (String × Regexp)) :
    RuleHeader.Match.loop S h P = true ↔
      ∀ kr ∈ P, h.Get kr.1 ≠ "" ∧ S.MatchString kr.2 (h.Get kr.1) = true := by
  induction P with
  | nil => simp [RuleHeader.Match.loop]
  | cons d ds ih =>
    obtain ⟨key, regex⟩ := d
    rw [RuleHeader.Match.loop]
    by_cases hv : h.Get key = ""
    · simp [hv]
    · by_cases hm : S.MatchString regex (h.Get key) = true
      · simp [hv, hm, ih]
      · simp [hv, hm]

theorem lookup_filter_ne (h : http.Header) (k : String) :
    List.lookup k (h.filter (fun e => e.1 != k)) = none := by
  induction h with
  | nil => simp
  | cons e es ih =>
    obtain ⟨a, v⟩ := e
    by_cases ha : a = k
    · simp [List.filter_cons, ha, ih]
    · have hka : (k == a) = false := by simpa using fun hk => ha hk.symm
      simp [List.filter_cons, ha, List.lookup_cons, hka, ih]

theorem Header_Get_Del_self (h : http.Header) (key : String) : (h.Del key).Get key = "" := by
  simp [Header.Get, Header.Del, lookup_filter_ne]

/-- The reference parser accepts no address with a comma. -/
theorem Reference_parseIP_comma (s : String) (hs : ',' ∈ s.data) :
    Reference.std.ParseIP s = none := by
  have hall : (s.data.all (fun c => c.isDigit || c == '.')) = false := by
    rw [List.all_eq_false]
    exact ⟨',', hs, by decide⟩
  show Reference.parseIPv4 s.data = none
  unfold Reference.parseIPv4
  rw [if_neg (by rw [hall]; simp)]

/-- C4: `RuleIPRange.Match` with CIDR list `cs` is true exactly when the
candidate address (X-Real-Ip if non-empty, else the whole X-Forwarded-For)
parses and some CIDR of `cs` contains it; it then sets X-TLSGuard-Cidr to the
first CIDR of `cs` that contains the address; a false result leaves the
headers unchanged; an unparsable candidate gives false, also a non-empty
unparsable X-Real-Ip whatever X-Forwarded-For holds, and, the parser accepting
no comma, any candidate with a comma. -/
theorem C4_ipRange_match (S : Std) (ranges : List String) (addInterface : Bool)
    (cs : List IPNet) (h : http.Header) :
    ((Rule.Match S (.ipRange ranges addInterface cs) h).1 = true ↔
        ∃ ip, S.ParseIP (clientAddress h) = some ip ∧ ∃ c ∈ cs, S.Contains c ip = true) ∧
    (∀ ip pre c post, S.ParseIP (clientAddress h) = some ip → cs = pre ++ c :: post →
        (∀ d ∈ pre, S.Contains d ip = false) → S.Contains c ip = true →
        Rule.Match S (.ipRange ranges addInterface cs) h =
          (true, h.Set "X-TLSGuard-Cidr" (S.cidrString c))) ∧
    ((Rule.Match S (.ipRange ranges addInterface cs) h).1 = false →
        (Rule.Match S (.ipRange ranges addInterface cs) h).2 = h) ∧
    (h.Get "X-Real-Ip" ≠ "" → S.ParseIP (h.Get "X-Real-Ip") = none →
        Rule.Match S (.ipRange ranges addInterface cs) h = (false, h)) ∧
    (h.Get "X-Real-Ip" = "" → S.ParseIP (h.Get "X-Forwarded-For") = none →
        Rule.Match S (.ipRange ranges addInterface cs) h = (false, h)) ∧
    ((∀ s : String, ',' ∈ s.data → S.ParseIP s = none) → ',' ∈ (clientAddress h).data →
        Rule.Match S (.ipRange ranges addInterface cs) h = (false, h)) := by
  have hnone : S.ParseIP (clientAddress h) = none →
      Rule.Match S (.ipRange ranges addInterface cs) h = (false, h) := by
    intro hp
    rw [Rule_Match_ipRange, RuleIPRange_Match_eq]
    simp [RuleIPRange.isIPInRange, hp]
  refine ⟨?_, ?_, ?_, ?_, ?_, ?_⟩
  · rw [Rule_Match_ipRange, RuleIPRange_Match_eq]
    cases hp : S.ParseIP (clientAddress h) with
    | none => simp [RuleIPRange.isIPInRange, hp]
    | some ip =>
      have hl := RuleIPRange_isIPInRange_loop_true_iff S ip cs
      by_cases hb : (RuleIPRange.isIPInRange.loop S ip cs).1 = true
      · simp only [RuleIPRange.isIPInRange, hp, hb, if_true, true_iff]
        exact ⟨ip, rfl, hl.1 hb⟩
      · simp only [RuleIPRange.isIPInRange, hp, hb, if_false, Bool.false_eq_true, false_iff]
        rintro ⟨ip2, hip, hex⟩
        cases hip
        exact hb (hl.2 hex)
  · intro ip pre c post hp hcs hpre hc
    subst hcs
    rw [Rule_Match_ipRange, RuleIPRange_Match_eq]
    simp [RuleIPRange.isIPInRange, hp, RuleIPRange_isIPInRange_loop_first S ip pre c post hpre hc]
  · intro hf
    rw [Rule_Match_ipRange, RuleIPRange_Match_eq] at hf ⊢
    by_cases hb : (RuleIPRange.isIPInRange S cs (clientAddress h)).1 = true
    · simp [hb] at hf
    · simp [hb]
  · intro hne hp
    exact hnone (by simpa [clientAddress, hne] using hp)
  · intro he hp
    exact hnone (by simpa [clientAddress, he] using hp)
  · intro hcomma hc
    exact hnone (hcomma _ hc)

/-- C4 at a request whose X-Forwarded-For is a list of two addresses: the
range 10.0.0.0/8 does not match and the headers stay as they were. -/
theorem C4_ipRange_match_witness :
    Rule.Match Reference.std (.ipRange ["10.0.0.0/8"] false [⟨[10, 0, 0, 0], [255, 0, 0, 0]⟩])
        [("X-Forwarded-For", ["10.1.2.3, 10.0.0.1"])] =
      (false, [("X-Forwarded-For", ["10.1.2.3, 10.0.0.1"])]) :=
  (C4_ipRange_match Reference.std ["10.0.0.0/8"] false [⟨[10, 0, 0, 0], [255, 0, 0, 0]⟩]
    [("X-Forwarded-For", ["10.1.2.3, 10.0.0.1"])]).2.2.2.2.2
    Reference_parseIP_comma (by decide)

/-- C5: `RuleHeader.Match` with pattern map `P` is true exactly when every
header name of `P` has a non-empty value on the request and `MatchString` of
its pattern accepts that value; it then sets X-TLSGuard-Header to "true"; a
false result leaves the headers unchanged; and on a request from which one
configured header has been removed it is false. -/
theorem C5_header_match (S : Std) (headers : List (String × String))
    (P : List (String × Regexp)) (h : http.Header) :
    ((Rule.Match S (.header headers P) h).1 = true ↔
        ∀ kr ∈ P, h.Get kr.1 ≠ "" ∧ S.MatchString kr.2 (h.Get kr.1) = true) ∧
    ((Rule.Match S (.header headers P) h).1 = true →
        (Rule.Match S (.header headers P) h).2 = h.Set "X-TLSGuard-Header" "true") ∧
    ((Rule.Match S (.header headers P) h).1 = false →
        (Rule.Match S (.header headers P) h).2 = h) ∧
    (∀ kr ∈ P, (Rule.Match S (.header headers P) (h.Del kr.1)).1 = false) := by
  simp only [Rule_Match_header, RuleHeader.Match]
  refine ⟨?_, ?_, ?_, ?_⟩
  · rw [← RuleHeader_Match_loop_true_iff]
    by_cases hl : RuleHeader.Match.loop S h P = true <;> simp [hl]
  · by_cases hl : RuleHeader.Match.loop S h P = true <;> simp [hl]
  · by_cases hl : RuleHeader.Match.loop S h P = true <;> simp [hl]
  · intro kr hkr
    have hl : ¬ RuleHeader.Match.loop S (h.Del kr.1) P = true := by
      rw [RuleHeader_Match_loop_true_iff]
      intro hall
      exact (hall kr hkr).1 (Header_Get_Del_self h kr.1)
    simp [hl]

/-! ## Identity resolution -/

theorem TLSGuard_findUserByID_hit (tg : TLSGuard) (id name : String) (hid : id ≠ "")
    (hl : (tg.config.Users.getD []).lookup id = some name) :
    tg.findUserByID id = (if name = "" then id else name, true) := by
  unfold TLSGuard.findUserByID
  rw [if_neg hid, hl]
  by_cases hn : name = "" <;> simp [hn]

theorem TLSGuard_findUserByID_miss (tg : TLSGuard) (id : String)
    (hl : id = "" ∨ (tg.config.Users.getD []).lookup id = none) :
    tg.findUserByID id = ("", false) := by
  unfold TLSGuard.findUserByID
  by_cases hid : id = ""
  · rw [if_pos hid]
  · rw [if_neg hid]
    rcases hl with h | h
    · exact absurd h hid
    · rw [h]

theorem TLSGuard_findUserByID_cases (tg : TLSGuard) (id : String) :
    (id ≠ "" ∧ ∃ name, (tg.config.Users.getD []).lookup id = some name) ∨
    (id = "" ∨ (tg.config.Users.getD []).lookup id = none) := by
  by_cases hid : id = ""
  · exact Or.inr (Or.inl hid)
  · cases hl : (tg.config.Users.getD []).lookup id with
    | none => exact Or.inr (Or.inr rfl)
    | some name => exact Or.inl ⟨hid, name, rfl⟩

theorem TLSGuard_findUserByCert_loop_cons (tg : TLSGuard) (x : String) (xs : List String) :
    TLSGuard.findUserByCert.loop tg (x :: xs) =
      if (tg.findUserByID x).2 = true then tg.findUserByID x
      else TLSGuard.findUserByCert.loop tg xs := by
  rw [TLSGuard.findUserByCert.loop]
  rcases TLSGuard_findUserByID_cases tg x with ⟨hid, name, hl⟩ | hmiss
  · simp [TLSGuard_findUserByID_hit tg x name hid hl]
  · simp [TLSGuard_findUserByID_miss tg x hmiss]

theorem TLSGuard_findUserByCert_loop_append (tg : TLSGuard) (xs ys : List String) :
    TLSGuard.findUserByCert.loop tg (xs ++ ys) =
      if (TLSGuard.findUserByCert.loop tg xs).2 = true then TLSGuard.findUserByCert.loop tg xs
      else TLSGuard.findUserByCert.loop tg ys := by
  induction xs with
  | nil => simp [TLSGuard.findUserByCert.loop]
  | cons x xs ih =>
    simp only [List.cons_append, TLSGuard_findUserByCert_loop_cons]
    by_cases hx : (tg.findUserByID x).2 = true
    · simp [hx]
    · simp [hx, ih]

theorem TLSGuard_findUserByCert_loop_all_miss (tg : TLSGuard) (xs : List String)
    (hmiss : ∀ x ∈ xs, x = "" ∨ (tg.config.Users.getD []).lookup x = none) :
    TLSGuard.findUserByCert.loop tg xs = ("", false) := by
  induction xs with
  | nil => simp [TLSGuard.findUserByCert.loop]
  | cons x xs ih =>
    rw [TLSGuard_findUserByCert_loop_cons, TLSGuard_findUserByID_miss tg x (hmiss x (by simp))]
    simpa using ih (fun y hy => hmiss y (by simp [hy]))

theorem TLSGuard_findUserByCert_loop_first (tg : TLSGuard) (pre : List String) (id : String)
    (post : List String) (name : String)
    (hpre : ∀ x ∈ pre, x = "" ∨ (tg.config.Users.getD []).lookup x = none)
    (hid : id ≠ "") (hl : (tg.config.Users.getD []).lookup id = some name) :
    TLSGuard.findUserByCert.loop tg (pre ++ id :: post) =
      (if name = "" then id else name, true) := by
  rw [TLSGuard_findUserByCert_loop_append, TLSGuard_findUserByCert_loop_all_miss tg pre hpre,
    TLSGuard_findUserByCert_loop_cons, TLSGuard_findUserByID_hit tg id name hid hl]
  simp

theorem TLSGuard_findUserByCert_loop_true_iff (tg : TLSGuard) (xs : List String) :
    (TLSGuard.findUserByCert.loop tg xs).2 = true ↔
      ∃ id ∈ xs, id ≠ "" ∧ ∃ name, (tg.config.Users.getD []).lookup id = some name := by
  induction xs with
  | nil => simp [TLSGuard.findUserByCert.loop]
  | cons x xs ih =>
    rw [TLSGuard_findUserByCert_loop_cons]
    rcases TLSGuard_findUserByID_cases tg x with ⟨hid, name, hl⟩ | hmiss
    · simp only [TLSGuard_findUserByID_hit tg x name hid hl, if_true, true_iff]
      exact ⟨x, by simp, hid, name, hl⟩
    · simp only [TLSGuard_findUserByID_miss tg x hmiss, Bool.false_eq_true, if_false, ih]
      constructor
      · rintro ⟨id, hmem, h⟩
        exact ⟨id, by simp [hmem], h⟩
      · rintro ⟨id, hmem, hne, name, hl⟩
        rcases List.mem_cons.1 hmem with rfl | hmem
        · rcases hmiss with h | h
          · exact absurd h hne
          · rw [h] at hl
            cases hl
        · exact ⟨id, hmem, hne, name, hl⟩

/-- The three steps of `findUserByCert` are one first-hit scan of the
identifiers in lookup order. -/
theorem TLSGuard_findUserByCert_eq_loop (tg : TLSGuard) (cert : Certificate) :
    tg.findUserByCert cert = TLSGuard.findUserByCert.loop tg (identifiers cert) := by
  have hscan : (match tg.findUserByID cert.Subject.CommonName with
      | (username, true) => (username, true)
      | (_, false) =>
        match TLSGuard.findUserByCert.loop tg cert.DNSNames with
        | (username, true) => (username, true)
        | (_, false) =>
          match TLSGuard.findUserByCert.loop tg cert.EmailAddresses with
          | (username, true) => (username, true)
          | (_, false) => ("", false)) =
      TLSGuard.findUserByCert.loop tg (identifiers cert) := by
    rw [identifiers, TLSGuard_findUserByCert_loop_cons, TLSGuard_findUserByCert_loop_append]
    rcases h1 : tg.findUserByID cert.Subject.CommonName with ⟨u1, b1⟩
    cases b1
    · rcases h2 : TLSGuard.findUserByCert.loop tg cert.DNSNames with ⟨u2, b2⟩
      cases b2
      · rcases h3 : TLSGuard.findUserByCert.loop tg cert.EmailAddresses with ⟨u3, b3⟩
        cases b3
        · have h4 : u3 = "" := by
            rcases Classical.em (∀ x ∈ cert.EmailAddresses,
                x = "" ∨ (tg.config.Users.getD []).lookup x = none) with hm | hm
            · have := TLSGuard_findUserByCert_loop_all_miss tg _ hm
              rw [h3] at this
              exact (Prod.mk.inj this).1
            · exfalso
              have hex : ∃ id ∈ cert.EmailAddresses, id ≠ "" ∧
                  ∃ name, (tg.config.Users.getD []).lookup id = some name := by
                by_contra hne
                apply hm
                intro x hx
                rcases TLSGuard_findUserByID_cases tg x with hhit | hmiss
                · exact absurd ⟨x, hx, hhit⟩ hne
                · exact hmiss
              have := (TLSGuard_findUserByCert_loop_true_iff tg _).2 hex
              rw [h3] at this
              simp at this
          simp [h4]
        · simp
      · simp
    · simp
  unfold TLSGuard.findUserByCert
  cases hu : tg.config.Users with
  | none =>
    simp only
    rw [TLSGuard_findUserByCert_loop_all_miss]
    intro x _
    simp [hu]
  | some users =>
    simp only
    by_cases hlen : users.length = 0
    · rw [if_pos hlen, TLSGuard_findUserByCert_loop_all_miss]
      intro x _
      have : users = [] := List.length_eq_zero.1 hlen
      simp [hu, this]
    · rw [if_neg hlen]
      exact hscan

/-- C6: `findUserByCert` succeeds exactly when some non-empty identifier in
the sequence Common Name, DNS names, email addresses is a key of the directory;
it returns the entry of the first such identifier, whatever identifiers follow
it, and the identifier itself when that entry is empty; a certificate whose
identifiers are all empty is not resolved whatever keys the directory has; and
with a nil or empty directory no certificate is resolved. -/
theorem C6_findUserByCert_first_hit (tg : TLSGuard) (cert : Certificate) :
    ((tg.findUserByCert cert).2 = true ↔
        ∃ id ∈ identifiers cert, id ≠ "" ∧
          ∃ name, (tg.config.Users.getD []).lookup id = some name) ∧
    (∀ pre id post name, identifiers cert = pre ++ id :: post →
        (∀ x ∈ pre, x = "" ∨ (tg.config.Users.getD []).lookup x = none) →
        id ≠ "" → (tg.config.Users.getD []).lookup id = some name →
        tg.findUserByCert cert = (if name = "" then id else name, true)) ∧
    ((∀ id ∈ identifiers cert, id = "") → tg.findUserByCert cert = ("", false)) ∧
    (tg.config.Users = none ∨ tg.config.Users = some [] →
        tg.findUserByCert cert = ("", false)) := by
  rw [TLSGuard_findUserByCert_eq_loop]
  refine ⟨TLSGuard_findUserByCert_loop_true_iff tg _, ?_, ?_, ?_⟩
  · intro pre id post name hids hpre hid hl
    rw [hids]
    exact TLSGuard_findUserByCert_loop_first tg pre id post name hpre hid hl
  · intro hempty
    exact TLSGuard_findUserByCert_loop_all_miss tg _ (fun x hx => Or.inl (hempty x hx))
  · intro hu
    refine TLSGuard_findUserByCert_loop_all_miss tg _ (fun x _ => Or.inr ?_)
    rcases hu with hu | hu <;> simp [hu]

/-! ## Header maps -/

theorem lookup_filter_other (h : http.Header) (k a : String) (hak : a ≠ k) :
    List.lookup a (h.filter (fun e => e.1 != k)) = List.lookup a h := by
  induction h with
  | nil => simp
  | cons e es ih =>
    obtain ⟨b, v⟩ := e
    by_cases hb : b = k
    · subst hb
      have hab : (a == b) = false := by simpa using hak
      simp [List.filter_cons, List.lookup_cons, hab, ih]
    · by_cases hab : a = b
      · simp [List.filter_cons, hb, List.lookup_cons, hab]
      · have hab2 : (a == b) = false := by simpa using hab
        simp [List.filter_cons, hb, List.lookup_cons, hab2, ih]

theorem Header_Get_Set_same (h : http.Header) (key value key2 : String)
    (hk : textproto.CanonicalMIMEHeaderKey key2 = textproto.CanonicalMIMEHeaderKey key) :
    (h.Set key value).Get key2 = value := by
  simp [Header.Get, Header.Set, List.lookup_cons, hk]

theorem Header_Get_Set_other (h : http.Header) (key value key2 : String)
    (hk : textproto.CanonicalMIMEHeaderKey key2 ≠ textproto.CanonicalMIMEHeaderKey key) :
    (h.Set key value).Get key2 = h.Get key2 := by
  have hb : (textproto.CanonicalMIMEHeaderKey key2 == textproto.CanonicalMIMEHeaderKey key)
      = false := by simpa using hk
  simp [Header.Get, Header.Set, Header.Del, List.lookup_cons, hb, lookup_filter_other _ _ _ hk]

theorem renderHeaders_Get (S : Std) (cert : Option Certificate)
    (templates : List (String × Template)) (req : Request) (key : String)
    (hk : ∀ nt ∈ templates,
      textproto.CanonicalMIMEHeaderKey nt.1 ≠ textproto.CanonicalMIMEHeaderKey key) :
    (TLSGuard.renderHeaders S cert templates req).Header.Get key = req.Header.Get key := by
  induction templates generalizing req with
  | nil => simp [TLSGuard.renderHeaders]
  | cons nt rest ih =>
    obtain ⟨name, tmpl⟩ := nt
    have hrest : ∀ nt ∈ rest,
        textproto.CanonicalMIMEHeaderKey nt.1 ≠ textproto.CanonicalMIMEHeaderKey key :=
      fun x hx => hk x (by simp [hx])
    rw [TLSGuard.renderHeaders]
    cases S.Execute tmpl cert req with
    | error e => exact ih req hrest
    | ok out =>
      simp only
      rw [ih _ hrest]
      exact Header_Get_Set_other _ _ _ _ (fun h => hk (name, tmpl) (by simp) h.symm)

/-! ## The decision pipeline -/

theorem findUserByID_config (tg1 tg2 : TLSGuard) (hc : tg1.config = tg2.config) (id : String) :
    tg1.findUserByID id = tg2.findUserByID id := by
  simp [TLSGuard.findUserByID, hc]

theorem findUserByCert_loop_config (tg1 tg2 : TLSGuard) (hc : tg1.config = tg2.config)
    (ids : List String) :
    TLSGuard.findUserByCert.loop tg1 ids = TLSGuard.findUserByCert.loop tg2 ids := by
  induction ids with
  | nil => simp [TLSGuard.findUserByCert.loop]
  | cons x xs ih =>
    rw [TLSGuard_findUserByCert_loop_cons, TLSGuard_findUserByCert_loop_cons, ih,
      findUserByID_config tg1 tg2 hc]

theorem findUserByCert_config (tg1 tg2 : TLSGuard) (hc : tg1.config = tg2.config)
    (cert : Certificate) : tg1.findUserByCert cert = tg2.findUserByCert cert := by
  rw [TLSGuard_findUserByCert_eq_loop, TLSGuard_findUserByCert_eq_loop,
    findUserByCert_loop_config tg1 tg2 hc]

theorem ServeHTTP_resolved (S : Std) (W : World) (tg : TLSGuard) (req : Request)
    (cert : Certificate) (u : String) (hcert : req.peerCertificate = some cert)
    (hres : tg.findUserByCert cert = (u, true)) :
    tg.ServeHTTP S W req =
      ⟨tg, .next (tg.addCertHeaders S
        (if tg.config.UsernameHeader ≠ "" then req.setHeader tg.config.UsernameHeader u
          else req) cert), []⟩ := by
  unfold TLSGuard.ServeHTTP
  rw [hcert]
  simp only
  rw [hres]

theorem ServeHTTP_unresolved (S : Std) (W : World) (tg : TLSGuard) (req : Request)
    (hun : ∀ cert, req.peerCertificate = some cert → (tg.findUserByCert cert).2 = false) :
    tg.ServeHTTP S W req = TLSGuard.ServeHTTP.rules S W tg (tg.annotated S req) := by
  unfold TLSGuard.ServeHTTP TLSGuard.annotated
  cases hc : req.peerCertificate with
  | none => rfl
  | some cert =>
    have h2 := hun cert hc
    rcases hf : tg.findUserByCert cert with ⟨u, b⟩
    rw [hf] at h2
    simp only at h2
    subst h2
    simp only [hf]

theorem renderHeaders_TLS (S : Std) (cert : Option Certificate)
    (templates : List (String × Template)) (req : Request) :
    (TLSGuard.renderHeaders S cert templates req).TLS = req.TLS := by
  induction templates generalizing req with
  | nil => simp [TLSGuard.renderHeaders]
  | cons nt rest ih =>
    obtain ⟨name, tmpl⟩ := nt
    rw [TLSGuard.renderHeaders]
    cases S.Execute tmpl cert req with
    | error e => exact ih req
    | ok out =>
      simp only
      rw [ih]
      rfl

theorem annotated_peerCertificate (S : Std) (tg : TLSGuard) (req : Request) :
    (tg.annotated S req).peerCertificate = req.peerCertificate := by
  unfold TLSGuard.annotated
  cases hc : req.peerCertificate with
  | none => simpa [Request.peerCertificate, Request.setHeader] using hc
  | some cert =>
    simp only [TLSGuard.addCertHeaders]
    unfold Request.peerCertificate at hc ⊢
    rw [renderHeaders_TLS]
    simpa [Request.setHeader] using hc

/-- C7: a request whose client certificate `findUserByCert` resolves to `u` is
forwarded to the next handler, the response being the same under every rule
snapshot and every world; no rule is evaluated and no refresh is run or
started, and the plugin state is unchanged; when `usernameHeader` is non-empty
and its canonical name is neither that of X-TLSGuard-Cert-SN or
X-TLSGuard-Cert-CN nor that of a custom header, the forwarded request carries
`usernameHeader = u`. -/
theorem C7_identity_bypass (S : Std) (W : World) (tg : TLSGuard) (req : Request)
    (cert : Certificate) (u : String) (hcert : req.peerCertificate = some cert)
    (hres : tg.findUserByCert cert = (u, true)) :
    (∃ fwd, (tg.ServeHTTP S W req).response = .next fwd ∧
      (tg.config.UsernameHeader ≠ "" →
        textproto.CanonicalMIMEHeaderKey tg.config.UsernameHeader ≠
          textproto.CanonicalMIMEHeaderKey "X-TLSGuard-Cert-SN" →
        textproto.CanonicalMIMEHeaderKey tg.config.UsernameHeader ≠
          textproto.CanonicalMIMEHeaderKey "X-TLSGuard-Cert-CN" →
        (∀ nt ∈ tg.requestHeaders, textproto.CanonicalMIMEHeaderKey nt.1 ≠
          textproto.CanonicalMIMEHeaderKey tg.config.UsernameHeader) →
        fwd.Header.Get tg.config.UsernameHeader = u)) ∧
    (tg.ServeHTTP S W req).events = [] ∧
    (tg.ServeHTTP S W req).tg = tg ∧
    (∀ (m : Option RuleConfig) (W2 : World),
      (TLSGuard.ServeHTTP S W2 { tg with matchers := m } req).response =
        (tg.ServeHTTP S W req).response) := by
  rw [ServeHTTP_resolved S W tg req cert u hcert hres]
  refine ⟨⟨_, rfl, ?_⟩, rfl, rfl, ?_⟩
  · intro hne hsn hcn hcustom
    rw [if_pos hne]
    simp only [TLSGuard.addCertHeaders]
    rw [renderHeaders_Get S _ _ _ _ hcustom]
    simp only [Request.setHeader]
    rw [Header_Get_Set_other _ _ _ _ hcn, Header_Get_Set_other _ _ _ _ hsn,
      Header_Get_Set_same _ _ _ _ rfl]
  · intro m W2
    rw [ServeHTTP_resolved S W2 { tg with matchers := m } req cert u hcert
      ((findUserByCert_config { tg with matchers := m } tg rfl cert).trans hres)]
    rfl

/-- The scenario states are what `New` builds from the scenario
configurations. -/
theorem Scenario_guards_built :
    New Reference.std (Reference.offline 0) Scenario.configA =
      .returned (.ok Scenario.guardA) ∧
    New Reference.std (Reference.offline 0) Scenario.configB =
      .returned (.ok Scenario.guardB) ∧
    New Reference.std (Reference.offline 0) Scenario.configC =
      .returned (.ok Scenario.guardC) ∧
    New Reference.std (Reference.offline 0) Scenario.configN =
      .returned (.ok Scenario.guardN) ∧
    New Reference.std (Reference.world 0 (.ok [])) Scenario.configX =
      .returned (.ok Scenario.guardX) :=
  ⟨rfl, rfl, rfl, rfl, rfl⟩

/-- C7 at scenario C: the certificate with email SAN alice@example.com is
forwarded with X-User alice although the address 8.8.8.8 is outside the only
range. -/
theorem C7_identity_bypass_witness :
    ∃ fwd, (Scenario.guardC.ServeHTTP Reference.std (Reference.offline 0)
        (Scenario.certRequest Scenario.certAlice "8.8.8.8")).response = .next fwd ∧
      fwd.Header.Get "X-User" = "alice" ∧
      (Scenario.guardC.ServeHTTP Reference.std (Reference.offline 0)
        (Scenario.certRequest Scenario.certAlice "8.8.8.8")).events = [] := by
  have h := C7_identity_bypass Reference.std (Reference.offline 0) Scenario.guardC
    (Scenario.certRequest Scenario.certAlice "8.8.8.8") Scenario.certAlice "alice" rfl
    (by decide)
  obtain ⟨⟨fwd, hfwd, hget⟩, hev, _, _⟩ := h
  exact ⟨fwd, hfwd, hget (by decide) (by decide) (by decide) (by decide), hev⟩

theorem updateConfigIfRequired_none (W : World) (tg : TLSGuard) (hm : tg.matchers = none) :
    tg.updateConfigIfRequired W = [] := by
  simp [TLSGuard.updateConfigIfRequired, hm]

theorem ServeHTTP_rules_none (S : Std) (W : World) (tg : TLSGuard) (req : Request)
    (hm : tg.matchers = none) :
    TLSGuard.ServeHTTP.rules S W tg req =
      match req.peerCertificate with
      | none =>
        ⟨tg, .httpError "TLS client certificate is required for authentication" 403, []⟩
      | some _ => ⟨tg, .next (tg.addRequestHeaders S req), []⟩ := by
  unfold TLSGuard.ServeHTTP.rules
  rw [hm]
  simp only
  cases req.peerCertificate with
  | none => rfl
  | some c =>
    simp only [TLSGuard.ServeHTTP.forward, updateConfigIfRequired_none W tg hm]
    rfl

theorem New_matchers (S : Std) (W : World) (config : Config) (tg0 : TLSGuard)
    (h : New S W config = .returned (.ok tg0)) : tg0.matchers = none ↔ config.Rules = [] := by
  unfold New at h
  by_cases hr : config.Rules.length > 0
  · have hne : config.Rules ≠ [] := by
      intro he
      rw [he] at hr
      simp at hr
    simp only [hr, if_true] at h
    cases hn : (NewRuleConfig S W config).2 with
    | error e => simp [hn] at h
    | ok rc =>
      cases hi : RuleConfig.Init S W rc with
      | indexOutOfRange i n => simp [hn, hi] at h
      | returned r =>
        cases r with
        | error e => simp [hn, hi] at h
        | ok m =>
          simp only [hn, hi] at h
          cases ht : New.templates S config.RequestHeaders with
          | error e => simp [ht] at h
          | ok ts =>
            simp only [ht, Run.returned.injEq, Except.ok.injEq] at h
            subst h
            simp [hne]
  · have he : config.Rules = [] := by
      cases hc : config.Rules with
      | nil => rfl
      | cons a b => simp [hc] at hr
    simp only [hr, if_false] at h
    cases ht : New.templates S config.RequestHeaders with
    | error e => simp [ht] at h
    | ok ts =>
      simp only [ht, Run.returned.injEq, Except.ok.injEq] at h
      subst h
      simp [he]

/-- C8: with no rule snapshot, a request whose identity is not resolved is
forwarded exactly when it presents a client certificate; without one the
response is `http.Error` with "TLS client certificate is required for
authentication" and status 403 and the next handler is not called; nothing is
evaluated or refreshed; and a plugin built by `New` has no snapshot exactly
when its configuration has no rules. -/
theorem C8_no_snapshot (S : Std) (W : World) (tg : TLSGuard) (req : Request)
    (hm : tg.matchers = none)
    (hun : ∀ cert, req.peerCertificate = some cert → (tg.findUserByCert cert).2 = false) :
    ((∃ fwd, (tg.ServeHTTP S W req).response = .next fwd) ↔ req.peerCertificate ≠ none) ∧
    (req.peerCertificate = none →
      (tg.ServeHTTP S W req).response =
        .httpError "TLS client certificate is required for authentication" 403) ∧
    (tg.ServeHTTP S W req).events = [] ∧
    (∀ (W0 : World) (config : Config) (tg0 : TLSGuard), New S W0 config = .returned (.ok tg0) →
      (tg0.matchers = none ↔ config.Rules = [])) := by
  rw [ServeHTTP_unresolved S W tg req hun, ServeHTTP_rules_none S W tg _ hm,
    annotated_peerCertificate]
  refine ⟨?_, ?_, ?_, fun W0 config tg0 h => New_matchers S W0 config tg0 h⟩
  · cases req.peerCertificate with
    | none => simp
    | some c => simp
  · intro hc
    rw [hc]
  · cases req.peerCertificate with
    | none => rfl
    | some c => rfl

/-- C8 at the plugin without rules: a request without a certificate is
rejected with the certificate message, a request with an unknown certificate
is forwarded. -/
theorem C8_no_snapshot_witness :
    (Scenario.guardN.ServeHTTP Reference.std (Reference.offline 0)
        (Scenario.plainRequest "10.1.2.3")).response =
      .httpError "TLS client certificate is required for authentication" 403 ∧
    (∃ fwd, (Scenario.guardN.ServeHTTP Reference.std (Reference.offline 0)
        (Scenario.certRequest Scenario.certUnknown "10.1.2.3")).response = .next fwd) :=
  ⟨(C8_no_snapshot Reference.std (Reference.offline 0) Scenario.guardN
      (Scenario.plainRequest "10.1.2.3") rfl (by intro c hc; cases hc)).2.1 rfl,
   (C8_no_snapshot Reference.std (Reference.offline 0) Scenario.guardN
      (Scenario.certRequest Scenario.certUnknown "10.1.2.3") rfl
      (by intro c hc; cases hc; decide)).1.2 (by decide)⟩

theorem ServeHTTP_rules_fresh (S : Std) (W : World) (tg : TLSGuard) (req : Request)
    (rc : RuleConfig) (hm : tg.matchers = some rc)
    (hfresh : rc.NextUpdate = none ∨ ∃ t, rc.NextUpdate = some t ∧ W.tCheck < t) :
    TLSGuard.ServeHTTP.rules S W tg req =
      if (rc.Match S req.Header).1 = true then
        TLSGuard.ServeHTTP.forward S W tg { req with Header := (rc.Match S req.Header).2 }
          [Event.evaluate]
      else ⟨tg, .httpError "Forbidden" 403, [Event.evaluate]⟩ := by
  unfold TLSGuard.ServeHTTP.rules
  rw [hm]
  simp only
  rcases hr : rc.Match S req.Header with ⟨b, h1⟩
  cases b
  · have hstale : (match rc.NextUpdate with
        | none => false
        | some nextUpdate => decide (nextUpdate < W.tCheck)) = false := by
      rcases hfresh with hn | ⟨t, ht, hlt⟩
      · rw [hn]
      · rw [ht]
        simp only [decide_eq_false_iff_not, not_lt]
        exact le_of_lt hlt
    simp only [hstale, Bool.false_eq_true, if_false]
    rfl
  · simp

/-- C9: with a snapshot that is Fresh (no expiry, or the clock before its
`NextUpdate`), a request whose identity is not resolved is forwarded exactly
when the snapshot matches the request as annotated with the certificate
headers; when it does not match, the response is `http.Error` with "Forbidden"
and status 403, the next handler is not called, the rules were evaluated once,
no refresh is run or started and the plugin state is unchanged. -/
theorem C9_fresh_snapshot_decides (S : Std) (W : World) (tg : TLSGuard) (req : Request)
    (rc : RuleConfig) (hm : tg.matchers = some rc)
    (hfresh : rc.NextUpdate = none ∨ ∃ t, rc.NextUpdate = some t ∧ W.tCheck < t)
    (hun : ∀ cert, req.peerCertificate = some cert → (tg.findUserByCert cert).2 = false) :
    ((∃ fwd, (tg.ServeHTTP S W req).response = .next fwd) ↔
      (rc.Match S (tg.annotated S req).Header).1 = true) ∧
    ((rc.Match S (tg.annotated S req).Header).1 = false →
      (tg.ServeHTTP S W req).response = .httpError "Forbidden" 403 ∧
      (tg.ServeHTTP S W req).events = [Event.evaluate] ∧
      (tg.ServeHTTP S W req).tg = tg) ∧
    ((rc.Match S (tg.annotated S req).Header).1 = true →
      (tg.ServeHTTP S W req).response =
        .next (tg.addRequestHeaders S
          { tg.annotated S req with Header := (rc.Match S (tg.annotated S req).Header).2 })) := by
  rw [ServeHTTP_unresolved S W tg req hun, ServeHTTP_rules_fresh S W tg _ rc hm hfresh]
  by_cases hb : (rc.Match S (tg.annotated S req).Header).1 = true
  · simp [hb, TLSGuard.ServeHTTP.forward]
  · simp [hb]

/-- C9 at scenarios A and B: the range 10.0.0.0/8 forwards 10.1.2.3 with
X-TLSGuard-Cidr 10.0.0.0/8 and answers 403 Forbidden to 192.168.1.1; the
`allOf` of the API-key header and the range answers 403 Forbidden to 8.8.8.8
with a matching key. -/
theorem C9_fresh_snapshot_decides_witness :
    (∃ fwd, (Scenario.guardA.ServeHTTP Reference.std (Reference.offline 0)
        (Scenario.plainRequest "10.1.2.3")).response = .next fwd ∧
      fwd.Header.Get "X-TLSGuard-Cidr" = "10.0.0.0/8") ∧
    (Scenario.guardA.ServeHTTP Reference.std (Reference.offline 0)
        (Scenario.plainRequest "192.168.1.1")).response = .httpError "Forbidden" 403 ∧
    (Scenario.guardB.ServeHTTP Reference.std (Reference.offline 0)
        (Scenario.plainRequest "8.8.8.8")).response = .httpError "Forbidden" 403 := by
  refine ⟨⟨_, (C9_fresh_snapshot_decides Reference.std (Reference.offline 0) Scenario.guardA
      (Scenario.plainRequest "10.1.2.3") _ rfl (Or.inl rfl)
      (by intro c hc; cases hc)).2.2 (by decide), by decide⟩, ?_, ?_⟩
  · exact ((C9_fresh_snapshot_decides Reference.std (Reference.offline 0) Scenario.guardA
      (Scenario.plainRequest "192.168.1.1") _ rfl (Or.inl rfl)
      (by intro c hc; cases hc)).2.1 (by decide)).1
  · exact ((C9_fresh_snapshot_decides Reference.std (Reference.offline 0) Scenario.guardB
      (Scenario.plainRequest "8.8.8.8") _ rfl (Or.inl rfl)
      (by intro c hc; cases hc)).2.1 (by decide)).1

/-! ## Rules and the headers they set -/

theorem sameRequestHeaders_refl (h : http.Header) : sameRequestHeaders h h :=
  fun _ _ => rfl

theorem sameRequestHeaders_symm {h h2 : http.Header} (h12 : sameRequestHeaders h h2) :
    sameRequestHeaders h2 h :=
  fun key hk => (h12 key hk).symm

theorem sameRequestHeaders_trans {h h2 h3 : http.Header} (h12 : sameRequestHeaders h h2)
    (h23 : sameRequestHeaders h2 h3) : sameRequestHeaders h h3 :=
  fun key hk => (h12 key hk).trans (h23 key hk)

theorem sameRequestHeaders_Set (h : http.Header) (name value : String)
    (hn : isMarker name = true) : sameRequestHeaders h (h.Set name value) := by
  intro key hk
  symm
  apply Header_Get_Set_other
  intro he
  have : isMarker key = true := by
    simp only [isMarker, he] at hn ⊢
    exact hn
  rw [hk] at this
  cases this

theorem RuleIPRange_Match_frame (S : Std) (cs : List IPNet) (h : http.Header) :
    sameRequestHeaders h (RuleIPRange.Match S cs h).2 := by
  rw [RuleIPRange_Match_eq]
  split
  · exact sameRequestHeaders_Set h _ _ (by decide)
  · exact sameRequestHeaders_refl h

theorem RuleHeader_Match_frame (S : Std) (P : List (String × Regexp)) (h : http.Header) :
    sameRequestHeaders h (RuleHeader.Match S P h).2 := by
  unfold RuleHeader.Match
  split
  · exact sameRequestHeaders_Set h _ _ (by decide)
  · exact sameRequestHeaders_refl h

mutual
theorem Rule_Match_frame (S : Std) : ∀ (r : Rule) (h : http.Header),
    sameRequestHeaders h (Rule.Match S r h).2
  | .allOf rs, h => by
    rw [Rule_Match_allOf]
    exact RuleAllOf_Match_frame S rs h
  | .anyOf rs, h => by
    rw [Rule_Match_anyOf]
    exact RuleAnyOf_Match_frame S rs h
  | .noneOf rs, h => by
    rw [Rule_Match_noneOf, RuleNoneOf_Match_eq_not_anyOf]
    exact RuleAnyOf_Match_frame S rs h
  | .ipRange _ _ cs, h => by
    rw [Rule_Match_ipRange]
    exact RuleIPRange_Match_frame S cs h
  | .header _ P, h => by
    rw [Rule_Match_header]
    exact RuleHeader_Match_frame S P h
theorem RuleAllOf_Match_frame (S : Std) : ∀ (rs : List Rule) (h : http.Header),
    sameRequestHeaders h (RuleAllOf.Match S rs h).2
  | [], h => by
    simp only [RuleAllOf.Match]
    exact sameRequestHeaders_refl h
  | r :: rs, h => by
    rw [RuleAllOf_Match_cons]
    split
    · exact sameRequestHeaders_trans (Rule_Match_frame S r h) (RuleAllOf_Match_frame S rs _)
    · exact Rule_Match_frame S r h
theorem RuleAnyOf_Match_frame (S : Std) : ∀ (rs : List Rule) (h : http.Header),
    sameRequestHeaders h (RuleAnyOf.Match S rs h).2
  | [], h => by
    simp only [RuleAnyOf.Match]
    exact sameRequestHeaders_refl h
  | r :: rs, h => by
    rw [RuleAnyOf_Match_cons]
    split
    · exact Rule_Match_frame S r h
    · exact sameRequestHeaders_trans (Rule_Match_frame S r h) (RuleAnyOf_Match_frame S rs _)
end

theorem clientAddress_congr {h h2 : http.Header} (h12 : sameRequestHeaders h h2) :
    clientAddress h = clientAddress h2 := by
  unfold clientAddress
  rw [h12 "X-Real-Ip" (by decide), h12 "X-Forwarded-For" (by decide)]

theorem RuleIPRange_Match_congr (S : Std) (cs : List IPNet) {h h2 : http.Header}
    (h12 : sameRequestHeaders h h2) :
    (RuleIPRange.Match S cs h).1 = (RuleIPRange.Match S cs h2).1 := by
  rw [RuleIPRange_Match_eq, RuleIPRange_Match_eq, clientAddress_congr h12]
  split <;> rfl

theorem RuleHeader_Match_loop_congr (S : Std) (P : List (String × Regexp)) {h h2 : http.Header}
    (h12 : sameRequestHeaders h h2) (hP : P.any (fun kr => isMarker kr.1) = false) :
    RuleHeader.Match.loop S h P = RuleHeader.Match.loop S h2 P := by
  induction P with
  | nil => simp [RuleHeader.Match.loop]
  | cons kr rest ih =>
    obtain ⟨key, regex⟩ := kr
    simp only [List.any_cons, Bool.or_eq_false_iff] at hP
    simp only [RuleHeader.Match.loop]
    rw [h12 key hP.1, ih hP.2]

theorem RuleHeader_Match_congr (S : Std) (P : List (String × Regexp)) {h h2 : http.Header}
    (h12 : sameRequestHeaders h h2) (hP : P.any (fun kr => isMarker kr.1) = false) :
    (RuleHeader.Match S P h).1 = (RuleHeader.Match S P h2).1 := by
  unfold RuleHeader.Match
  rw [RuleHeader_Match_loop_congr S P h12 hP]
  split <;> rfl

theorem Rule_Match_out_congr (S : Std) (r : Rule) {h h2 : http.Header}
    (h12 : sameRequestHeaders h h2) :
    sameRequestHeaders (Rule.Match S r h).2 (Rule.Match S r h2).2 :=
  sameRequestHeaders_trans (sameRequestHeaders_symm (Rule_Match_frame S r h))
    (sameRequestHeaders_trans h12 (Rule_Match_frame S r h2))

mutual
theorem Rule_Match_congr (S : Std) : ∀ (r : Rule) (h h2 : http.Header),
    Rule.readsMarker r = false → sameRequestHeaders h h2 →
    (Rule.Match S r h).1 = (Rule.Match S r h2).1
  | .allOf rs, h, h2, hr, h12 => by
    rw [Rule_Match_allOf, Rule_Match_allOf]
    exact RuleAllOf_Match_congr S rs h h2 (by simpa [Rule.readsMarker] using hr) h12
  | .anyOf rs, h, h2, hr, h12 => by
    rw [Rule_Match_anyOf, Rule_Match_anyOf]
    exact RuleAnyOf_Match_congr S rs h h2 (by simpa [Rule.readsMarker] using hr) h12
  | .noneOf rs, h, h2, hr, h12 => by
    rw [Rule_Match_noneOf, Rule_Match_noneOf, RuleNoneOf_Match_eq_not_anyOf,
      RuleNoneOf_Match_eq_not_anyOf]
    simp only
    rw [RuleAnyOf_Match_congr S rs h h2 (by simpa [Rule.readsMarker] using hr) h12]
  | .ipRange _ _ cs, h, h2, _, h12 => by
    rw [Rule_Match_ipRange, Rule_Match_ipRange]
    exact RuleIPRange_Match_congr S cs h12
  | .header _ P, h, h2, hr, h12 => by
    rw [Rule_Match_header, Rule_Match_header]
    exact RuleHeader_Match_congr S P h12 (by simpa [Rule.readsMarker] using hr)
theorem RuleAllOf_Match_congr (S : Std) : ∀ (rs : List Rule) (h h2 : http.Header),
    Rules.readsMarker rs = false → sameRequestHeaders h h2 →
    (RuleAllOf.Match S rs h).1 = (RuleAllOf.Match S rs h2).1
  | [], h, h2, _, _ => by simp [RuleAllOf.Match]
  | r :: rs, h, h2, hr, h12 => by
    simp only [Rules.readsMarker, Bool.or_eq_false_iff] at hr
    rw [RuleAllOf_Match_cons, RuleAllOf_Match_cons, Rule_Match_congr S r h h2 hr.1 h12]
    split
    · exact RuleAllOf_Match_congr S rs _ _ hr.2 (Rule_Match_out_congr S r h12)
    · rfl
theorem RuleAnyOf_Match_congr (S : Std) : ∀ (rs : List Rule) (h h2 : http.Header),
    Rules.readsMarker rs = false → sameRequestHeaders h h2 →
    (RuleAnyOf.Match S rs h).1 = (RuleAnyOf.Match S rs h2).1
  | [], h, h2, _, _ => by simp [RuleAnyOf.Match]
  | r :: rs, h, h2, hr, h12 => by
    simp only [Rules.readsMarker, Bool.or_eq_false_iff] at hr
    rw [RuleAnyOf_Match_cons, RuleAnyOf_Match_cons, Rule_Match_congr S r h h2 hr.1 h12]
    split
    · rfl
    · exact RuleAnyOf_Match_congr S rs _ _ hr.2 (Rule_Match_out_congr S r h12)
end

/-- A snapshot that reads no annotation header gives the same result on the
request as its own evaluation left it. -/
theorem RuleConfig_Match_again (S : Std) (rc : RuleConfig) (h : http.Header)
    (hclean : Rules.readsMarker rc.Rules = false) :
    (rc.Match S (rc.Match S h).2).1 = (rc.Match S h).1 := by
  simp only [RuleConfig.Match, RuleConfig_Match_loop_eq_anyOf]
  exact RuleAnyOf_Match_congr S rc.Rules _ _ hclean
    (sameRequestHeaders_symm (RuleAnyOf_Match_frame S rc.Rules h))

/-- A snapshot that reads no annotation header gives the same result on the
request as the evaluation of another snapshot left it. -/
theorem RuleConfig_Match_after (S : Std) (rc m : RuleConfig) (h : http.Header)
    (hclean : Rules.readsMarker m.Rules = false) :
    (m.Match S (rc.Match S h).2).1 = (m.Match S h).1 := by
  simp only [RuleConfig.Match, RuleConfig_Match_loop_eq_anyOf]
  exact RuleAnyOf_Match_congr S m.Rules _ _ hclean
    (sameRequestHeaders_symm (RuleAnyOf_Match_frame S rc.Rules h))

/-- An `updateConfig` that returns an error leaves the plugin as it was. -/
theorem updateConfig_failed_keeps (S : Std) (W : World) (tg : TLSGuard)
    (hfail : (tg.updateConfig S W).err ≠ none) : (tg.updateConfig S W).tg = tg := by
  unfold TLSGuard.updateConfig at hfail ⊢
  cases hm : tg.matchers with
  | none => rfl
  | some rc =>
    simp only [hm] at hfail ⊢
    cases hn : rc.NextUpdate with
    | none => rfl
    | some t =>
      simp only [hn] at hfail ⊢
      by_cases ht : t > W.tUpdate
      · simp only [ht, if_true]
      · simp only [ht, if_false] at hfail ⊢
        rcases hb : NewRuleConfig S W tg.config with ⟨evs, res⟩
        cases res with
        | error e => rfl
        | ok nm =>
          simp only [hb] at hfail ⊢
          cases hi : RuleConfig.Init S W nm with
          | indexOutOfRange i n => rfl
          | returned r =>
            cases r with
            | error e => rfl
            | ok m => simp [hi] at hfail

/-- An `updateConfig` that returns an error has returned: it did not stop with
a run-time error. -/
theorem updateConfig_failed_returned (S : Std) (W : World) (tg : TLSGuard)
    (hfail : (tg.updateConfig S W).err ≠ none) : (tg.updateConfig S W).stopped = none := by
  unfold TLSGuard.updateConfig at hfail ⊢
  cases hm : tg.matchers with
  | none => rfl
  | some rc =>
    simp only [hm] at hfail ⊢
    cases hn : rc.NextUpdate with
    | none => rfl
    | some t =>
      simp only [hn] at hfail ⊢
      by_cases ht : t > W.tUpdate
      · simp only [ht, if_true]
      · simp only [ht, if_false] at hfail ⊢
        rcases hb : NewRuleConfig S W tg.config with ⟨evs, res⟩
        cases res with
        | error e => rfl
        | ok nm =>
          simp only [hb] at hfail ⊢
          cases hi : RuleConfig.Init S W nm with
          | indexOutOfRange i n => simp [hi] at hfail
          | returned r =>
            cases r with
            | error e => rfl
            | ok m => rfl

/-- An `updateConfig` that stops with a run-time error leaves the plugin as it
was and returns no error. -/
theorem updateConfig_stopped_keeps (S : Std) (W : World) (tg : TLSGuard)
    (hstop : (tg.updateConfig S W).stopped ≠ none) :
    (tg.updateConfig S W).tg = tg ∧ (tg.updateConfig S W).err = none := by
  unfold TLSGuard.updateConfig at hstop ⊢
  cases hm : tg.matchers with
  | none => exact ⟨rfl, rfl⟩
  | some rc =>
    simp only [hm] at hstop ⊢
    cases hn : rc.NextUpdate with
    | none => exact ⟨rfl, rfl⟩
    | some t =>
      simp only [hn] at hstop ⊢
      by_cases ht : t > W.tUpdate
      · simp only [ht, if_true, and_self]
      · simp only [ht, if_false] at hstop ⊢
        rcases hb : NewRuleConfig S W tg.config with ⟨evs, res⟩
        cases res with
        | error e => simp [hb] at hstop
        | ok nm =>
          simp only [hb] at hstop ⊢
          cases hi : RuleConfig.Init S W nm with
          | indexOutOfRange i n => exact ⟨rfl, rfl⟩
          | returned r =>
            cases r with
            | error e => simp [hi] at hstop
            | ok m => simp [hi] at hstop

/-- C10, as the code has it: when the snapshot has no `header` rule keyed on
X-TLSGuard-Cidr or X-TLSGuard-Header (in canonical form), a request whose
identity is not resolved, which the snapshot denies after its `NextUpdate` has
passed, and for which the refresh `updateConfig` returns an error, is answered
`http.Error` "Forbidden" 403 and is not forwarded; the refresh was run once,
between two evaluations of the rules, and the plugin keeps its snapshot. -/
theorem C10_failed_refresh_keeps_deny (S : Std) (W : World) (tg : TLSGuard) (req : Request)
    (rc : RuleConfig) (hm : tg.matchers = some rc)
    (hclean : Rules.readsMarker rc.Rules = false)
    (hun : ∀ cert, req.peerCertificate = some cert → (tg.findUserByCert cert).2 = false)
    (hdeny : (rc.Match S (tg.annotated S req).Header).1 = false)
    (hstale : ∃ t, rc.NextUpdate = some t ∧ t < W.tCheck)
    (hfail : (tg.updateConfig S W).err ≠ none) :
    (tg.ServeHTTP S W req).response = .httpError "Forbidden" 403 ∧
    (∀ fwd, (tg.ServeHTTP S W req).response ≠ .next fwd) ∧
    (tg.ServeHTTP S W req).events =
      [Event.evaluate, Event.update] ++ (tg.updateConfig S W).events ++ [Event.evaluate] ∧
    (tg.ServeHTTP S W req).tg = tg := by
  have hkeep := updateConfig_failed_keeps S W tg hfail
  have hret := updateConfig_failed_returned S W tg hfail
  have hagain := RuleConfig_Match_again S rc (tg.annotated S req).Header hclean
  rw [hdeny] at hagain
  obtain ⟨t, ht, hlt⟩ := hstale
  have hmain : (tg.ServeHTTP S W req).response = .httpError "Forbidden" 403 ∧
      (tg.ServeHTTP S W req).events =
        [Event.evaluate, Event.update] ++ (tg.updateConfig S W).events ++ [Event.evaluate] ∧
      (tg.ServeHTTP S W req).tg = tg := by
    rw [ServeHTTP_unresolved S W tg req hun]
    unfold TLSGuard.ServeHTTP.rules
    rw [hm]
    simp only
    rcases hr : rc.Match S (tg.annotated S req).Header with ⟨b, h1⟩
    rw [hr] at hdeny hagain
    simp only at hdeny hagain
    subst hdeny
    simp only [ht, hlt, decide_True, if_true]
    rw [hret, hkeep, hm]
    simp only
    rcases hr2 : rc.Match S h1 with ⟨b2, h2⟩
    rw [hr2] at hagain
    simp only at hagain
    subst hagain
    exact ⟨rfl, rfl, rfl⟩
  refine ⟨hmain.1, ?_, hmain.2.1, hmain.2.2⟩
  intro fwd hf
  rw [hmain.1] at hf
  cases hf

/-- C10 at the snapshot of scenario B with a refresh interval of one hour: two
hours after it was built, with the external source unreachable, the request
from 8.8.8.8 is answered 403 Forbidden after one failed fetch. -/
theorem C10_failed_refresh_keeps_deny_witness :
    (Scenario.guardD.ServeHTTP Reference.std (Reference.offline (2 * Scenario.hour))
        (Scenario.plainRequest "8.8.8.8")).response = .httpError "Forbidden" 403 ∧
    (Scenario.guardD.ServeHTTP Reference.std (Reference.offline (2 * Scenario.hour))
        (Scenario.plainRequest "8.8.8.8")).events =
      [Event.evaluate, Event.update, Event.fetch, Event.evaluate] :=
  have h := C10_failed_refresh_keeps_deny Reference.std (Reference.offline (2 * Scenario.hour))
    Scenario.guardD (Scenario.plainRequest "8.8.8.8") _ rfl (by decide)
    (by intro c hc; cases hc) (by decide) ⟨Scenario.hour, rfl, by decide⟩ (by decide)
  ⟨h.1, h.2.2.1.trans (by decide)⟩

/-- C10 fails as stated: the plugin built from `configX` holds a snapshot that
expires after one hour; two hours later the snapshot denies the request from
8.8.8.8 (a Fresh snapshot answers it 403 Forbidden), the refresh fails because
the external source is unreachable and the old snapshot stays, and yet the
request is forwarded: the first evaluation left X-TLSGuard-Header on the
request and the second evaluation reads it. -/
theorem C10_counterexample :
    New Reference.std (Reference.world 0 (.ok [])) Scenario.configX =
      .returned (.ok Scenario.guardX) ∧
    Scenario.guardX.matchers.map (fun rc => rc.NextUpdate) = some (some Scenario.hour) ∧
    Scenario.hour < (Reference.offline (2 * Scenario.hour)).tCheck ∧
    (Scenario.plainRequest "8.8.8.8").peerCertificate = none ∧
    Scenario.guardX.matchers.map (fun rc => (rc.Match Reference.std
        (Scenario.guardX.annotated Reference.std (Scenario.plainRequest "8.8.8.8")).Header).1) =
      some false ∧
    (Scenario.guardX.ServeHTTP Reference.std (Reference.offline (Scenario.hour - 1))
        (Scenario.plainRequest "8.8.8.8")).response = .httpError "Forbidden" 403 ∧
    (Scenario.guardX.updateConfig Reference.std (Reference.offline (2 * Scenario.hour))).err =
      some "connection refused" ∧
    (Scenario.guardX.updateConfig Reference.std (Reference.offline (2 * Scenario.hour))).tg.matchers.map
        (fun rc => rc.NextUpdate) = some (some Scenario.hour) ∧
    (Scenario.guardX.ServeHTTP Reference.std (Reference.offline (2 * Scenario.hour))
        (Scenario.plainRequest "8.8.8.8")).response =
      .next ⟨none, [("X-Tlsguard-Header", ["true"]), ("X-Tlsguard-Cert-Sn", ["NoCert"]),
        ("X-Real-Ip", ["8.8.8.8"]), ("X-Api-Key", ["secret-42"])]⟩ ∧
    (Scenario.guardX.ServeHTTP Reference.std (Reference.offline (2 * Scenario.hour))
        (Scenario.plainRequest "8.8.8.8")).response ≠ .httpError "Forbidden" 403 ∧
    (Scenario.guardX.ServeHTTP Reference.std (Reference.offline (2 * Scenario.hour))
        (Scenario.plainRequest "8.8.8.8")).events =
      [Event.evaluate, Event.update, Event.fetch, Event.evaluate, Event.spawn] :=
  ⟨rfl, by decide, by decide, by decide, by decide, by decide, by decide, by decide, by decide,
    by decide, by decide⟩

/-! ## The composite and leaf rules at concrete requests -/

/-- C1 at `allOf [key, range, key]` on a request from 8.8.8.8 with a matching
key: the first child matches and sets X-TLSGuard-Header, the second fails, and
the result is false with the headers as the second child left them. -/
theorem C1_allOf_ordered_short_circuit_witness :
    Rule.Match Reference.std
        (.allOf [Scenario.keyRule, Scenario.rangeRule, Scenario.keyRule])
        (Scenario.plainRequest "8.8.8.8").Header =
      (false, [("X-Tlsguard-Header", ["true"]), ("X-Real-Ip", ["8.8.8.8"]),
        ("X-Api-Key", ["secret-42"])]) :=
  ((C1_allOf_ordered_short_circuit Reference.std
      [Scenario.keyRule, Scenario.rangeRule, Scenario.keyRule]
      (Scenario.plainRequest "8.8.8.8").Header).2.2.1
    [Scenario.keyRule] Scenario.rangeRule [Scenario.keyRule] rfl (by decide) (by decide)).trans
    (by decide)

/-- C2 at `anyOf [range, key, range]` on a request from 8.8.8.8 with a
matching key: the first child fails, the second matches, and the result is
true with the headers as the second child left them. -/
theorem C2_anyOf_ordered_short_circuit_witness :
    Rule.Match Reference.std
        (.anyOf [Scenario.rangeRule, Scenario.keyRule, Scenario.rangeRule])
        (Scenario.plainRequest "8.8.8.8").Header =
      (true, [("X-Tlsguard-Header", ["true"]), ("X-Real-Ip", ["8.8.8.8"]),
        ("X-Api-Key", ["secret-42"])]) :=
  ((C2_anyOf_ordered_short_circuit Reference.std
      [Scenario.rangeRule, Scenario.keyRule, Scenario.rangeRule]
      (Scenario.plainRequest "8.8.8.8").Header).2.2.1
    [Scenario.rangeRule] Scenario.keyRule [Scenario.rangeRule] rfl (by decide) (by decide)).trans
    (by decide)

/-- C3 at `noneOf [range, key]` on a request from 8.8.8.8 with a matching
key: false, with the marker the key rule set. -/
theorem C3_noneOf_is_not_anyOf_witness :
    Rule.Match Reference.std (.noneOf [Scenario.rangeRule, Scenario.keyRule])
        (Scenario.plainRequest "8.8.8.8").Header =
      (false, [("X-Tlsguard-Header", ["true"]), ("X-Real-Ip", ["8.8.8.8"]),
        ("X-Api-Key", ["secret-42"])]) :=
  ((C3_noneOf_is_not_anyOf Reference.std [Scenario.rangeRule, Scenario.keyRule]
      (Scenario.plainRequest "8.8.8.8").Header).1).trans (by decide)

/-- C5 at the key rule: the request with X-Api-Key matches, and without it
does not. -/
theorem C5_header_match_witness :
    (Rule.Match Reference.std Scenario.keyRule (Scenario.plainRequest "8.8.8.8").Header).1 =
      true ∧
    (Rule.Match Reference.std Scenario.keyRule
      ((Scenario.plainRequest "8.8.8.8").Header.Del "X-Api-Key")).1 = false :=
  ⟨by decide,
   (C5_header_match Reference.std [("X-Api-Key", "^secret-")] [("X-Api-Key", ⟨"^secret-"⟩)]
      (Scenario.plainRequest "8.8.8.8").Header).2.2.2 ("X-Api-Key", ⟨"^secret-"⟩) (by simp)⟩

/-- C6 at the directory of scenario C: the Common Name and the DNS name are no
keys, the email address is, and the certificate resolves to alice. -/
theorem C6_findUserByCert_first_hit_witness :
    Scenario.guardC.findUserByCert Scenario.certAlice = ("alice", true) :=
  ((C6_findUserByCert_first_hit Scenario.guardC Scenario.certAlice).2.1
    ["client-7", "client-7.internal"] "alice@example.com" [] "alice" rfl (by decide) (by decide)
    (by decide)).trans (by decide)

/-! ## The refresh -/

theorem tmplData_events (W : World) (config : Config) :
    ∀ e ∈ (NewRuleConfig.tmplData W config).1, e = Event.fetch := by
  unfold NewRuleConfig.tmplData
  by_cases hu : config.ExternalData.URL ≠ ""
  · rw [if_pos hu]
    cases W.GetExternalData config.ExternalData <;> simp
  · rw [if_neg hu]
    simp

theorem NewRuleConfig_events (S : Std) (W : World) (config : Config) :
    ∀ e ∈ (NewRuleConfig S W config).1, e = Event.fetch ∨ e = Event.build := by
  have ht := tmplData_events W config
  unfold NewRuleConfig
  rcases hd : NewRuleConfig.tmplData W config with ⟨evs, res⟩
  rw [hd] at ht
  simp only at ht
  have hevs : ∀ e ∈ evs ++ [Event.build], e = Event.fetch ∨ e = Event.build := by
    intro e he
    rcases List.mem_append.1 he with h | h
    · exact Or.inl (ht e h)
    · exact Or.inr (by simpa using h)
  cases res with
  | error err => exact fun e he => Or.inl (ht e he)
  | ok td =>
    simp only
    cases mapRules W td config.Rules with
    | error err => exact hevs
    | ok rules =>
      simp only
      by_cases hr : config.RefreshInterval ≠ ""
      · rw [if_pos hr]
        cases S.ParseDuration config.RefreshInterval <;> exact hevs
      · rw [if_neg hr]
        exact hevs

/-- What `updateConfig` does once its re-check has let it through: it builds
a snapshot, initialises it and installs it, or stops at the first error. -/
theorem updateConfig_rebuild (S : Std) (W : World) (tg : TLSGuard) (rc : RuleConfig) (t : Int)
    (hm : tg.matchers = some rc) (hn : rc.NextUpdate = some t) (ht : ¬ t > W.tUpdate) :
    tg.updateConfig S W =
      match (NewRuleConfig S W tg.config).2 with
      | .error err => ⟨tg, some err, (NewRuleConfig S W tg.config).1, none⟩
      | .ok newMatchers =>
        match RuleConfig.Init S W newMatchers with
        | .indexOutOfRange index length =>
          ⟨tg, none, (NewRuleConfig S W tg.config).1, some (index, length)⟩
        | .returned (.error err) => ⟨tg, some err, (NewRuleConfig S W tg.config).1, none⟩
        | .returned (.ok m) =>
          ⟨{ tg with matchers := some m }, none, (NewRuleConfig S W tg.config).1, none⟩ := by
  unfold TLSGuard.updateConfig
  rw [hm]
  simp only
  rw [hn]
  simp only
  rw [if_neg ht]
  rcases NewRuleConfig S W tg.config with ⟨evs, res⟩
  cases res <;> rfl

/-- What `updateConfig` does when its re-check stops it. -/
theorem updateConfig_skip (S : Std) (W : World) (tg : TLSGuard)
    (h : tg.matchers = none ∨ ∃ rc, tg.matchers = some rc ∧
      (rc.NextUpdate = none ∨ ∃ t, rc.NextUpdate = some t ∧ W.tUpdate < t)) :
    tg.updateConfig S W = ⟨tg, none, [], none⟩ := by
  unfold TLSGuard.updateConfig
  rcases h with hm | ⟨rc, hm, hn | ⟨t, hn, hlt⟩⟩
  · rw [hm]
  · rw [hm]
    simp only
    rw [hn]
  · rw [hm]
    simp only
    rw [hn]
    simp only
    rw [if_pos hlt]

theorem updateConfig_events (S : Std) (W : World) (tg : TLSGuard) :
    ∀ e ∈ (tg.updateConfig S W).events, e = Event.fetch ∨ e = Event.build := by
  cases hm : tg.matchers with
  | none => simp [updateConfig_skip S W tg (Or.inl hm)]
  | some rc =>
    cases hn : rc.NextUpdate with
    | none => simp [updateConfig_skip S W tg (Or.inr ⟨rc, hm, Or.inl hn⟩)]
    | some t =>
      by_cases ht : t > W.tUpdate
      · simp [updateConfig_skip S W tg (Or.inr ⟨rc, hm, Or.inr ⟨t, hn, ht⟩⟩)]
      · rw [updateConfig_rebuild S W tg rc t hm hn ht]
        have hev := NewRuleConfig_events S W tg.config
        cases (NewRuleConfig S W tg.config).2 with
        | error err => exact hev
        | ok nm =>
          simp only
          rcases RuleConfig.Init S W nm with (_ | _) | _ <;> exact hev

theorem count_update_zero (evs : List Event)
    (h : ∀ e ∈ evs, e = Event.fetch ∨ e = Event.build) : evs.count Event.update = 0 := by
  rw [List.count_eq_zero]
  intro hmem
  rcases h _ hmem with h | h <;> cases h

theorem updateConfigIfRequired_count (W : World) (tg : TLSGuard) :
    (tg.updateConfigIfRequired W).count Event.update = 0 := by
  unfold TLSGuard.updateConfigIfRequired
  cases tg.matchers with
  | none => rfl
  | some rc =>
    simp only
    cases rc.NextUpdate with
    | none => rfl
    | some t =>
      simp only
      split <;> decide

theorem filter_isRebuild_self (evs : List Event)
    (h : ∀ e ∈ evs, e = Event.fetch ∨ e = Event.build) : evs.filter Event.isRebuild = evs := by
  rw [List.filter_eq_self]
  intro e he
  rcases h e he with h | h <;> subst h <;> rfl

theorem updateConfigIfRequired_filter (W : World) (tg : TLSGuard) :
    (tg.updateConfigIfRequired W).filter Event.isRebuild = [] := by
  unfold TLSGuard.updateConfigIfRequired
  cases tg.matchers with
  | none => rfl
  | some rc =>
    simp only
    cases rc.NextUpdate with
    | none => rfl
    | some t =>
      simp only
      split <;> rfl

/-- Once the re-check has let `updateConfig` through, what it fetches and
builds is what one `NewRuleConfig` fetches and builds. -/
theorem updateConfig_rebuild_events (S : Std) (W : World) (tg : TLSGuard) (rc : RuleConfig)
    (t : Int) (hm : tg.matchers = some rc) (hn : rc.NextUpdate = some t)
    (ht : ¬ t > W.tUpdate) :
    (tg.updateConfig S W).events = (NewRuleConfig S W tg.config).1 := by
  rw [updateConfig_rebuild S W tg rc t hm hn ht]
  cases (NewRuleConfig S W tg.config).2 with
  | error err => rfl
  | ok nm =>
    simp only
    rcases RuleConfig.Init S W nm with (_ | _) | _ <;> rfl

/-- C11, as the code has it: a request whose identity is not resolved and which
the snapshot denies after its `NextUpdate` has passed makes `ServeHTTP` call
`updateConfig` exactly once, right after the first evaluation of the rules;
when the clock has not run backwards between the staleness check and the
re-check, what the call fetches and builds is what one `NewRuleConfig` fetches
and builds; and when moreover `NewRuleConfig` and `Init` return a snapshot
that has no `header` rule keyed on X-TLSGuard-Cidr or X-TLSGuard-Header (in
canonical form), that snapshot is installed and its evaluation on the request
decides: the request is forwarded when it matches and answered `http.Error`
"Forbidden" 403, and not forwarded, when it does not. -/
theorem C11_stale_deny_refreshes_once (S : Std) (W : World) (tg : TLSGuard) (req : Request)
    (rc : RuleConfig) (t : Int) (hm : tg.matchers = some rc)
    (hun : ∀ cert, req.peerCertificate = some cert → (tg.findUserByCert cert).2 = false)
    (hdeny : (rc.Match S (tg.annotated S req).Header).1 = false)
    (hnext : rc.NextUpdate = some t) (hstale : t < W.tCheck) :
    (tg.ServeHTTP S W req).events.count Event.update = 1 ∧
    (tg.ServeHTTP S W req).events.take 2 = [Event.evaluate, Event.update] ∧
    (W.tCheck ≤ W.tUpdate →
      (tg.ServeHTTP S W req).events.filter Event.isRebuild = (NewRuleConfig S W tg.config).1) ∧
    (∀ nm m : RuleConfig, W.tCheck ≤ W.tUpdate →
      (NewRuleConfig S W tg.config).2 = .ok nm →
      RuleConfig.Init S W nm = .returned (.ok m) →
      Rules.readsMarker m.Rules = false →
      (tg.ServeHTTP S W req).tg.matchers = some m ∧
      ((m.Match S (tg.annotated S req).Header).1 = true →
        (tg.ServeHTTP S W req).response =
          .next (TLSGuard.addRequestHeaders S { tg with matchers := some m }
            { tg.annotated S req with
              Header := (m.Match S (rc.Match S (tg.annotated S req).Header).2).2 })) ∧
      ((m.Match S (tg.annotated S req).Header).1 = false →
        (tg.ServeHTTP S W req).response = .httpError "Forbidden" 403 ∧
        ∀ fwd, (tg.ServeHTTP S W req).response ≠ .next fwd)) := by
  have hcount := count_update_zero _ (updateConfig_events S W tg)
  have hfilter := filter_isRebuild_self _ (updateConfig_events S W tg)
  have hnot : W.tCheck ≤ W.tUpdate → ¬ t > W.tUpdate := fun hclock =>
    not_lt.2 (le_of_lt (lt_of_lt_of_le hstale hclock))
  have hafter := fun m hclean => RuleConfig_Match_after S rc m (tg.annotated S req).Header hclean
  rw [ServeHTTP_unresolved S W tg req hun]
  unfold TLSGuard.ServeHTTP.rules
  rw [hm]
  simp only
  rcases hr : rc.Match S (tg.annotated S req).Header with ⟨b, h1⟩
  rw [hr] at hdeny hafter
  simp only at hdeny hafter
  subst hdeny
  simp only [hnext, hstale, decide_True, if_true]
  refine ⟨?_, ?_, ?_, ?_⟩
  · rcases hs : (tg.updateConfig S W).stopped with _ | ⟨i, n⟩
    · simp only
      rcases hmm : (tg.updateConfig S W).tg.matchers with _ | cur
      · simp [List.count_append, hcount, List.count_cons]
      · simp only
        rcases hr2 : cur.Match S h1 with ⟨b2, h2⟩
        cases b2
        · simp [List.count_append, hcount, List.count_cons]
        · simp [TLSGuard.ServeHTTP.forward, List.count_append, hcount, List.count_cons,
            updateConfigIfRequired_count]
    · simp [List.count_append, hcount, List.count_cons]
  · rcases hs : (tg.updateConfig S W).stopped with _ | ⟨i, n⟩
    · simp only
      rcases hmm : (tg.updateConfig S W).tg.matchers with _ | cur
      · rfl
      · simp only
        rcases hr2 : cur.Match S h1 with ⟨b2, h2⟩
        cases b2 <;> rfl
    · rfl
  · intro hclock
    rw [← updateConfig_rebuild_events S W tg rc t hm hnext (hnot hclock)]
    rcases hs : (tg.updateConfig S W).stopped with _ | ⟨i, n⟩
    · simp only
      rcases hmm : (tg.updateConfig S W).tg.matchers with _ | cur
      · simp [List.filter_cons, Event.isRebuild, hfilter]
      · simp only
        rcases hr2 : cur.Match S h1 with ⟨b2, h2⟩
        cases b2
        · simp [List.filter_cons, List.filter_append, Event.isRebuild, hfilter]
        · simp [TLSGuard.ServeHTTP.forward, List.filter_cons, List.filter_append,
            Event.isRebuild, hfilter, updateConfigIfRequired_filter]
    · simp [List.filter_cons, Event.isRebuild, hfilter]
  · intro nm m hclock hbuild hinit hclean
    have hu : tg.updateConfig S W =
        ⟨{ tg with matchers := some m }, none, (NewRuleConfig S W tg.config).1, none⟩ := by
      rw [updateConfig_rebuild S W tg rc t hm hnext (hnot hclock), hbuild]
      simp only
      rw [hinit]
    have hsame := hafter m hclean
    rw [hu]
    simp only
    rcases hr2 : m.Match S h1 with ⟨b2, h2⟩
    rw [hr2] at hsame
    simp only at hsame
    rw [← hsame]
    cases b2
    · refine ⟨rfl, ?_, ?_⟩
      · intro h
        cases h
      · intro _
        refine ⟨rfl, ?_⟩
        intro fwd hf
        cases hf
    · refine ⟨rfl, ?_, ?_⟩
      · intro _
        rfl
      · intro h
        cases h

/-- The plugins of the refresh scenarios are what `New` builds. -/
theorem Scenario_refresh_guards_built :
    New Reference.std (Reference.dataWorld 0 (.ok [("ranges", .str "10.0.0.0/8")]))
      Scenario.configE = .returned (.ok Scenario.guardE) ∧
    New Reference.std (Reference.world 0 (.ok [])) Scenario.configF =
      .returned (.ok Scenario.guardF) ∧
    New Reference.std (Reference.world 0 (.ok [])) Scenario.configD =
      .returned (.ok Scenario.guardD) ∧
    New Reference.std (Scenario.routedWorld 0 Scenario.routesWithDefault) Scenario.configG =
      .returned (.ok Scenario.guardG) :=
  ⟨rfl, rfl, rfl, rfl⟩

/-- C11 at scenario D: the snapshot built at instant 0 over 10.0.0.0/8 denies
192.168.1.1 two hours later; the one refresh fetches and builds once, finds
192.168.0.0/16 upstream, and the request is forwarded with X-TLSGuard-Cidr
192.168.0.0/16. -/
theorem C11_stale_deny_refreshes_once_witness :
    (Scenario.guardE.ServeHTTP Reference.std (Scenario.changedWorld (2 * Scenario.hour))
        (Scenario.plainRequest "192.168.1.1")).response =
      .next ⟨none, [("X-Tlsguard-Cidr", ["192.168.0.0/16"]), ("X-Tlsguard-Cert-Sn", ["NoCert"]),
        ("X-Real-Ip", ["192.168.1.1"]), ("X-Api-Key", ["secret-42"])]⟩ ∧
    (Scenario.guardE.ServeHTTP Reference.std (Scenario.changedWorld (2 * Scenario.hour))
        (Scenario.plainRequest "192.168.1.1")).events.count Event.update = 1 ∧
    (Scenario.guardE.ServeHTTP Reference.std (Scenario.changedWorld (2 * Scenario.hour))
        (Scenario.plainRequest "192.168.1.1")).events.filter Event.isRebuild =
      [Event.fetch, Event.build] :=
  have h := C11_stale_deny_refreshes_once Reference.std
    (Scenario.changedWorld (2 * Scenario.hour)) Scenario.guardE
    (Scenario.plainRequest "192.168.1.1") _ Scenario.hour
    rfl (by intro c hc; cases hc) (by decide) rfl (by decide)
  ⟨((h.2.2.2
      ⟨2 * Scenario.hour, some (3 * Scenario.hour), [.ipRange ["192.168.0.0/16"] false []]⟩
      ⟨2 * Scenario.hour, some (3 * Scenario.hour),
        [.ipRange ["192.168.0.0/16"] false [Scenario.net192]]⟩
      (by decide) rfl rfl (by decide)).2.1 (by decide)).trans (by decide),
    h.1, (h.2.2.1 (by decide)).trans (by decide)⟩

/-- C11 fails as stated: the plugin built from `configX` holds a snapshot that
expires after one hour; two hours later the snapshot denies the request from
8.8.8.8; the refresh succeeds (the external source answers, the new snapshot
expires at three hours); the newly installed snapshot does not match the
request (evaluated on it, it gives false, and the same request a nanosecond
later is answered 403 Forbidden); and yet the request is forwarded: the
evaluation by the old snapshot left X-TLSGuard-Header on the request and the
evaluation by the new snapshot reads it. -/
theorem C11_counterexample :
    New Reference.std (Reference.world 0 (.ok [])) Scenario.configX =
      .returned (.ok Scenario.guardX) ∧
    Scenario.guardX.matchers.map (fun rc => rc.NextUpdate) = some (some Scenario.hour) ∧
    Scenario.hour < (Reference.world (2 * Scenario.hour) (.ok [])).tCheck ∧
    (Scenario.plainRequest "8.8.8.8").peerCertificate = none ∧
    Scenario.guardX.matchers.map (fun rc => (rc.Match Reference.std
        (Scenario.guardX.annotated Reference.std (Scenario.plainRequest "8.8.8.8")).Header).1) =
      some false ∧
    (Scenario.guardX.updateConfig Reference.std
        (Reference.world (2 * Scenario.hour) (.ok []))).err = none ∧
    (Scenario.guardX.updateConfig Reference.std
        (Reference.world (2 * Scenario.hour) (.ok []))).stopped = none ∧
    (Scenario.guardX.updateConfig Reference.std
        (Reference.world (2 * Scenario.hour) (.ok []))).events = [Event.fetch, Event.build] ∧
    (Scenario.guardX.updateConfig Reference.std
        (Reference.world (2 * Scenario.hour) (.ok []))).tg.matchers.map
          (fun m => (m.CreationTime, m.NextUpdate)) =
      some (2 * Scenario.hour, some (3 * Scenario.hour)) ∧
    (Scenario.guardX.updateConfig Reference.std
        (Reference.world (2 * Scenario.hour) (.ok []))).tg.matchers.map
          (fun m => (m.Match Reference.std
            (Scenario.guardX.annotated Reference.std
              (Scenario.plainRequest "8.8.8.8")).Header).1) = some false ∧
    ((Scenario.guardX.ServeHTTP Reference.std (Reference.world (2 * Scenario.hour) (.ok []))
        (Scenario.plainRequest "8.8.8.8")).tg.ServeHTTP Reference.std
          (Reference.world (2 * Scenario.hour + 1) (.ok []))
          (Scenario.plainRequest "8.8.8.8")).response = .httpError "Forbidden" 403 ∧
    (Scenario.guardX.ServeHTTP Reference.std (Reference.world (2 * Scenario.hour) (.ok []))
        (Scenario.plainRequest "8.8.8.8")).response =
      .next ⟨none, [("X-Tlsguard-Header", ["true"]), ("X-Tlsguard-Cert-Sn", ["NoCert"]),
        ("X-Real-Ip", ["8.8.8.8"]), ("X-Api-Key", ["secret-42"])]⟩ ∧
    (Scenario.guardX.ServeHTTP Reference.std (Reference.world (2 * Scenario.hour) (.ok []))
        (Scenario.plainRequest "8.8.8.8")).events =
      [Event.evaluate, Event.update, Event.fetch, Event.build, Event.evaluate] :=
  ⟨rfl, by decide, by decide, by decide, by decide, by decide, by decide, by decide, by decide,
    by decide, by decide, by decide, by decide⟩

theorem Rules_Init_each (S : Std) (W : World) (rules rs : List Rule)
    (h : Rules.Init S W rules = .returned (.ok rs)) :
    ∀ rule ∈ rules, ∃ r, Rule.Init S W rule = .returned (.ok r) := by
  induction rules generalizing rs with
  | nil => simp
  | cons a rest ih =>
    rw [Rules.Init] at h
    rcases ha : Rule.Init S W a with (e | r) | ⟨i, n⟩
    · simp [ha] at h
    · simp only [ha] at h
      rcases hrest : Rules.Init S W rest with (e | rs2) | ⟨i, n⟩
      · simp [hrest] at h
      · intro rule hmem
        rcases List.mem_cons.1 hmem with rfl | hmem
        · exact ⟨r, ha⟩
        · exact ih rs2 hrest rule hmem
      · simp [hrest] at h
    · simp [ha] at h

theorem RuleConfig_Init_each (S : Std) (W : World) (nm m : RuleConfig)
    (h : RuleConfig.Init S W nm = .returned (.ok m)) :
    ∀ rule ∈ nm.Rules, ∃ r, Rule.Init S W rule = .returned (.ok r) := by
  unfold RuleConfig.Init at h
  rcases hr : Rules.Init S W nm.Rules with (e | rs) | ⟨i, n⟩
  · simp [hr] at h
  · exact Rules_Init_each S W nm.Rules rs hr
  · simp [hr] at h

/-- An installed snapshot differs from the old one only after a build and an
`Init` that both returned without error. -/
theorem updateConfig_installed (S : Std) (W : World) (tg : TLSGuard) (m : RuleConfig)
    (hnew : (tg.updateConfig S W).tg.matchers = some m) (hold : tg.matchers ≠ some m) :
    ∃ nm, (NewRuleConfig S W tg.config).2 = .ok nm ∧
      RuleConfig.Init S W nm = .returned (.ok m) := by
  cases hm : tg.matchers with
  | none =>
    rw [updateConfig_skip S W tg (Or.inl hm)] at hnew
    exact absurd hnew hold
  | some rc =>
    cases hn : rc.NextUpdate with
    | none =>
      rw [updateConfig_skip S W tg (Or.inr ⟨rc, hm, Or.inl hn⟩)] at hnew
      exact absurd hnew hold
    | some t =>
      by_cases ht : t > W.tUpdate
      · rw [updateConfig_skip S W tg (Or.inr ⟨rc, hm, Or.inr ⟨t, hn, ht⟩⟩)] at hnew
        exact absurd hnew hold
      · rw [updateConfig_rebuild S W tg rc t hm hn ht] at hnew
        cases hb : (NewRuleConfig S W tg.config).2 with
        | error err =>
          rw [hb] at hnew
          exact absurd hnew hold
        | ok nm =>
          rw [hb] at hnew
          simp only at hnew
          rcases hi : RuleConfig.Init S W nm with (err | m2) | ⟨i, n⟩
          · rw [hi] at hnew
            exact absurd hnew hold
          · rw [hi] at hnew
            simp only [Option.some.injEq] at hnew
            subst hnew
            exact ⟨nm, rfl, hi⟩
          · rw [hi] at hnew
            exact absurd hnew hold

theorem NewRuleConfig_stages (S : Std) (W : World) (config : Config) :
    (∀ err, config.ExternalData.URL ≠ "" →
      W.GetExternalData config.ExternalData = .error err →
      (NewRuleConfig S W config).2 = .error err) ∧
    (∀ td err, (NewRuleConfig.tmplData W config).2 = .ok td →
      mapRules W td config.Rules = .error err → (NewRuleConfig S W config).2 = .error err) ∧
    (∀ td rules err, (NewRuleConfig.tmplData W config).2 = .ok td →
      mapRules W td config.Rules = .ok rules → config.RefreshInterval ≠ "" →
      S.ParseDuration config.RefreshInterval = .error err →
      (NewRuleConfig S W config).2 = .error ("error parsing refresh interval: " ++ err)) := by
  refine ⟨?_, ?_, ?_⟩
  · intro err hu hf
    simp [NewRuleConfig, NewRuleConfig.tmplData, hu, hf]
  · intro td err htd hmap
    unfold NewRuleConfig
    rcases hd : NewRuleConfig.tmplData W config with ⟨evs, res⟩
    rw [hd] at htd
    simp only at htd
    subst htd
    simp only [hmap]
  · intro td rules err htd hmap hr hp
    unfold NewRuleConfig
    rcases hd : NewRuleConfig.tmplData W config with ⟨evs, res⟩
    rw [hd] at htd
    simp only at htd
    subst htd
    simp only [hmap, if_pos hr, hp]

/-- C12, on the code: a call of `updateConfig` that returns an error leaves the
plugin, its snapshot with roots and `NextUpdate` included, exactly as it was;
once the re-check has let the call through, an error of `NewRuleConfig` or an
error returned by `Init` is returned as the error of the call; a failed fetch,
a failed `mapRules` (render or rule construction) and a failed duration parse
are errors of `NewRuleConfig`; and a snapshot other than the old one is
installed only when `NewRuleConfig` built it and `Init` returned without error
on it, hence on every rule of it. But an `Init` that stops with the run-time
error of the routing-table scan makes the call return no error, the snapshot
staying as it was: so the plugin built from `configG`, two hours later on a
host whose routing table has lost its default route, where `scanInterfaces`
and `Init` end with `index out of range [1] with length 1`; with the external
source unreachable the same kind of call returns the fetch error. -/
theorem C12_refresh_atomic_on_failure (S : Std) (W : World) (tg : TLSGuard) :
    ((tg.updateConfig S W).err ≠ none → (tg.updateConfig S W).tg = tg) ∧
    (∀ rc t, tg.matchers = some rc → rc.NextUpdate = some t → t ≤ W.tUpdate →
      (∀ err, (NewRuleConfig S W tg.config).2 = .error err →
        (tg.updateConfig S W).err = some err ∧ (tg.updateConfig S W).tg = tg) ∧
      (∀ nm err, (NewRuleConfig S W tg.config).2 = .ok nm →
        RuleConfig.Init S W nm = .returned (.error err) →
        (tg.updateConfig S W).err = some err ∧ (tg.updateConfig S W).tg = tg) ∧
      (∀ nm index length, (NewRuleConfig S W tg.config).2 = .ok nm →
        RuleConfig.Init S W nm = .indexOutOfRange index length →
        (tg.updateConfig S W).err = none ∧
        (tg.updateConfig S W).stopped = some (index, length) ∧
        (tg.updateConfig S W).tg = tg)) ∧
    ((∀ err, tg.config.ExternalData.URL ≠ "" →
        W.GetExternalData tg.config.ExternalData = .error err →
        (NewRuleConfig S W tg.config).2 = .error err) ∧
      (∀ td err, (NewRuleConfig.tmplData W tg.config).2 = .ok td →
        mapRules W td tg.config.Rules = .error err →
        (NewRuleConfig S W tg.config).2 = .error err) ∧
      (∀ td rules err, (NewRuleConfig.tmplData W tg.config).2 = .ok td →
        mapRules W td tg.config.Rules = .ok rules → tg.config.RefreshInterval ≠ "" →
        S.ParseDuration tg.config.RefreshInterval = .error err →
        (NewRuleConfig S W tg.config).2 =
          .error ("error parsing refresh interval: " ++ err))) ∧
    (∀ m, (tg.updateConfig S W).tg.matchers = some m → tg.matchers ≠ some m →
      ∃ nm, (NewRuleConfig S W tg.config).2 = .ok nm ∧
        RuleConfig.Init S W nm = .returned (.ok m) ∧
        ∀ rule ∈ nm.Rules, ∃ r, Rule.Init S W rule = .returned (.ok r)) ∧
    (New Reference.std (Scenario.routedWorld 0 Scenario.routesWithDefault) Scenario.configG =
        .returned (.ok Scenario.guardG) ∧
      (NewRuleConfig Reference.std
          (Scenario.routedWorld (2 * Scenario.hour) Scenario.routesWithoutDefault)
          Scenario.configG).2 =
        .ok ⟨2 * Scenario.hour, some (3 * Scenario.hour), [.ipRange ["10.0.0.0/8"] true []]⟩ ∧
      scanInterfaces Reference.std
          (Scenario.routedWorld (2 * Scenario.hour) Scenario.routesWithoutDefault) =
        .indexOutOfRange 1 1 ∧
      RuleConfig.Init Reference.std
          (Scenario.routedWorld (2 * Scenario.hour) Scenario.routesWithoutDefault)
          ⟨2 * Scenario.hour, some (3 * Scenario.hour), [.ipRange ["10.0.0.0/8"] true []]⟩ =
        .indexOutOfRange 1 1 ∧
      (Scenario.guardG.updateConfig Reference.std
          (Scenario.routedWorld (2 * Scenario.hour) Scenario.routesWithoutDefault)).err = none ∧
      (Scenario.guardG.updateConfig Reference.std
          (Scenario.routedWorld (2 * Scenario.hour) Scenario.routesWithoutDefault)).stopped =
        some (1, 1) ∧
      (Scenario.guardG.updateConfig Reference.std
          (Scenario.routedWorld (2 * Scenario.hour) Scenario.routesWithoutDefault)).events =
        [Event.build] ∧
      (Scenario.guardG.updateConfig Reference.std
          (Scenario.routedWorld (2 * Scenario.hour) Scenario.routesWithoutDefault)).tg.matchers.map
            (fun rc => (rc.CreationTime, rc.NextUpdate)) = some (0, some Scenario.hour) ∧
      (Scenario.guardG.ServeHTTP Reference.std
          (Scenario.routedWorld (2 * Scenario.hour) Scenario.routesWithoutDefault)
          (Scenario.plainRequest "8.8.8.8")).response = .stopped 1 1 ∧
      (Scenario.guardD.updateConfig Reference.std (Reference.offline (2 * Scenario.hour))).err =
        some "connection refused") := by
  refine ⟨updateConfig_failed_keeps S W tg, ?_, NewRuleConfig_stages S W tg.config, ?_, ?_⟩
  · intro rc t hm hn ht
    have hnot : ¬ t > W.tUpdate := not_lt.2 ht
    rw [updateConfig_rebuild S W tg rc t hm hn hnot]
    refine ⟨?_, ?_, ?_⟩
    · intro err hb
      rw [hb]
      exact ⟨rfl, rfl⟩
    · intro nm err hb hi
      rw [hb]
      simp only
      rw [hi]
      exact ⟨rfl, rfl⟩
    · intro nm index length hb hi
      rw [hb]
      simp only
      rw [hi]
      exact ⟨rfl, rfl, rfl⟩
  · intro m hnew hold
    obtain ⟨nm, hb, hi⟩ := updateConfig_installed S W tg m hnew hold
    exact ⟨nm, hb, hi, RuleConfig_Init_each S W nm m hi⟩
  · exact ⟨rfl, rfl, rfl, rfl, by decide, by decide, by decide, by decide, by decide,
      by decide⟩

/-! ## When a refresh is triggered -/

theorem updateConfigIfRequired_spawn (W : World) (tg : TLSGuard) (rc : RuleConfig) (t : Int)
    (hm : tg.matchers = some rc) (hn : rc.NextUpdate = some t) :
    tg.updateConfigIfRequired W = if t < W.tBackground then [Event.spawn] else [] := by
  unfold TLSGuard.updateConfigIfRequired
  rw [hm]
  simp only
  rw [hn]

theorem NewRuleConfig_events_ne_nil (S : Std) (W : World) (config : Config) :
    (NewRuleConfig S W config).1 ≠ [] := by
  unfold NewRuleConfig
  rcases hd : NewRuleConfig.tmplData W config with ⟨evs, res⟩
  cases res with
  | error err =>
    simp only
    unfold NewRuleConfig.tmplData at hd
    by_cases hu : config.ExternalData.URL ≠ ""
    · rw [if_pos hu] at hd
      cases hf : W.GetExternalData config.ExternalData with
      | error e =>
        rw [hf] at hd
        simp only [Prod.mk.injEq] at hd
        rw [← hd.1]
        simp
      | ok d =>
        rw [hf] at hd
        simp only [Prod.mk.injEq] at hd
        rw [← hd.1]
        simp
    · rw [if_neg hu] at hd
      simp at hd
  | ok td =>
    simp only
    cases mapRules W td config.Rules with
    | error err => simp
    | ok rules =>
      simp only
      by_cases hr : config.RefreshInterval ≠ ""
      · rw [if_pos hr]
        cases S.ParseDuration config.RefreshInterval <;> simp
      · rw [if_neg hr]
        simp

/-- The re-check of `updateConfig` lets a call through exactly when
`NextUpdate` is not after the clock. -/
theorem updateConfig_runs_iff (S : Std) (W : World) (tg : TLSGuard) (rc : RuleConfig) (t : Int)
    (hm : tg.matchers = some rc) (hn : rc.NextUpdate = some t) :
    (tg.updateConfig S W).events ≠ [] ↔ t ≤ W.tUpdate := by
  by_cases ht : t > W.tUpdate
  · rw [updateConfig_skip S W tg (Or.inr ⟨rc, hm, Or.inr ⟨t, hn, ht⟩⟩)]
    simp only [ne_eq, not_true_eq_false, false_iff, not_le]
    exact ht
  · rw [updateConfig_rebuild_events S W tg rc t hm hn ht]
    have hne := NewRuleConfig_events_ne_nil S W tg.config
    have hle : t ≤ W.tUpdate := not_lt.1 ht
    simp only [hle, iff_true]
    exact hne

/-- The deny path of `ServeHTTP` calls `updateConfig` exactly when `NextUpdate`
is before the clock. -/
theorem ServeHTTP_deny_update_iff (S : Std) (W : World) (tg : TLSGuard) (req : Request)
    (rc : RuleConfig) (t : Int) (hm : tg.matchers = some rc) (hn : rc.NextUpdate = some t)
    (hun : ∀ cert, req.peerCertificate = some cert → (tg.findUserByCert cert).2 = false)
    (hdeny : (rc.Match S (tg.annotated S req).Header).1 = false) :
    Event.update ∈ (tg.ServeHTTP S W req).events ↔ t < W.tCheck := by
  rw [ServeHTTP_unresolved S W tg req hun]
  unfold TLSGuard.ServeHTTP.rules
  rw [hm]
  simp only
  rcases hr : rc.Match S (tg.annotated S req).Header with ⟨b, h1⟩
  rw [hr] at hdeny
  simp only at hdeny
  subst hdeny
  simp only [hn]
  by_cases hlt : t < W.tCheck
  · simp only [hlt, decide_True, if_true, iff_true]
    rcases (tg.updateConfig S W).stopped with _ | ⟨i, n⟩
    · simp only
      cases (tg.updateConfig S W).tg.matchers with
      | none => simp
      | some current =>
        simp only
        rcases current.Match S h1 with ⟨b2, h2⟩
        cases b2
        · simp
        · simp [TLSGuard.ServeHTTP.forward]
    · simp
  · simp [hlt]

theorem NewRuleConfig_NextUpdate (S : Std) (W : World) (config : Config) (nm : RuleConfig)
    (h : (NewRuleConfig S W config).2 = .ok nm) :
    (config.RefreshInterval = "" → nm.NextUpdate = none) ∧
    (∀ d, config.RefreshInterval ≠ "" → S.ParseDuration config.RefreshInterval = .ok d →
      nm.NextUpdate = some (W.tCreate + d)) := by
  unfold NewRuleConfig at h
  rcases hd : NewRuleConfig.tmplData W config with ⟨evs, res⟩
  rw [hd] at h
  cases res with
  | error err => simp at h
  | ok td =>
    simp only at h
    cases hmap : mapRules W td config.Rules with
    | error err => simp [hmap] at h
    | ok rules =>
      simp only [hmap] at h
      by_cases hr : config.RefreshInterval ≠ ""
      · rw [if_pos hr] at h
        cases hp : S.ParseDuration config.RefreshInterval with
        | error err => simp [hp] at h
        | ok d0 =>
          simp only [hp, Except.ok.injEq] at h
          subst h
          refine ⟨fun he => absurd he hr, ?_⟩
          intro d _ hd2
          cases hd2
          rfl
      · rw [if_neg hr] at h
        simp only [Except.ok.injEq] at h
        subst h
        exact ⟨fun _ => rfl, fun d hne => absurd hne hr⟩

/-- C13, on the code: the background trigger and the deny-path trigger fire
exactly when `NextUpdate` is before the clock, the re-check of `updateConfig`
lets a call through exactly when `NextUpdate` is not after the clock, and a
snapshot built with an empty `RefreshInterval` has no `NextUpdate`; at the
instant `NextUpdate` itself the snapshot of scenario D, denying a request, sees
no trigger fire while `updateConfig` goes on to fetch. -/
theorem C13_boundary_classification :
    (∀ (W : World) (tg : TLSGuard) (rc : RuleConfig) (t : Int), tg.matchers = some rc →
      rc.NextUpdate = some t →
      (Event.spawn ∈ tg.updateConfigIfRequired W ↔ t < W.tBackground)) ∧
    (∀ (S : Std) (W : World) (tg : TLSGuard) (req : Request) (rc : RuleConfig) (t : Int),
      tg.matchers = some rc → rc.NextUpdate = some t →
      (∀ cert, req.peerCertificate = some cert → (tg.findUserByCert cert).2 = false) →
      (rc.Match S (tg.annotated S req).Header).1 = false →
      (Event.update ∈ (tg.ServeHTTP S W req).events ↔ t < W.tCheck)) ∧
    (∀ (S : Std) (W : World) (tg : TLSGuard) (rc : RuleConfig) (t : Int),
      tg.matchers = some rc → rc.NextUpdate = some t →
      ((tg.updateConfig S W).events ≠ [] ↔ t ≤ W.tUpdate)) ∧
    (∀ (S : Std) (W : World) (config : Config) (nm : RuleConfig),
      config.RefreshInterval = "" → (NewRuleConfig S W config).2 = .ok nm →
      nm.NextUpdate = none) ∧
    Scenario.guardD.matchers.map (fun rc => rc.NextUpdate) = some (some Scenario.hour) ∧
    (Scenario.guardD.ServeHTTP Reference.std (Reference.offline Scenario.hour)
      (Scenario.plainRequest "8.8.8.8")).events = [Event.evaluate] ∧
    Scenario.guardD.updateConfigIfRequired (Reference.offline Scenario.hour) = [] ∧
    (Scenario.guardD.updateConfig Reference.std (Reference.offline Scenario.hour)).events =
      [Event.fetch] := by
  refine ⟨?_, ?_, ?_, ?_, by decide, by decide, by decide, by decide⟩
  · intro W tg rc t hm hn
    rw [updateConfigIfRequired_spawn W tg rc t hm hn]
    by_cases hlt : t < W.tBackground <;> simp [hlt]
  · intro S W tg req rc t hm hn hun hdeny
    exact ServeHTTP_deny_update_iff S W tg req rc t hm hn hun hdeny
  · intro S W tg rc t hm hn
    exact updateConfig_runs_iff S W tg rc t hm hn
  · intro S W config nm he hb
    exact (NewRuleConfig_NextUpdate S W config nm hb).1 he

theorem spawn_not_in_update (S : Std) (W : World) (tg : TLSGuard) :
    Event.spawn ∉ (tg.updateConfig S W).events := by
  intro hmem
  rcases updateConfig_events S W tg _ hmem with h | h <;> cases h

/-- The outcomes of the rule part of `ServeHTTP`: a deny without a spawn, or a
forward that ran the background check on the state it leaves. -/
theorem ServeHTTP_rules_outcome (S : Std) (W : World) (tg : TLSGuard) (req : Request) :
    ((∃ message code, (TLSGuard.ServeHTTP.rules S W tg req).response =
        .httpError message code) ∧
      Event.spawn ∉ (TLSGuard.ServeHTTP.rules S W tg req).events) ∨
    ((TLSGuard.ServeHTTP.rules S W tg req).response = .nilMatchers ∧
      (TLSGuard.ServeHTTP.rules S W tg req).tg.matchers = none) ∨
    ((∃ index length, (TLSGuard.ServeHTTP.rules S W tg req).response =
        .stopped index length) ∧
      Event.spawn ∉ (TLSGuard.ServeHTTP.rules S W tg req).events) ∨
    ((∃ fwd, (TLSGuard.ServeHTTP.rules S W tg req).response = .next fwd) ∧
      ∃ evs, (TLSGuard.ServeHTTP.rules S W tg req).events =
        evs ++ (TLSGuard.ServeHTTP.rules S W tg req).tg.updateConfigIfRequired W) := by
  unfold TLSGuard.ServeHTTP.rules
  cases hm : tg.matchers with
  | none =>
    simp only
    cases req.peerCertificate with
    | none => exact Or.inl ⟨⟨_, _, rfl⟩, by simp⟩
    | some c => exact Or.inr (Or.inr (Or.inr ⟨⟨_, rfl⟩, [], rfl⟩))
  | some rc =>
    simp only
    rcases rc.Match S req.Header with ⟨b, h1⟩
    cases b
    · simp only
      split
      · rcases (tg.updateConfig S W).stopped with _ | ⟨i, n⟩
        · simp only
          cases hu : (tg.updateConfig S W).tg.matchers with
          | none => exact Or.inr (Or.inl ⟨rfl, hu⟩)
          | some current =>
            simp only
            rcases current.Match S h1 with ⟨b2, h2⟩
            cases b2
            · refine Or.inl ⟨⟨_, _, rfl⟩, ?_⟩
              intro h
              simp at h
              exact spawn_not_in_update S W tg h
            · exact Or.inr (Or.inr (Or.inr ⟨⟨_, rfl⟩, _, rfl⟩))
        · refine Or.inr (Or.inr (Or.inl ⟨⟨_, _, rfl⟩, ?_⟩))
          intro h
          simp at h
          exact spawn_not_in_update S W tg h
      · exact Or.inl ⟨⟨_, _, rfl⟩, by simp⟩
    · exact Or.inr (Or.inr (Or.inr ⟨⟨_, rfl⟩, _, rfl⟩))

/-- C14, as the code has it: a request whose identity is not resolved and that
is forwarded has had a background refresh started when the `NextUpdate` of the
snapshot it leaves is before the clock; a request allowed through the identity
bypass does nothing besides being forwarded, so it starts none; and a denied
request starts none. -/
theorem C14_background_refresh_on_forward (S : Std) (W : World) (tg : TLSGuard)
    (req : Request) :
    ((∀ cert, req.peerCertificate = some cert → (tg.findUserByCert cert).2 = false) →
      ∀ fwd rc t, (tg.ServeHTTP S W req).response = .next fwd →
        (tg.ServeHTTP S W req).tg.matchers = some rc → rc.NextUpdate = some t →
        t < W.tBackground → Event.spawn ∈ (tg.ServeHTTP S W req).events) ∧
    (∀ cert u, req.peerCertificate = some cert → tg.findUserByCert cert = (u, true) →
      (tg.ServeHTTP S W req).events = []) ∧
    (∀ message code, (tg.ServeHTTP S W req).response = .httpError message code →
      Event.spawn ∉ (tg.ServeHTTP S W req).events) := by
  refine ⟨?_, ?_, ?_⟩
  · intro hun fwd rc t hresp hm hn hlt
    rw [ServeHTTP_unresolved S W tg req hun] at hresp hm ⊢
    rcases ServeHTTP_rules_outcome S W tg (tg.annotated S req) with
      ⟨⟨message, code, hd⟩, _⟩ | ⟨hnil, _⟩ | ⟨⟨i, n, hs⟩, _⟩ | ⟨_, evs, hev⟩
    · rw [hd] at hresp
      cases hresp
    · rw [hnil] at hresp
      cases hresp
    · rw [hs] at hresp
      cases hresp
    · rw [hev, updateConfigIfRequired_spawn W _ rc t hm hn, if_pos hlt]
      simp
  · intro cert u hcert hres
    rw [ServeHTTP_resolved S W tg req cert u hcert hres]
  · intro message code hresp
    by_cases hres : ∃ cert u, req.peerCertificate = some cert ∧ tg.findUserByCert cert = (u, true)
    · obtain ⟨cert, u, hcert, hfind⟩ := hres
      rw [ServeHTTP_resolved S W tg req cert u hcert hfind] at hresp
      cases hresp
    · have hun : ∀ cert, req.peerCertificate = some cert →
          (tg.findUserByCert cert).2 = false := by
        intro cert hcert
        rcases hf : tg.findUserByCert cert with ⟨u, b⟩
        cases b
        · rfl
        · exact absurd ⟨cert, u, hcert, hf⟩ hres
      rw [ServeHTTP_unresolved S W tg req hun] at hresp ⊢
      rcases ServeHTTP_rules_outcome S W tg (tg.annotated S req) with
        ⟨_, hno⟩ | ⟨hnil, _⟩ | ⟨_, hno⟩ | ⟨⟨fwd, hf⟩, _⟩
      · exact hno
      · rw [hnil] at hresp
        cases hresp
      · exact hno
      · rw [hf] at hresp
        cases hresp

/-- C14 at the snapshot of scenario D: the request from 10.1.2.3 with a
matching key, forwarded two hours after the snapshot was built, starts a
background refresh. -/
theorem C14_background_refresh_on_forward_witness :
    Event.spawn ∈ (Scenario.guardD.ServeHTTP Reference.std
      (Reference.offline (2 * Scenario.hour)) (Scenario.plainRequest "10.1.2.3")).events :=
  (C14_background_refresh_on_forward Reference.std (Reference.offline (2 * Scenario.hour))
    Scenario.guardD (Scenario.plainRequest "10.1.2.3")).1 (by intro c hc; cases hc)
    ⟨none, [("X-Tlsguard-Cidr", ["10.0.0.0/8"]), ("X-Tlsguard-Header", ["true"]),
      ("X-Tlsguard-Cert-Sn", ["NoCert"]), ("X-Real-Ip", ["10.1.2.3"]),
      ("X-Api-Key", ["secret-42"])]⟩
    _ Scenario.hour (by decide) rfl rfl (by decide)

/-- C14 fails as stated: two hours after the snapshots of `guardF` and `guardD`
were built with a refresh interval of one hour, the request of alice, allowed
through the identity bypass, and the request from 8.8.8.8, denied, start no
background refresh. -/
theorem C14_counterexample :
    Scenario.guardF.matchers.map (fun rc => rc.NextUpdate) = some (some Scenario.hour) ∧
    Scenario.hour < (Reference.offline (2 * Scenario.hour)).tBackground ∧
    (∃ fwd, (Scenario.guardF.ServeHTTP Reference.std (Reference.offline (2 * Scenario.hour))
      (Scenario.certRequest Scenario.certAlice "8.8.8.8")).response = .next fwd) ∧
    (Scenario.guardF.ServeHTTP Reference.std (Reference.offline (2 * Scenario.hour))
      (Scenario.certRequest Scenario.certAlice "8.8.8.8")).events = [] ∧
    Scenario.guardD.matchers.map (fun rc => rc.NextUpdate) = some (some Scenario.hour) ∧
    (Scenario.guardD.ServeHTTP Reference.std (Reference.offline (2 * Scenario.hour))
      (Scenario.plainRequest "8.8.8.8")).response = .httpError "Forbidden" 403 ∧
    (Scenario.guardD.ServeHTTP Reference.std (Reference.offline (2 * Scenario.hour))
      (Scenario.plainRequest "8.8.8.8")).events =
        [Event.evaluate, Event.update, Event.fetch, Event.evaluate] :=
  ⟨by decide, by decide, ⟨_, rfl⟩, by decide, by decide, by decide, by decide⟩

theorem RuleConfig_Init_NextUpdate (S : Std) (W : World) (nm m : RuleConfig)
    (h : RuleConfig.Init S W nm = .returned (.ok m)) : m.NextUpdate = nm.NextUpdate := by
  unfold RuleConfig.Init at h
  rcases hr : Rules.Init S W nm.Rules with (e | rs) | ⟨i, n⟩
  · simp [hr] at h
  · simp only [hr, Run.returned.injEq, Except.ok.injEq] at h
    subst h
    rfl
  · simp [hr] at h

/-- C15: `updateConfig` on a plugin without snapshot, with a snapshot without
`NextUpdate`, or with `NextUpdate` after the clock, fetches nothing, builds
nothing, returns, returns no error and leaves the plugin as it is; and after a
call at which the re-check passed and which returned, with no error, the
installed snapshot expires at its creation instant plus the interval `d`, so
that a later call whose clock reads less than that is such a call that does
nothing. -/
theorem C15_recheck_before_work (S : Std) (W : World) (tg : TLSGuard) :
    ((tg.matchers = none ∨ ∃ rc, tg.matchers = some rc ∧
        (rc.NextUpdate = none ∨ ∃ t, rc.NextUpdate = some t ∧ W.tUpdate < t)) →
      (tg.updateConfig S W).events = [] ∧ (tg.updateConfig S W).err = none ∧
      (tg.updateConfig S W).stopped = none ∧ (tg.updateConfig S W).tg = tg) ∧
    (∀ (rc : RuleConfig) (t d : Int) (W2 : World), tg.matchers = some rc →
      rc.NextUpdate = some t → t ≤ W.tUpdate → (tg.updateConfig S W).stopped = none →
      (tg.updateConfig S W).err = none →
      tg.config.RefreshInterval ≠ "" → S.ParseDuration tg.config.RefreshInterval = .ok d →
      W2.tUpdate < W.tCreate + d →
      (∃ m, (tg.updateConfig S W).tg.matchers = some m ∧
        m.NextUpdate = some (W.tCreate + d)) ∧
      (TLSGuard.updateConfig S W2 (tg.updateConfig S W).tg).events = [] ∧
      (TLSGuard.updateConfig S W2 (tg.updateConfig S W).tg).err = none ∧
      (TLSGuard.updateConfig S W2 (tg.updateConfig S W).tg).stopped = none ∧
      (TLSGuard.updateConfig S W2 (tg.updateConfig S W).tg).tg = (tg.updateConfig S W).tg) := by
  refine ⟨?_, ?_⟩
  · intro h
    rw [updateConfig_skip S W tg h]
    exact ⟨rfl, rfl, rfl, rfl⟩
  · intro rc t d W2 hm hn ht hret herr hr hp hlt
    have hnot : ¬ t > W.tUpdate := not_lt.2 ht
    rw [updateConfig_rebuild S W tg rc t hm hn hnot] at hret herr ⊢
    cases hb : (NewRuleConfig S W tg.config).2 with
    | error err =>
      rw [hb] at herr
      simp at herr
    | ok nm =>
      rw [hb] at hret herr
      simp only at hret herr ⊢
      rcases hi : RuleConfig.Init S W nm with (err | m) | ⟨i, n⟩
      · rw [hi] at herr
        simp at herr
      · simp only
        have hnext : m.NextUpdate = some (W.tCreate + d) := by
          rw [RuleConfig_Init_NextUpdate S W nm m hi]
          exact (NewRuleConfig_NextUpdate S W tg.config nm hb).2 d hr hp
        refine ⟨⟨m, rfl, hnext⟩, ?_⟩
        rw [updateConfig_skip S W2 { tg with matchers := some m }
          (Or.inr ⟨m, rfl, Or.inr ⟨_, hnext, hlt⟩⟩)]
        exact ⟨rfl, rfl, rfl, rfl⟩
      · rw [hi] at hret
        simp at hret

/-- C15 at scenario D: the refresh two hours after the build installs a
snapshot that expires at three hours, and a second call a moment later fetches
nothing. -/
theorem C15_recheck_before_work_witness :
    (Scenario.guardE.updateConfig Reference.std
      (Scenario.changedWorld (2 * Scenario.hour))).events = [Event.fetch, Event.build] ∧
    (TLSGuard.updateConfig Reference.std (Scenario.changedWorld (2 * Scenario.hour + 1))
      (Scenario.guardE.updateConfig Reference.std
        (Scenario.changedWorld (2 * Scenario.hour))).tg).events = [] :=
  ⟨by decide,
   ((C15_recheck_before_work Reference.std (Scenario.changedWorld (2 * Scenario.hour))
      Scenario.guardE).2 _ Scenario.hour Scenario.hour
      (Scenario.changedWorld (2 * Scenario.hour + 1)) rfl rfl (by decide) (by decide)
      (by decide) (by decide) rfl (by decide)).2.1⟩

/-! ## Building the rules -/

/-- C16, on the code: with a non-empty URL the template variable `data` is
the fetched dataset indexed by `DataKey`, whatever `DataKey` is; with an empty
URL nothing is fetched and the template data is empty; so with an empty
`DataKey` and a dataset whose one key is `ranges` the variable `data` is nil,
not the dataset. -/
theorem C16_data_is_indexed_by_dataKey :
    (∀ (W : World) (config : Config) (D : List (String × Json)),
      config.ExternalData.URL ≠ "" → W.GetExternalData config.ExternalData = .ok D →
      NewRuleConfig.tmplData W config =
        ([Event.fetch], .ok [("data", Json.index D config.ExternalData.DataKey)])) ∧
    (∀ (W : World) (config : Config), config.ExternalData.URL = "" →
      NewRuleConfig.tmplData W config = ([], .ok [])) ∧
    Scenario.configD.ExternalData.URL ≠ "" ∧
    Scenario.configD.ExternalData.DataKey = "" ∧
    NewRuleConfig.tmplData (Reference.world 0 (.ok [("ranges", .str "10.0.0.0/8")]))
      Scenario.configD = ([Event.fetch], .ok [("data", Json.null)]) ∧
    Json.null ≠ Json.obj [("ranges", .str "10.0.0.0/8")] := by
  refine ⟨?_, ?_, by decide, by decide, rfl, ?_⟩
  · intro W config D hu hf
    simp [NewRuleConfig.tmplData, hu, hf]
  · intro W config hu
    simp [NewRuleConfig.tmplData, hu]
  · intro h
    cases h

theorem segments_eq (segs acc : List String) :
    mapRules.segments segs acc =
      acc ++ (segs.map strings.TrimSpace).filter (fun segment => segment ≠ "") := by
  induction segs generalizing acc with
  | nil => simp [mapRules.segments]
  | cons seg rest ih =>
    rw [mapRules.segments]
    by_cases he : strings.TrimSpace seg = ""
    · simp [he, ih]
    · simp [he, ih]

/-- The entries one range string adds to `rrule.Ranges`. -/
theorem ranges_cons (W : World) (td : List (String × Json)) (r : String) (rest : List String)
    (acc : List String) (val : String) (hr : W.templateValue r td = .ok val) :
    mapRules.ranges W td (r :: rest) acc =
      mapRules.ranges W td rest
        (acc ++ if strings.ContainsComma val = true then commaEntries val
          else if strings.TrimSpace val = "" then [] else [strings.TrimSpace val]) := by
  rw [mapRules.ranges, hr]
  simp only
  by_cases hc : strings.ContainsComma val = true
  · simp only [hc, if_true, segments_eq, commaEntries]
  · simp only [hc, Bool.false_eq_true, if_false]
    by_cases he : strings.TrimSpace val = ""
    · simp [he]
    · simp [he]

theorem ranges_acc_map (W : World) (td : List (String × Json)) (ranges acc : List String) :
    mapRules.ranges W td ranges acc =
      (mapRules.ranges W td ranges []).map (fun entries => acc ++ entries) := by
  induction ranges generalizing acc with
  | nil => simp [mapRules.ranges, Except.map]
  | cons r rest ih =>
    cases hr : W.templateValue r td with
    | error err => simp [mapRules.ranges, hr, Except.map]
    | ok val =>
      rw [ranges_cons W td r rest acc val hr, ranges_cons W td r rest [] val hr, ih,
        ih ([] ++ _)]
      cases mapRules.ranges W td rest [] with
      | error err => rfl
      | ok es => simp [Except.map]

theorem ranges_acc (W : World) (td : List (String × Json)) (ranges acc entries : List String)
    (h : mapRules.ranges W td ranges [] = .ok entries) :
    mapRules.ranges W td ranges acc = .ok (acc ++ entries) := by
  rw [ranges_acc_map, h]
  rfl

theorem ranges_append (W : World) (td : List (String × Json)) (pre post ePre ePost : List String)
    (hpre : mapRules.ranges W td pre [] = .ok ePre)
    (hpost : mapRules.ranges W td post [] = .ok ePost) :
    mapRules.ranges W td (pre ++ post) [] = .ok (ePre ++ ePost) := by
  induction pre generalizing ePre with
  | nil =>
    simp only [mapRules.ranges, Except.ok.injEq] at hpre
    subst hpre
    simpa using hpost
  | cons r rest ih =>
    cases hr : W.templateValue r td with
    | error err => simp [mapRules.ranges, hr] at hpre
    | ok val =>
      rw [List.cons_append, ranges_cons W td r _ [] val hr]
      rw [ranges_cons W td r rest [] val hr] at hpre
      cases hrest : mapRules.ranges W td rest [] with
      | error err =>
        rw [ranges_acc_map, hrest] at hpre
        cases hpre
      | ok es =>
        rw [ranges_acc W td rest _ es hrest] at hpre
        simp only [Except.ok.injEq] at hpre
        subst hpre
        rw [ranges_acc W td (rest ++ post) _ (es ++ ePost) (ih es hrest)]
        simp

theorem SplitComma_loop_spec (cs : List Char) :
    [','].intercalate (strings.SplitComma.loop cs) = cs ∧
    (∀ seg ∈ strings.SplitComma.loop cs, ',' ∉ seg) ∧ strings.SplitComma.loop cs ≠ [] := by
  induction cs with
  | nil => simp [strings.SplitComma.loop, List.intercalate]
  | cons c rest ih =>
    obtain ⟨hjoin, hseg, hne⟩ := ih
    rw [strings.SplitComma.loop]
    by_cases hc : c = ','
    · subst hc
      simp only [if_true]
      refine ⟨?_, ?_, by simp⟩
      · cases hl : strings.SplitComma.loop rest with
        | nil => exact absurd hl hne
        | cons seg segs =>
          rw [hl] at hjoin
          simp only [List.intercalate, List.intersperse, List.flatten_cons, List.nil_append,
            List.singleton_append] at hjoin ⊢
          rw [hjoin]
      · intro seg hmem
        rcases List.mem_cons.1 hmem with rfl | hmem
        · simp
        · exact hseg seg hmem
    · simp only [hc, if_false]
      cases hl : strings.SplitComma.loop rest with
      | nil => exact absurd hl hne
      | cons seg segs =>
        rw [hl] at hjoin hseg
        refine ⟨?_, ?_, by simp⟩
        · cases segs with
          | nil =>
            simp only [List.intercalate, List.intersperse, List.flatten_cons, List.flatten_nil,
              List.append_nil] at hjoin ⊢
            rw [hjoin]
          | cons seg2 segs2 =>
            simp only [List.intercalate, List.intersperse, List.flatten_cons,
              List.cons_append] at hjoin ⊢
            rw [hjoin]
        · intro x hmem
          rcases List.mem_cons.1 hmem with rfl | hmem
          · intro hx
            rcases List.mem_cons.1 hx with h | h
            · exact hc h.symm
            · exact hseg seg (by simp) h
          · exact hseg x (by simp [hmem])

theorem mapRules_rule_ipRange (W : World) (td : List (String × Json))
    (headers : List (String × String)) (ranges : List String) (addInterface : Bool)
    (rules : List RawRule) :
    mapRules.rule W td (.mk IPRange headers ranges addInterface rules) =
      match mapRules.ranges W td ranges [] with
      | .error err => .error err
      | .ok rs => .ok (.ipRange rs addInterface []) := by
  rw [mapRules.rule]
  rw [if_neg (by decide), if_neg (by decide), if_neg (by decide), if_pos rfl]

theorem ranges_around (W : World) (td : List (String × Json)) (pre : List String) (r : String)
    (post : List String) (val : String) (ePre ePost : List String)
    (hr : W.templateValue r td = .ok val)
    (hpre : mapRules.ranges W td pre [] = .ok ePre)
    (hpost : mapRules.ranges W td post [] = .ok ePost) :
    mapRules.ranges W td (pre ++ r :: post) [] =
      .ok (ePre ++ (if strings.ContainsComma val = true then commaEntries val
        else if strings.TrimSpace val = "" then [] else [strings.TrimSpace val]) ++ ePost) := by
  have hmid : mapRules.ranges W td (r :: post) [] =
      .ok ((if strings.ContainsComma val = true then commaEntries val
        else if strings.TrimSpace val = "" then [] else [strings.TrimSpace val]) ++ ePost) := by
    rw [ranges_cons W td r post [] val hr, ranges_acc W td post _ ePost hpost]
    simp
  rw [ranges_append W td pre (r :: post) ePre _ hpre hmid]
  simp

/-- C17: a range string of an `ipRange` descriptor whose rendered value has a
comma adds to the rule exactly the comma-separated segments of that value,
trimmed, without the empty ones and in order, between the entries of the range
strings before it and those of the range strings after it; the segments are
those of `strings.Split`: joined by commas they give the value back and none
has a comma; and `10.0.0.0/8,192.168.0.0/16` gives the two entries 10.0.0.0/8
and 192.168.0.0/16. -/
theorem C17_comma_ranges (W : World) (td : List (String × Json)) (pre : List String)
    (r : String) (post : List String) (val : String) (ePre ePost : List String)
    (hr : W.templateValue r td = .ok val) (hc : strings.ContainsComma val = true)
    (hpre : mapRules.ranges W td pre [] = .ok ePre)
    (hpost : mapRules.ranges W td post [] = .ok ePost) :
    (∀ headers addInterface rules,
      mapRules.rule W td (.mk IPRange headers (pre ++ r :: post) addInterface rules) =
        .ok (.ipRange (ePre ++ commaEntries val ++ ePost) addInterface [])) ∧
    [','].intercalate ((strings.SplitComma val).map String.data) = val.data ∧
    (∀ seg ∈ strings.SplitComma val, ',' ∉ seg.data) ∧
    commaEntries "10.0.0.0/8,192.168.0.0/16" = ["10.0.0.0/8", "192.168.0.0/16"] := by
  obtain ⟨hjoin, hseg, _⟩ := SplitComma_loop_spec val.data
  refine ⟨?_, ?_, ?_, by decide⟩
  · intro headers addInterface rules
    rw [mapRules_rule_ipRange, ranges_around W td pre r post val ePre ePost hr hpre hpost,
      if_pos hc]
  · simpa [strings.SplitComma, List.map_map, Function.comp_def] using hjoin
  · intro seg hmem
    simp only [strings.SplitComma, List.mem_map] at hmem
    obtain ⟨cs, hcs, rfl⟩ := hmem
    exact hseg cs hcs

/-- C17 at the range string `[[env "X"]]` with X holding
`10.0.0.0/8,192.168.0.0/16`: the rule has exactly the two entries. -/
theorem C17_comma_ranges_witness :
    mapRules.rule Scenario.envWorld [] (.mk "ipRange" [] ["[[env \"X\"]]"] false []) =
      .ok (.ipRange ["10.0.0.0/8", "192.168.0.0/16"] false []) :=
  (C17_comma_ranges Scenario.envWorld [] [] "[[env \"X\"]]" [] "10.0.0.0/8,192.168.0.0/16"
    [] [] rfl (by decide) rfl rfl).1 [] false []

/-- C18, as the code has it: a range string of an `ipRange` descriptor whose
rendered value has no comma adds to the rule exactly one entry, the value
trimmed of surrounding whitespace, when that is not empty, and no entry when
it is empty. -/
theorem C18_single_range (W : World) (td : List (String × Json)) (pre : List String)
    (r : String) (post : List String) (val : String) (ePre ePost : List String)
    (hr : W.templateValue r td = .ok val) (hc : strings.ContainsComma val = false)
    (hpre : mapRules.ranges W td pre [] = .ok ePre)
    (hpost : mapRules.ranges W td post [] = .ok ePost) :
    (strings.TrimSpace val ≠ "" → ∀ headers addInterface rules,
      mapRules.rule W td (.mk IPRange headers (pre ++ r :: post) addInterface rules) =
        .ok (.ipRange (ePre ++ [strings.TrimSpace val] ++ ePost) addInterface [])) ∧
    (strings.TrimSpace val = "" → ∀ headers addInterface rules,
      mapRules.rule W td (.mk IPRange headers (pre ++ r :: post) addInterface rules) =
        .ok (.ipRange (ePre ++ ePost) addInterface [])) := by
  refine ⟨?_, ?_⟩
  · intro hne headers addInterface rules
    rw [mapRules_rule_ipRange, ranges_around W td pre r post val ePre ePost hr hpre hpost, hc]
    simp [hne]
  · intro he headers addInterface rules
    rw [mapRules_rule_ipRange, ranges_around W td pre r post val ePre ePost hr hpre hpost, hc]
    simp [he]

/-- C18 at the range string ` 10.0.0.0/8 ` between two others: the one entry
10.0.0.0/8, in its place. -/
theorem C18_single_range_witness :
    mapRules.rule (Reference.offline 0) []
        (.mk "ipRange" [] ["192.168.0.0/16", " 10.0.0.0/8 ", "172.16.0.0/12"] false []) =
      .ok (.ipRange ["192.168.0.0/16", "10.0.0.0/8", "172.16.0.0/12"] false []) :=
  (C18_single_range (Reference.offline 0) [] ["192.168.0.0/16"] " 10.0.0.0/8 "
    ["172.16.0.0/12"] " 10.0.0.0/8 " ["192.168.0.0/16"] ["172.16.0.0/12"] rfl (by decide)
    rfl rfl).1 (by decide) [] false []

/-- C18 fails as stated: the range string of three blanks renders to three
blanks, which have no comma, and adds no entry, where the claim has the one
entry that is the trimmed value. -/
theorem C18_counterexample :
    (Reference.offline 0).templateValue "   " [] = .ok "   " ∧
    strings.ContainsComma "   " = false ∧
    strings.TrimSpace "   " = "" ∧
    mapRules.rule (Reference.offline 0) [] (.mk "ipRange" [] ["   "] false []) =
      .ok (.ipRange [] false []) ∧
    ([] : List String) ≠ [strings.TrimSpace "   "] :=
  ⟨rfl, by decide, by decide, rfl, by decide⟩

theorem ranges_renders (W : World) (td : List (String × Json)) (ranges : List String) :
    ((ranges.any (fun r => !(W.templateValue r td).isOk)) = true →
      ∃ err, mapRules.ranges W td ranges [] = .error err) ∧
    ((ranges.any (fun r => !(W.templateValue r td).isOk)) = false →
      ∃ es, mapRules.ranges W td ranges [] = .ok es) := by
  induction ranges with
  | nil => simp [mapRules.ranges]
  | cons r rest ih =>
    cases hr : W.templateValue r td with
    | error err => simp [mapRules.ranges, hr, Except.isOk, Except.toBool]
    | ok val =>
      rw [ranges_cons W td r rest [] val hr, ranges_acc_map]
      simp only [List.any_cons, hr, Except.isOk, Except.toBool, Bool.not_true, Bool.false_or]
      refine ⟨?_, ?_⟩
      · intro h
        obtain ⟨err, he⟩ := ih.1 h
        exact ⟨err, by rw [he]; rfl⟩
      · intro h
        obtain ⟨es, he⟩ := ih.2 h
        exact ⟨_, by rw [he]; rfl⟩

theorem headers_renders (W : World) (td : List (String × Json))
    (headers : List (String × String)) :
    ((headers.any (fun kv => !(W.templateValue kv.2 td).isOk)) = true →
      ∃ err, mapRules.headers W td headers = .error err) ∧
    ((headers.any (fun kv => !(W.templateValue kv.2 td).isOk)) = false →
      ∃ hs, mapRules.headers W td headers = .ok hs) := by
  induction headers with
  | nil => simp [mapRules.headers]
  | cons kv rest ih =>
    obtain ⟨key, value⟩ := kv
    cases hr : W.templateValue value td with
    | error err => simp [mapRules.headers, hr, Except.isOk, Except.toBool]
    | ok val =>
      simp only [List.any_cons, hr, Except.isOk, Except.toBool, Bool.not_true, Bool.false_or,
        mapRules.headers]
      refine ⟨?_, ?_⟩
      · intro h
        obtain ⟨err, he⟩ := ih.1 h
        exact ⟨err, by rw [he]⟩
      · intro h
        obtain ⟨hs, he⟩ := ih.2 h
        exact ⟨_, by rw [he]⟩

theorem mapRules_rule_allOf (W : World) (td : List (String × Json))
    (headers : List (String × String)) (ranges : List String) (addInterface : Bool)
    (rules : List RawRule) :
    mapRules.rule W td (.mk AllOf headers ranges addInterface rules) =
      match mapRules W td rules with
      | .error err => .error ("error mapping rules: " ++ err)
      | .ok rs => .ok (.allOf rs) := by
  rw [mapRules.rule, if_pos rfl]

theorem mapRules_rule_anyOf (W : World) (td : List (String × Json))
    (headers : List (String × String)) (ranges : List String) (addInterface : Bool)
    (rules : List RawRule) :
    mapRules.rule W td (.mk AnyOf headers ranges addInterface rules) =
      match mapRules W td rules with
      | .error err => .error ("error mapping rules: " ++ err)
      | .ok rs => .ok (.anyOf rs) := by
  rw [mapRules.rule, if_neg (by decide), if_pos rfl]

theorem mapRules_rule_noneOf (W : World) (td : List (String × Json))
    (headers : List (String × String)) (ranges : List String) (addInterface : Bool)
    (rules : List RawRule) :
    mapRules.rule W td (.mk NoneOf headers ranges addInterface rules) =
      match mapRules W td rules with
      | .error err => .error ("error mapping rules: " ++ err)
      | .ok rs => .ok (.noneOf rs) := by
  rw [mapRules.rule, if_neg (by decide), if_neg (by decide), if_pos rfl]

theorem mapRules_rule_header (W : World) (td : List (String × Json))
    (headers : List (String × String)) (ranges : List String) (addInterface : Bool)
    (rules : List RawRule) :
    mapRules.rule W td (.mk Header headers ranges addInterface rules) =
      match mapRules.headers W td headers with
      | .error err => .error err
      | .ok hs => .ok (.header hs []) := by
  rw [mapRules.rule, if_neg (by decide), if_neg (by decide), if_neg (by decide),
    if_neg (by decide), if_pos rfl]

theorem mapRules_rule_unknown (W : World) (td : List (String × Json)) (type_ : String)
    (headers : List (String × String)) (ranges : List String) (addInterface : Bool)
    (rules : List RawRule) (h1 : type_ ≠ AllOf) (h2 : type_ ≠ AnyOf) (h3 : type_ ≠ NoneOf)
    (h4 : type_ ≠ IPRange) (h5 : type_ ≠ Header) :
    mapRules.rule W td (.mk type_ headers ranges addInterface rules) =
      .error ("unknown rule type: " ++ type_) := by
  rw [mapRules.rule, if_neg h1, if_neg h2, if_neg h3, if_neg h4, if_neg h5]

mutual
theorem mapRules_rule_spec (W : World) (td : List (String × Json)) : ∀ (r : RawRule),
    (RawRule.unknownType r = true ∨ RawRule.renderFails W td r = true →
      ∃ err, mapRules.rule W td r = .error err) ∧
    (RawRule.unknownType r = false → RawRule.renderFails W td r = false →
      ∃ rule, mapRules.rule W td r = .ok rule ∧ RawRule.sameKind r rule = true)
  | .mk type_ headers ranges addInterface rules => by
    have ih := mapRules_spec W td rules
    by_cases h1 : type_ = AllOf
    · subst h1
      rw [mapRules_rule_allOf]
      have hc : isComposite AllOf = true := by decide
      simp only [RawRule.unknownType, RawRule.renderFails, hc, if_true]
      refine ⟨fun h => ?_, fun hu hr => ?_⟩
      · obtain ⟨err, he⟩ := ih.1 h
        exact ⟨_, by rw [he]⟩
      · obtain ⟨x, hx, _, hk⟩ := ih.2 hu hr
        exact ⟨.allOf x, by rw [hx], by simp [RawRule.sameKind, hk]⟩
    by_cases h2 : type_ = AnyOf
    · subst h2
      rw [mapRules_rule_anyOf]
      have hc : isComposite AnyOf = true := by decide
      simp only [RawRule.unknownType, RawRule.renderFails, hc, if_true]
      refine ⟨fun h => ?_, fun hu hr => ?_⟩
      · obtain ⟨err, he⟩ := ih.1 h
        exact ⟨_, by rw [he]⟩
      · obtain ⟨x, hx, _, hk⟩ := ih.2 hu hr
        exact ⟨.anyOf x, by rw [hx], by simp [RawRule.sameKind, hk]⟩
    by_cases h3 : type_ = NoneOf
    · subst h3
      rw [mapRules_rule_noneOf]
      have hc : isComposite NoneOf = true := by decide
      simp only [RawRule.unknownType, RawRule.renderFails, hc, if_true]
      refine ⟨fun h => ?_, fun hu hr => ?_⟩
      · obtain ⟨err, he⟩ := ih.1 h
        exact ⟨_, by rw [he]⟩
      · obtain ⟨x, hx, _, hk⟩ := ih.2 hu hr
        exact ⟨.noneOf x, by rw [hx], by simp [RawRule.sameKind, hk]⟩
    have hc : isComposite type_ = false := by
      simp [isComposite, h1, h2, h3]
    by_cases h4 : type_ = IPRange
    · subst h4
      rw [mapRules_rule_ipRange]
      have hr := ranges_renders W td ranges
      simp only [RawRule.unknownType, RawRule.renderFails, hc, Bool.false_eq_true, if_false,
        beq_self_eq_true, Bool.true_or, Bool.not_true, if_true, false_or]
      refine ⟨fun h => ?_, fun _ h => ?_⟩
      · obtain ⟨err, he⟩ := hr.1 h
        exact ⟨_, by rw [he]⟩
      · obtain ⟨es, he⟩ := hr.2 h
        exact ⟨.ipRange es addInterface [], by rw [he], by simp [RawRule.sameKind]⟩
    by_cases h5 : type_ = Header
    · subst h5
      rw [mapRules_rule_header]
      have hr := headers_renders W td headers
      have hne : (Header == IPRange) = false := by decide
      simp only [RawRule.unknownType, RawRule.renderFails, hc, Bool.false_eq_true, if_false,
        beq_self_eq_true, Bool.or_true, Bool.not_true, if_true, false_or, hne]
      refine ⟨fun h => ?_, fun _ h => ?_⟩
      · obtain ⟨err, he⟩ := hr.1 h
        exact ⟨_, by rw [he]⟩
      · obtain ⟨hs, he⟩ := hr.2 h
        exact ⟨.header hs [], by rw [he], by simp [RawRule.sameKind]⟩
    · rw [mapRules_rule_unknown W td type_ headers ranges addInterface rules h1 h2 h3 h4 h5]
      have hu : RawRule.unknownType (.mk type_ headers ranges addInterface rules) = true := by
        simp [RawRule.unknownType, hc, h4, h5]
      refine ⟨fun _ => ⟨_, rfl⟩, fun h => ?_⟩
      rw [hu] at h
      cases h
theorem mapRules_spec (W : World) (td : List (String × Json)) : ∀ (raws : List RawRule),
    (RawRules.unknownType raws = true ∨ RawRules.renderFails W td raws = true →
      ∃ err, mapRules W td raws = .error err) ∧
    (RawRules.unknownType raws = false → RawRules.renderFails W td raws = false →
      ∃ rules, mapRules W td raws = .ok rules ∧ rules.length = raws.length ∧
        RawRules.sameKinds raws rules = true)
  | [] => by
    simp [mapRules, RawRules.unknownType, RawRules.renderFails, RawRules.sameKinds]
  | r :: rs => by
    have h1 := mapRules_rule_spec W td r
    have h2 := mapRules_spec W td rs
    rw [mapRules]
    simp only [RawRules.unknownType, RawRules.renderFails, Bool.or_eq_true,
      Bool.or_eq_false_iff]
    refine ⟨fun h => ?_, fun hu hr => ?_⟩
    · by_cases hb : RawRule.unknownType r = true ∨ RawRule.renderFails W td r = true
      · obtain ⟨err, he⟩ := h1.1 hb
        exact ⟨err, by rw [he]⟩
      · have hgood : RawRule.unknownType r = false ∧ RawRule.renderFails W td r = false := by
          simpa [not_or] using hb
        obtain ⟨rule, hrule, _⟩ := h1.2 hgood.1 hgood.2
        have hrest : RawRules.unknownType rs = true ∨ RawRules.renderFails W td rs = true := by
          rcases h with (h | h) | (h | h)
          · rw [hgood.1] at h
            cases h
          · exact Or.inl h
          · rw [hgood.2] at h
            cases h
          · exact Or.inr h
        obtain ⟨err, he⟩ := h2.1 hrest
        exact ⟨err, by rw [hrule]; simp only; rw [he]⟩
    · obtain ⟨rule, hrule, hk⟩ := h1.2 hu.1 hr.1
      obtain ⟨rules, hrules, hlen, hks⟩ := h2.2 hu.2 hr.2
      exact ⟨rule :: rules, by rw [hrule]; simp only; rw [hrules], by simp [hlen],
        by simp [RawRules.sameKinds, hk, hks]⟩
end

/-- C19: `mapRules` returns an error, and so no rule list, when a descriptor
at top level or nested at any depth under `allOf`, `anyOf` or `noneOf`
descriptors has a type that is none of the five kinds, or when a range or a
header value of such a descriptor fails to render; when neither happens it
returns a rule list of the same length whose rules have, one by one and
recursively for the children of composites, the kinds of the descriptors. -/
theorem C19_mapRules_unknown_type (W : World) (td : List (String × Json))
    (raws : List RawRule) :
    (RawRules.unknownType raws = true ∨ RawRules.renderFails W td raws = true →
      ∃ err, mapRules W td raws = .error err) ∧
    (RawRules.unknownType raws = false → RawRules.renderFails W td raws = false →
      ∃ rules, mapRules W td raws = .ok rules ∧ rules.length = raws.length ∧
        RawRules.sameKinds raws rules = true) :=
  mapRules_spec W td raws

/-- C19 at a descriptor of type `geo` two levels down, and at the descriptors
of scenario B. -/
theorem C19_mapRules_unknown_type_witness :
    (∃ err, mapRules (Reference.offline 0) []
      [.mk "allOf" [] [] false
        [.mk "ipRange" [] ["10.0.0.0/8"] false [],
         .mk "anyOf" [] [] false [.mk "geo" [] [] false []]]] = .error err) ∧
    (∃ rules, mapRules (Reference.offline 0) [] Scenario.configB.Rules = .ok rules ∧
      rules.length = 1 ∧ RawRules.sameKinds Scenario.configB.Rules rules = true) :=
  ⟨(C19_mapRules_unknown_type (Reference.offline 0) [] _).1 (Or.inl (by decide)),
   (C19_mapRules_unknown_type (Reference.offline 0) [] Scenario.configB.Rules).2
     (by decide) (by decide)⟩

/-! ## Callers of the refresh, one after another -/

theorem NewRuleConfig_counts (S : Std) (W : World) (config : Config) :
    (NewRuleConfig S W config).1.count Event.fetch ≤ 1 ∧
    (NewRuleConfig S W config).1.count Event.build ≤ 1 := by
  have hev : (NewRuleConfig.tmplData W config).1 = [Event.fetch] ∨
      (NewRuleConfig.tmplData W config).1 = [] := by
    unfold NewRuleConfig.tmplData
    by_cases hu : config.ExternalData.URL ≠ ""
    · rw [if_pos hu]
      cases W.GetExternalData config.ExternalData <;> exact Or.inl rfl
    · rw [if_neg hu]
      exact Or.inr rfl
  unfold NewRuleConfig
  rcases hd : NewRuleConfig.tmplData W config with ⟨evs, res⟩
  rw [hd] at hev
  simp only at hev
  have hboth : (evs.count Event.fetch ≤ 1 ∧ evs.count Event.build ≤ 1) ∧
      ((evs ++ [Event.build]).count Event.fetch ≤ 1 ∧
        (evs ++ [Event.build]).count Event.build ≤ 1) := by
    rcases hev with h | h <;> subst h <;> decide
  cases res with
  | error err => exact hboth.1
  | ok td =>
    simp only
    cases mapRules W td config.Rules with
    | error err => exact hboth.2
    | ok rules =>
      simp only
      by_cases hr : config.RefreshInterval ≠ ""
      · rw [if_pos hr]
        cases S.ParseDuration config.RefreshInterval <;> exact hboth.2
      · rw [if_neg hr]
        exact hboth.2

theorem updateConfig_counts (S : Std) (W : World) (tg : TLSGuard) :
    (tg.updateConfig S W).events.count Event.fetch ≤ 1 ∧
    (tg.updateConfig S W).events.count Event.build ≤ 1 := by
  cases hm : tg.matchers with
  | none => simp [updateConfig_skip S W tg (Or.inl hm)]
  | some rc =>
    cases hn : rc.NextUpdate with
    | none => simp [updateConfig_skip S W tg (Or.inr ⟨rc, hm, Or.inl hn⟩)]
    | some t =>
      by_cases ht : t > W.tUpdate
      · simp [updateConfig_skip S W tg (Or.inr ⟨rc, hm, Or.inr ⟨t, hn, ht⟩⟩)]
      · rw [updateConfig_rebuild_events S W tg rc t hm hn ht]
        exact NewRuleConfig_counts S W tg.config

theorem updateConfigSerial_fresh (S : Std) (Ws : List World) (tg : TLSGuard) (m : RuleConfig)
    (hm : tg.matchers = some m)
    (hfresh : ∀ W2 ∈ Ws, m.NextUpdate = none ∨ ∃ t2, m.NextUpdate = some t2 ∧ W2.tUpdate < t2) :
    TLSGuard.updateConfigSerial S Ws tg = (tg, []) := by
  induction Ws with
  | nil => rfl
  | cons W2 rest ih =>
    have hskip := updateConfig_skip S W2 tg (Or.inr ⟨m, hm, hfresh W2 (by simp)⟩)
    rw [TLSGuard.updateConfigSerial, hskip]
    simp only
    rw [ih (fun W3 h3 => hfresh W3 (by simp [h3]))]
    rfl

/-- C20, as the code has it, on callers that the mutex lets into `updateConfig`
one after another: when the snapshot that the first caller leaves is Fresh at
the clock reading of every later caller (no `NextUpdate`, or the reading before
it), the later callers fetch and build nothing and leave that snapshot in
place, so that all the callers together make at most one fetch and at most one
build; each later caller, entering on that snapshot, returns no error and has
done nothing. -/
theorem C20_single_fetch_when_installed_is_fresh (S : Std) (W : World) (Ws : List World)
    (tg : TLSGuard) (m : RuleConfig)
    (hinst : (tg.updateConfig S W).tg.matchers = some m)
    (hfresh : ∀ W2 ∈ Ws, m.NextUpdate = none ∨ ∃ t2, m.NextUpdate = some t2 ∧ W2.tUpdate < t2) :
    (TLSGuard.updateConfigSerial S (W :: Ws) tg).1 = (tg.updateConfig S W).tg ∧
    (TLSGuard.updateConfigSerial S (W :: Ws) tg).2 = (tg.updateConfig S W).events ∧
    (TLSGuard.updateConfigSerial S (W :: Ws) tg).2.count Event.fetch ≤ 1 ∧
    (TLSGuard.updateConfigSerial S (W :: Ws) tg).2.count Event.build ≤ 1 ∧
    (∀ W2 ∈ Ws, TLSGuard.updateConfig S W2 (tg.updateConfig S W).tg =
      ⟨(tg.updateConfig S W).tg, none, [], none⟩) := by
  have hrest := updateConfigSerial_fresh S Ws (tg.updateConfig S W).tg m hinst hfresh
  have hev : (TLSGuard.updateConfigSerial S (W :: Ws) tg).2 = (tg.updateConfig S W).events := by
    rw [TLSGuard.updateConfigSerial, hrest]
    simp
  refine ⟨?_, hev, ?_, ?_, ?_⟩
  · rw [TLSGuard.updateConfigSerial, hrest]
  · rw [hev]
    exact (updateConfig_counts S W tg).1
  · rw [hev]
    exact (updateConfig_counts S W tg).2
  · intro W2 hW2
    exact updateConfig_skip S W2 _ (Or.inr ⟨m, hinst, hfresh W2 hW2⟩)

/-- C20 at scenario D: the first caller, two hours after the build, fetches
and installs a snapshot that expires at three hours; the two callers after it
fetch nothing. -/
theorem C20_single_fetch_when_installed_is_fresh_witness :
    (TLSGuard.updateConfigSerial Reference.std
      [Scenario.changedWorld (2 * Scenario.hour), Scenario.changedWorld (2 * Scenario.hour + 1),
        Scenario.changedWorld (2 * Scenario.hour + 2)] Scenario.guardE).2 =
      [Event.fetch, Event.build] := by
  have hinst : (Scenario.guardE.updateConfig Reference.std
      (Scenario.changedWorld (2 * Scenario.hour))).tg.matchers =
      some ⟨2 * Scenario.hour, some (3 * Scenario.hour),
        [.ipRange ["192.168.0.0/16"] false [Scenario.net192]]⟩ := by
    rw [updateConfig_rebuild Reference.std (Scenario.changedWorld (2 * Scenario.hour))
      Scenario.guardE _ Scenario.hour rfl rfl (by decide)]
    rfl
  exact (C20_single_fetch_when_installed_is_fresh Reference.std
    (Scenario.changedWorld (2 * Scenario.hour))
    [Scenario.changedWorld (2 * Scenario.hour + 1), Scenario.changedWorld (2 * Scenario.hour + 2)]
    Scenario.guardE _ hinst (by decide)).2.1.trans (by decide)

/-- C20 fails as stated: two hours after the snapshot of scenario D was built,
with the external source unreachable, three callers that enter `updateConfig`
one after another at the same instant each find the snapshot Stale and each
make a fetch of their own. -/
theorem C20_counterexample :
    Scenario.guardD.matchers.map (fun rc => rc.NextUpdate) = some (some Scenario.hour) ∧
    Scenario.hour < (Reference.offline (2 * Scenario.hour)).tUpdate ∧
    (TLSGuard.updateConfigSerial Reference.std
      [Reference.offline (2 * Scenario.hour), Reference.offline (2 * Scenario.hour),
        Reference.offline (2 * Scenario.hour)] Scenario.guardD).2 =
      [Event.fetch, Event.fetch, Event.fetch] ∧
    (TLSGuard.updateConfigSerial Reference.std
      [Reference.offline (2 * Scenario.hour), Reference.offline (2 * Scenario.hour),
        Reference.offline (2 * Scenario.hour)] Scenario.guardD).2.count Event.fetch = 3 :=
  ⟨by decide, by decide, by decide, by decide⟩

/-! ## Match as a boolean function of the request -/

theorem isIPInRange_loop_any (S : Std) (ip : IP) (cs : List IPNet) :
    (RuleIPRange.isIPInRange.loop S ip cs).1 = cs.any (fun cidr => S.Contains cidr ip) := by
  induction cs with
  | nil => simp [RuleIPRange.isIPInRange.loop]
  | cons d ds ih =>
    rw [RuleIPRange.isIPInRange.loop]
    by_cases hd : S.Contains d ip = true
    · simp [hd]
    · simp [hd, ih]

theorem RuleIPRange_Match_holds (S : Std) (cs : List IPNet) (h : http.Header) :
    (RuleIPRange.Match S cs h).1 =
      match S.ParseIP (clientAddress h) with
      | none => false
      | some ip => cs.any (fun cidr => S.Contains cidr ip) := by
  rw [RuleIPRange_Match_eq]
  have hin : (RuleIPRange.isIPInRange S cs (clientAddress h)).1 =
      match S.ParseIP (clientAddress h) with
      | none => false
      | some ip => cs.any (fun cidr => S.Contains cidr ip) := by
    unfold RuleIPRange.isIPInRange
    cases S.ParseIP (clientAddress h) with
    | none => rfl
    | some ip => exact isIPInRange_loop_any S ip cs
  rw [← hin]
  by_cases hb : (RuleIPRange.isIPInRange S cs (clientAddress h)).1 = true
  · rw [if_pos hb, hb]
  · rw [if_neg hb]
    simp only [Bool.not_eq_true] at hb
    rw [hb]

theorem RuleHeader_Match_loop_all (S : Std) (h : http.Header) (P : List (String × Regexp)) :
    RuleHeader.Match.loop S h P =
      P.all (fun kr => h.Get kr.1 != "" && S.MatchString kr.2 (h.Get kr.1)) := by
  induction P with
  | nil => simp [RuleHeader.Match.loop]
  | cons kr rest ih =>
    obtain ⟨key, regex⟩ := kr
    rw [RuleHeader.Match.loop]
    by_cases hv : h.Get key = ""
    · simp [hv]
    · by_cases hm : S.MatchString regex (h.Get key) = true
      · simp [hv, hm, ih]
      · simp [hv, hm]

theorem RuleHeader_Match_holds (S : Std) (P : List (String × Regexp)) (h : http.Header) :
    (RuleHeader.Match S P h).1 =
      P.all (fun kr => h.Get kr.1 != "" && S.MatchString kr.2 (h.Get kr.1)) := by
  rw [← RuleHeader_Match_loop_all]
  unfold RuleHeader.Match
  by_cases hl : RuleHeader.Match.loop S h P = true
  · rw [if_pos hl, hl]
  · rw [if_neg hl]
    simp only [Bool.not_eq_true] at hl
    rw [hl]

mutual
theorem Rule_Match_holds (S : Std) : ∀ (r : Rule) (h : http.Header),
    Rule.readsMarker r = false → (Rule.Match S r h).1 = Rule.holds S r h
  | .allOf rs, h, hr => by
    rw [Rule_Match_allOf, Rule.holds]
    exact RuleAllOf_Match_holds S rs h (by simpa [Rule.readsMarker] using hr)
  | .anyOf rs, h, hr => by
    rw [Rule_Match_anyOf, Rule.holds]
    exact RuleAnyOf_Match_holds S rs h (by simpa [Rule.readsMarker] using hr)
  | .noneOf rs, h, hr => by
    rw [Rule_Match_noneOf, RuleNoneOf_Match_eq_not_anyOf, Rule.holds]
    simp only
    rw [RuleAnyOf_Match_holds S rs h (by simpa [Rule.readsMarker] using hr)]
  | .ipRange _ _ cs, h, _ => by
    rw [Rule_Match_ipRange, Rule.holds]
    exact RuleIPRange_Match_holds S cs h
  | .header _ P, h, _ => by
    rw [Rule_Match_header, Rule.holds]
    exact RuleHeader_Match_holds S P h
theorem RuleAllOf_Match_holds (S : Std) : ∀ (rs : List Rule) (h : http.Header),
    Rules.readsMarker rs = false → (RuleAllOf.Match S rs h).1 = Rules.allHold S rs h
  | [], h, _ => by simp [RuleAllOf.Match, Rules.allHold]
  | r :: rs, h, hr => by
    simp only [Rules.readsMarker, Bool.or_eq_false_iff] at hr
    rw [RuleAllOf_Match_cons, Rules.allHold, ← Rule_Match_holds S r h hr.1,
      ← RuleAllOf_Match_holds S rs h hr.2]
    by_cases hb : (Rule.Match S r h).1 = true
    · rw [if_pos hb, hb, Bool.true_and]
      exact RuleAllOf_Match_congr S rs _ h hr.2
        (sameRequestHeaders_symm (Rule_Match_frame S r h))
    · rw [if_neg hb]
      simp only [Bool.not_eq_true] at hb
      rw [hb, Bool.false_and]
theorem RuleAnyOf_Match_holds (S : Std) : ∀ (rs : List Rule) (h : http.Header),
    Rules.readsMarker rs = false → (RuleAnyOf.Match S rs h).1 = Rules.anyHolds S rs h
  | [], h, _ => by simp [RuleAnyOf.Match, Rules.anyHolds]
  | r :: rs, h, hr => by
    simp only [Rules.readsMarker, Bool.or_eq_false_iff] at hr
    rw [RuleAnyOf_Match_cons, Rules.anyHolds, ← Rule_Match_holds S r h hr.1,
      ← RuleAnyOf_Match_holds S rs h hr.2]
    by_cases hb : (Rule.Match S r h).1 = true
    · rw [if_pos hb, hb, Bool.true_or]
    · rw [if_neg hb]
      simp only [Bool.not_eq_true] at hb
      rw [hb, Bool.false_or]
      exact RuleAnyOf_Match_congr S rs _ h hr.2
        (sameRequestHeaders_symm (Rule_Match_frame S r h))
end

/-- C21: for a rule tree in which no `header` rule is keyed on a name whose
canonical form is that of X-TLSGuard-Cidr or X-TLSGuard-Header, the result of
`Match` is the side-effect-free evaluation of the tree on the headers as
received (conjunction, disjunction, negated disjunction over the leaf
predicates); it is the same on every request that differs only in those two
headers; and `Match` on the request as the first evaluation left it returns
the same result. -/
theorem C21_match_is_a_function_of_the_request (S : Std) (r : Rule) (h : http.Header)
    (hclean : Rule.readsMarker r = false) :
    (Rule.Match S r h).1 = Rule.holds S r h ∧
    (∀ h2, sameRequestHeaders h h2 → (Rule.Match S r h2).1 = (Rule.Match S r h).1) ∧
    (Rule.Match S r (Rule.Match S r h).2).1 = (Rule.Match S r h).1 :=
  ⟨Rule_Match_holds S r h hclean,
   fun h2 h12 => (Rule_Match_congr S r h h2 hclean h12).symm,
   (Rule_Match_congr S r h _ hclean (Rule_Match_frame S r h)).symm⟩

/-- C21 at `anyOf [allOf [key, range], noneOf [range]]` on the request from
8.8.8.8 with a matching key: the key rule sets X-TLSGuard-Header, and the
result, true, is that of the evaluation without side effects and that of a
second `Match` on the request with the marker. -/
theorem C21_match_is_a_function_of_the_request_witness :
    (Rule.Match Reference.std
      (.anyOf [.allOf [Scenario.keyRule, Scenario.rangeRule], .noneOf [Scenario.rangeRule]])
      (Scenario.plainRequest "8.8.8.8").Header) =
      (true, [("X-Tlsguard-Header", ["true"]), ("X-Real-Ip", ["8.8.8.8"]),
        ("X-Api-Key", ["secret-42"])]) ∧
    Rule.holds Reference.std
      (.anyOf [.allOf [Scenario.keyRule, Scenario.rangeRule], .noneOf [Scenario.rangeRule]])
      (Scenario.plainRequest "8.8.8.8").Header = true ∧
    (Rule.Match Reference.std
      (.anyOf [.allOf [Scenario.keyRule, Scenario.rangeRule], .noneOf [Scenario.rangeRule]])
      [("X-Tlsguard-Header", ["true"]), ("X-Real-Ip", ["8.8.8.8"]),
        ("X-Api-Key", ["secret-42"])]).1 = true :=
  have h := C21_match_is_a_function_of_the_request Reference.std
    (.anyOf [.allOf [Scenario.keyRule, Scenario.rangeRule], .noneOf [Scenario.rangeRule]])
    (Scenario.plainRequest "8.8.8.8").Header (by decide)
  ⟨by decide, h.1.symm.trans (by decide), h.2.2.trans (by decide)⟩

/-! ## The scan of the routing table -/

theorem Split_ne_nil (sep : Char) (cs : List Char) : strings.Split sep cs ≠ [] := by
  induction cs with
  | nil => simp [strings.Split]
  | cons c rest ih =>
    rw [strings.Split]
    by_cases hc : c = sep
    · simp [hc]
    · simp only [hc, if_false]
      cases hl : strings.Split sep rest with
      | nil => exact absurd hl ih
      | cons f fs => simp

theorem Split_without_sep (sep : Char) (cs : List Char) (h : sep ∉ cs) :
    strings.Split sep cs = [cs] := by
  induction cs with
  | nil => simp [strings.Split]
  | cons c rest ih =>
    have hc : ¬ c = sep := fun he => h (by simp [he])
    have hrest : sep ∉ rest := fun hm => h (by simp [hm])
    rw [strings.Split, if_neg hc, ih hrest]

theorem Split_ending_in_sep (sep : Char) (cs : List Char) :
    strings.Split sep (cs ++ [sep]) = strings.Split sep cs ++ [[]] := by
  induction cs with
  | nil => simp [strings.Split]
  | cons c rest ih =>
    simp only [List.cons_append]
    rw [strings.Split, strings.Split, ih]
    by_cases hc : c = sep
    · simp [hc]
    · simp only [hc, if_false]
      cases hl : strings.Split sep rest with
      | nil => exact absurd hl (Split_ne_nil sep rest)
      | cons f fs => simp

theorem scan_line_without_tab (line : List Char) (rest : List (List Char)) (h : tab ∉ line) :
    getDefaultGatewayInterface.loop (line :: rest) = .indexOutOfRange 1 1 := by
  rw [getDefaultGatewayInterface.loop]
  simp [Split_without_sep tab line h]

theorem scan_with_last_line_empty (lines : List (List Char)) (name msg : String) :
    getDefaultGatewayInterface.loop (lines ++ [[]]) ≠ .returned (name, some msg) := by
  induction lines with
  | nil =>
    rw [List.nil_append, scan_line_without_tab [] [] (by simp)]
    intro h
    cases h
  | cons line rest ih =>
    rw [List.cons_append, getDefaultGatewayInterface.loop]
    split
    · split
      · intro h
        cases h
      · split
        · split
          · intro h
            cases h
          · split
            · split
              · intro h
                cases h
              · intro h
                cases h
            · exact ih
        · exact ih
    · exact ih

/-- C22, on the code: the scan indexes `fields[1]` of every line it reaches and
`fields[7]` of every line whose second field is 00000000, whatever the number
of fields, so a line without a tab stops it with `index out of range [1] with
length 1`; the empty file, and a routing table without default route whose
lines end in a newline, end so instead of with the error `default gateway
interface not found`, which no content ending in a newline can give; a line
with the second field 00000000 and three fields ends with `index out of range
[7] with length 3`; with the default route ahead of the other lines the scan
returns its first field. -/
theorem C22_line_scan_indexes_short_lines :
    getDefaultGatewayInterface (.ok "") = .indexOutOfRange 1 1 ∧
    getDefaultGatewayInterface (.ok Scenario.routesWithoutDefault) = .indexOutOfRange 1 1 ∧
    getDefaultGatewayInterface (.ok "eth0\t00000000\t0101A8C0") = .indexOutOfRange 7 3 ∧
    getDefaultGatewayInterface (.ok Scenario.routesWithDefault) = .returned ("eth0", none) ∧
    getDefaultGatewayInterface (.ok "eth0\t0000A8C0\t0101A8C0") =
      .returned ("", some "default gateway interface not found") ∧
    (∀ (line : List Char) (rest : List (List Char)), tab ∉ line →
      getDefaultGatewayInterface.loop (line :: rest) = .indexOutOfRange 1 1) ∧
    (∀ (body name msg : String),
      getDefaultGatewayInterface (.ok (body ++ "\n")) ≠ .returned (name, some msg)) := by
  refine ⟨by decide, by decide, by decide, by decide, by decide, scan_line_without_tab, ?_⟩
  intro body name msg
  have hdata : (body ++ "\n").data = body.data ++ [newline] := by
    rw [String.data_append]
    rfl
  rw [getDefaultGatewayInterface, hdata, Split_ending_in_sep]
  exact scan_with_last_line_empty _ name msg

end Tlsguard
